import Mathlib

/-!
# APEX pipeline simulator (SimpleInterlocking/cpu.c)

A shallow embedding of the seven stage functions and of the run loop of
`cpu.c`, followed by theorems about them.

Modelling conventions.

* A C `int` is a Lean `Int`.  The data path of `execute1` (the only place where
  operands are arbitrary program data and the results are architecturally
  visible) reduces sums, differences and products to the signed 32-bit range
  with `wrap32`; counters and addresses (`pc`, `clock`, `ins_completed`,
  branch targets) are left unreduced.
* A C `int` used as a truth value is true exactly when it is not `0`.
* A C array is a total map on `Int`.  The instruction store is reached through
  the pointer `cpu->code_memory`, whose allocation (`create_code_memory`) is not
  part of `cpu.c`; the map therefore also gives the contents found at indices
  outside `0 .. code_memory_size - 1`, which the stage functions do read and
  write (the past-the-end entry is what the drain test of `writeback` waits
  for).  Cells of `regs`, `regs_valid` and `data_memory` outside the declared
  bounds (`regs[17]`, `regs_valid[17]`, `data_memory[4000]`) are kept apart from
  the cells inside them and from every other member of `struct APEX_CPU`, whereas
  in C such an access reaches the neighbouring members (`regs_member`).  The
  embedding therefore speaks for the C where destination registers are in
  `0 .. 16` (`writeback` has no bound on `rd`) and store addresses in
  `0 .. 3999` (`memory2` has none on `mem_address`).
* The opcode of an instruction is the C string itself.
* The three file-scope variables `ENABLE_DEBUG_MESSAGES`, `flush_and_reload_pc`
  and `halt_and_flush` are fields of the machine state.  Printing is not
  modelled; the only effect of `ENABLE_DEBUG_MESSAGES` kept is the one on the
  control flow of `writeback`.
-/

namespace APEX

/-! ## cpu.h -/

/-- Stage identifiers (the anonymous `enum` of cpu.h) and the index `CC` of the
condition-code register. -/
abbrev F : Int := 0
abbrev DRF : Int := 1
abbrev EX1 : Int := 2
abbrev EX2 : Int := 3
abbrev MEM1 : Int := 4
abbrev MEM2 : Int := 5
abbrev WB : Int := 6
abbrev NUM_STAGES : Int := 7
abbrev CC : Int := 16

/-- Format of an APEX instruction (`struct APEX_Instruction`). -/
structure APEX_Instruction where
  opcode : String
  rd : Int
  rs1 : Int
  rs2 : Int
  rs3 : Int
  imm : Int
  stage_finished : Int
deriving DecidableEq

/-- Model of a CPU stage latch (`struct CPU_Stage`). -/
structure CPU_Stage where
  pc : Int
  opcode : String
  rs1 : Int
  rs2 : Int
  rs3 : Int
  rd : Int
  imm : Int
  rs1_value : Int
  rs2_value : Int
  rs3_value : Int
  buffer : Int
  mem_address : Int
  busy : Int
  stalled : Int
  is_empty : Int
deriving DecidableEq

/-- Model of the APEX CPU (`struct APEX_CPU`), with the seven entries of
`stage[NUM_STAGES]` as seven fields and the three file-scope variables of
`cpu.c` appended. -/
structure APEX_CPU where
  clock : Int
  pc : Int
  regs : Int → Int
  regs_valid : Int → Int
  stage_F : CPU_Stage
  stage_DRF : CPU_Stage
  stage_EX1 : CPU_Stage
  stage_EX2 : CPU_Stage
  stage_MEM1 : CPU_Stage
  stage_MEM2 : CPU_Stage
  stage_WB : CPU_Stage
  code_memory : Int → APEX_Instruction
  code_memory_size : Int
  data_memory : Int → Int
  ins_completed : Int
  ENABLE_DEBUG_MESSAGES : Int
  flush_and_reload_pc : Int
  halt_and_flush : Int

/-! ## Helpers of the embedding -/

/-- Assignment `a[i] = v` on an array modelled as a total map. -/
def store {α : Type} (a : Int → α) (i : Int) (v : α) : Int → α :=
  fun j => if j = i then v else a j

/-- Reduction of an integer to the signed 32-bit range (two's complement). -/
def wrap32 (x : Int) : Int :=
  (x + 2147483648) % 4294967296 - 2147483648

/-- The test `strcmp(op, "ADD") == 0 || ... "ADDL" ... "SUB" ... "SUBL" ... "MUL"`
that `decode` applies to each downstream latch and `writeback` to its own. -/
def is_arith (op : String) : Bool :=
  op = "ADD" || op = "ADDL" || op = "SUB" || op = "SUBL" || op = "MUL"

/-- The test `strcmp(op, "BZ") == 0 || ... "BNZ" ... || ... "JUMP"` of `decode`. -/
def is_control (op : String) : Bool :=
  op = "BZ" || op = "BNZ" || op = "JUMP"

/-! ## cpu.c -/

/-- Converts the PC (4000 series) into an array index for code memory;
C division truncates towards zero. -/
def get_code_index (pc : Int) : Int :=
  Int.tdiv (pc - 4000) 4

/-- Fetch stage. -/
def fetch (cpu : APEX_CPU) : APEX_CPU :=
  let stage : CPU_Stage := { cpu.stage_F with is_empty := 0 }
  if stage.busy = 0 ∧ stage.stalled = 0 then
    let current_ins := cpu.code_memory (get_code_index cpu.pc)
    let stage : CPU_Stage :=
      { stage with
        pc := cpu.pc, opcode := current_ins.opcode, rd := current_ins.rd,
        rs1 := current_ins.rs1, rs2 := current_ins.rs2, rs3 := current_ins.rs3,
        imm := current_ins.imm }
    if cpu.stage_DRF.stalled = 0 then
      { cpu with
        stage_DRF := stage
        stage_F := { stage with is_empty := 1 }
        code_memory := store cpu.code_memory (get_code_index cpu.pc)
              { current_ins with stage_finished := F }
        pc := cpu.pc + 4 }
    else
      { cpu with stage_F := { stage with stalled := 1, is_empty := 1 } }
  else
    { cpu with stage_F := { stage with is_empty := 1 } }

/-- Outcome of the opcode dispatch of `decode`: the Decode latch after the
register reads, the local `is_stage_stalled` and the global `halt_and_flush`. -/
structure DecodeRead where
  stage : CPU_Stage
  is_stage_stalled : Int
  halt_and_flush : Int

/-- The `if (strcmp(stage->opcode, ...))` chain of `decode` (lines 207-265).  The
five guarded assignments `if (!is_stage_stalled && ...) is_stage_stalled = 1` of
the branch case, and the two of the `HALT` case, are written as one nested
conditional. -/
def decode_read (cpu : APEX_CPU) (stage : CPU_Stage) : DecodeRead :=
  let op := stage.opcode
  if op = "STR" then
    if cpu.regs_valid stage.rs1 ≠ 0 ∧ cpu.regs_valid stage.rs2 ≠ 0
        ∧ cpu.regs_valid stage.rs3 ≠ 0 then
      { stage := { stage with
                   rs1_value := cpu.regs stage.rs1, rs2_value := cpu.regs stage.rs2,
                   rs3_value := cpu.regs stage.rs3 },
        is_stage_stalled := 0, halt_and_flush := cpu.halt_and_flush }
    else
      { stage := stage, is_stage_stalled := 1, halt_and_flush := cpu.halt_and_flush }
  else if op = "ADD" ∨ op = "SUB" ∨ op = "MUL" ∨ op = "AND" ∨ op = "OR" ∨ op = "EX-OR"
      ∨ op = "LDR" ∨ op = "STORE" then
    if cpu.regs_valid stage.rs1 ≠ 0 ∧ cpu.regs_valid stage.rs2 ≠ 0 then
      { stage := { stage with
                   rs1_value := cpu.regs stage.rs1, rs2_value := cpu.regs stage.rs2 },
        is_stage_stalled := 0, halt_and_flush := cpu.halt_and_flush }
    else
      { stage := stage, is_stage_stalled := 1, halt_and_flush := cpu.halt_and_flush }
  else if op = "ADDL" ∨ op = "SUBL" ∨ op = "LOAD" ∨ op = "JUMP" then
    if cpu.regs_valid stage.rs1 ≠ 0 then
      { stage := { stage with rs1_value := cpu.regs stage.rs1 },
        is_stage_stalled := 0, halt_and_flush := cpu.halt_and_flush }
    else
      { stage := stage, is_stage_stalled := 1, halt_and_flush := cpu.halt_and_flush }
  else if op = "BZ" ∨ op = "BNZ" then
    { stage := stage,
      is_stage_stalled :=
        if cpu.stage_EX1.is_empty = 0 ∧ is_arith cpu.stage_EX1.opcode then 1
        else if cpu.stage_EX2.is_empty = 0 ∧ is_arith cpu.stage_EX2.opcode then 1
        else if cpu.stage_MEM1.is_empty = 0 ∧ is_arith cpu.stage_MEM1.opcode then 1
        else if cpu.stage_MEM2.is_empty = 0 ∧ is_arith cpu.stage_MEM2.opcode then 1
        else if cpu.stage_WB.is_empty = 0 ∧ is_arith cpu.stage_WB.opcode then 1
        else 0,
      halt_and_flush := cpu.halt_and_flush }
  else if op = "HALT" then
    { stage := stage, is_stage_stalled := 0,
      halt_and_flush :=
        if is_control cpu.stage_EX2.opcode then 0
        else if is_control cpu.stage_MEM1.opcode then 0
        else 1 }
  else
    { stage := stage, is_stage_stalled := 0, halt_and_flush := cpu.halt_and_flush }

/-- Decode stage. -/
def decode (cpu : APEX_CPU) : APEX_CPU :=
  let stage : CPU_Stage := { cpu.stage_DRF with stalled := 0, is_empty := 0 }
  if stage.pc ≥ 4000 then
    let current_ins := cpu.code_memory (get_code_index stage.pc)
    if stage.busy = 0 ∧ stage.stalled = 0 then
      let r := decode_read cpu stage
      if r.is_stage_stalled ≠ 0 then
        { cpu with
          stage_DRF := { r.stage with stalled := 1, is_empty := 1 }
          halt_and_flush := r.halt_and_flush }
      else
        { cpu with
          stage_EX1 := r.stage
          stage_DRF := { r.stage with is_empty := 1 }
          code_memory := store cpu.code_memory (get_code_index stage.pc)
              { current_ins with stage_finished := DRF }
          stage_F := { cpu.stage_F with stalled := 0 }
          halt_and_flush := r.halt_and_flush }
    else
      { cpu with stage_DRF := { stage with is_empty := 1 } }
  else
    { cpu with stage_DRF := { stage with is_empty := 1 } }

/-- The `if ... else if` chain of `execute1` from `STORE` to `HALT` (lines
307-336): the Execute1 latch with the effective address or the result computed. -/
def execute1_dispatch (stage : CPU_Stage) : CPU_Stage :=
  let op := stage.opcode
  if op = "STORE" then
    { stage with mem_address := wrap32 (stage.rs2_value + stage.imm) }
  else if op = "STR" then
    { stage with mem_address := wrap32 (stage.rs2_value + stage.rs3_value) }
  else if op = "LOAD" then
    { stage with mem_address := wrap32 (stage.rs1_value + stage.imm) }
  else if op = "LDR" then
    { stage with mem_address := wrap32 (stage.rs1_value + stage.rs2_value) }
  else if op = "ADD" then
    { stage with buffer := wrap32 (stage.rs1_value + stage.rs2_value) }
  else if op = "SUB" then
    { stage with buffer := wrap32 (stage.rs1_value - stage.rs2_value) }
  else if op = "ADDL" then
    { stage with buffer := wrap32 (stage.rs1_value + stage.imm) }
  else if op = "SUBL" then
    { stage with buffer := wrap32 (stage.rs1_value - stage.imm) }
  else if op = "MUL" then
    { stage with buffer := wrap32 (stage.rs1_value * stage.rs2_value) }
  else if op = "AND" then
    { stage with buffer := Int.land stage.rs1_value stage.rs2_value }
  else if op = "OR" then
    { stage with buffer := Int.lor stage.rs1_value stage.rs2_value }
  else if op = "EX-OR" then
    { stage with buffer := Int.xor stage.rs1_value stage.rs2_value }
  else if op = "JUMP" then
    { stage with buffer := wrap32 (stage.rs1_value + stage.imm) }
  else
    stage

/-- The computation of `execute1` (lines 307-341): the chain above, then the
separate `if (strcmp(stage->opcode, "MOVC") == 0)`. -/
def execute1_compute (stage : CPU_Stage) : CPU_Stage :=
  if stage.opcode = "MOVC" then
    { execute1_dispatch stage with buffer := wrap32 ((execute1_dispatch stage).imm + 0) }
  else execute1_dispatch stage

/-- Execute1 stage. -/
def execute1 (cpu : APEX_CPU) : APEX_CPU :=
  let stage : CPU_Stage := { cpu.stage_EX1 with is_empty := 0 }
  if stage.pc ≥ 4000 then
    let current_ins := cpu.code_memory (get_code_index stage.pc)
    if stage.busy = 0 ∧ stage.stalled = 0 ∧ current_ins.stage_finished < EX1 then
      let regs_valid :=
        if stage.rd ≠ 0 ∧ stage.rd < 16 ∧ stage.rd ≥ 0 then store cpu.regs_valid stage.rd 0
        else cpu.regs_valid
      let computed := execute1_compute stage
      { cpu with
        regs_valid := regs_valid
        stage_EX2 := computed
        stage_EX1 := { computed with is_empty := 1 }
        code_memory := store cpu.code_memory (get_code_index stage.pc)
              { current_ins with stage_finished := EX1 } }
    else
      { cpu with stage_EX1 := { stage with is_empty := 1 } }
  else
    { cpu with stage_EX1 := { stage with is_empty := 1 } }

/-- Execute2 stage. -/
def execute2 (cpu : APEX_CPU) : APEX_CPU :=
  let stage : CPU_Stage := { cpu.stage_EX2 with is_empty := 0 }
  if stage.pc ≥ 4000 then
    let current_ins := cpu.code_memory (get_code_index stage.pc)
    if stage.busy = 0 ∧ stage.stalled = 0 ∧ current_ins.stage_finished < EX2 then
      let cpu : APEX_CPU :=
        if (stage.opcode = "BZ" ∧ cpu.regs CC = 1) ∨ (stage.opcode = "BNZ" ∧ cpu.regs CC = 0) then
          { cpu with flush_and_reload_pc := stage.pc + stage.imm }
        else if stage.opcode = "JUMP" then
          { cpu with flush_and_reload_pc := stage.buffer }
        else if stage.opcode = "HALT" ∧ cpu.halt_and_flush = 0 then
          { cpu with halt_and_flush := 2 }
        else cpu
      { cpu with
        stage_MEM1 := stage
        stage_EX2 := { stage with is_empty := 1 }
        code_memory := store cpu.code_memory (get_code_index stage.pc)
              { current_ins with stage_finished := EX2 } }
    else
      { cpu with stage_EX2 := { stage with is_empty := 1 } }
  else
    { cpu with stage_EX2 := { stage with is_empty := 1 } }

/-- Memory1 stage. -/
def memory1 (cpu : APEX_CPU) : APEX_CPU :=
  let stage : CPU_Stage := { cpu.stage_MEM1 with is_empty := 0 }
  if stage.pc ≥ 4000 then
    let current_ins := cpu.code_memory (get_code_index stage.pc)
    if stage.busy = 0 ∧ stage.stalled = 0 ∧ current_ins.stage_finished < MEM1 then
      { cpu with
        stage_MEM2 := stage
        stage_MEM1 := { stage with is_empty := 1, pc := 0 }
        code_memory := store cpu.code_memory (get_code_index stage.pc)
              { current_ins with stage_finished := MEM1 } }
    else
      { cpu with stage_MEM1 := { stage with is_empty := 1, pc := 0 } }
  else
    { cpu with stage_MEM1 := { stage with is_empty := 1, pc := 0 } }

/-- Memory2 stage.  `data_memory` is a total map: a store at a `mem_address`
outside `0 .. 3999`, which in C lands in a neighbouring member of the struct
(`data_memory[4000]` is `ins_completed`), changes a cell of its own here. -/
def memory2 (cpu : APEX_CPU) : APEX_CPU :=
  let stage : CPU_Stage := { cpu.stage_MEM2 with is_empty := 0 }
  if stage.pc ≥ 4000 then
    let current_ins := cpu.code_memory (get_code_index stage.pc)
    if stage.busy = 0 ∧ stage.stalled = 0 ∧ current_ins.stage_finished < MEM2 then
      let data_memory :=
        if stage.opcode = "STORE" ∨ stage.opcode = "STR" then
          store cpu.data_memory stage.mem_address stage.rs1_value
        else cpu.data_memory
      let loaded : CPU_Stage :=
        if stage.opcode = "STORE" ∨ stage.opcode = "STR" then stage
        else if stage.opcode = "LOAD" ∨ stage.opcode = "LDR" then
          { stage with buffer := cpu.data_memory stage.mem_address }
        else stage
      { cpu with
        data_memory := data_memory
        stage_WB := loaded
        stage_MEM2 := { loaded with is_empty := 1, pc := 0 }
        code_memory := store cpu.code_memory (get_code_index stage.pc)
              { current_ins with stage_finished := MEM2 } }
    else
      { cpu with stage_MEM2 := { stage with is_empty := 1, pc := 0 } }
  else
    { cpu with stage_MEM2 := { stage with is_empty := 1, pc := 0 } }

/-- The guard under which `writeback` processes its latch (lines 459 and 461). -/
def writeback_processes (cpu : APEX_CPU) : Prop :=
  cpu.stage_WB.pc ≥ 4000 ∧ cpu.stage_WB.busy = 0 ∧ cpu.stage_WB.stalled = 0
    ∧ (cpu.code_memory (get_code_index cpu.stage_WB.pc)).stage_finished < WB

instance (cpu : APEX_CPU) : Decidable (writeback_processes cpu) := by
  unfold writeback_processes; infer_instance

/-- The end of `writeback` once the latch pc is known to be at least 4000
(lines 483-491): the drain test, then the reset of the latch. -/
def writeback_exit (cpu : APEX_CPU) (stage : CPU_Stage) : APEX_CPU × Int :=
  if get_code_index stage.pc = cpu.code_memory_size then
    ({ cpu with stage_WB := stage }, 1)
  else
    ({ cpu with stage_WB := { stage with is_empty := 1, pc := 0 } }, 0)

/-- Writeback stage: the state it leaves and the value it returns.  `regs` and
`regs_valid` are total maps: the assignments `cpu->regs_valid[rd] = 1` and
`cpu->regs[rd] = buffer`, which the C makes without a bound on `rd`, change a
cell of their own here when `rd` is outside `0 .. 16`, whereas in C they land in
the member given by `regs_member`. -/
def writeback (cpu : APEX_CPU) : APEX_CPU × Int :=
  let stage : CPU_Stage := { cpu.stage_WB with is_empty := 0 }
  if stage.pc ≥ 4000 then
    let current_ins := cpu.code_memory (get_code_index stage.pc)
    if stage.busy = 0 ∧ stage.stalled = 0 ∧ current_ins.stage_finished < WB then
      let regs_valid :=
        if stage.rd ≠ 0 then store cpu.regs_valid stage.rd 1 else cpu.regs_valid
      let op := stage.opcode
      if op = "MOVC" ∨ op = "LOAD" ∨ op = "LDR" ∨ op = "AND" ∨ op = "OR" ∨ op = "EX-OR" then
        writeback_exit
          { cpu with
            regs_valid := regs_valid
            regs := store cpu.regs stage.rd stage.buffer
            code_memory := store cpu.code_memory (get_code_index stage.pc)
              { current_ins with stage_finished := WB }
            ins_completed := cpu.ins_completed + 1 } stage
      else if is_arith op then
        writeback_exit
          { cpu with
            regs_valid := regs_valid
            regs := store (store cpu.regs stage.rd stage.buffer) CC
                      (if stage.buffer = 0 then 1 else 0)
            code_memory := store cpu.code_memory (get_code_index stage.pc)
              { current_ins with stage_finished := WB }
            ins_completed := cpu.ins_completed + 1 } stage
      else if op = "HALT" ∧ cpu.ENABLE_DEBUG_MESSAGES ≠ 0 then
        ({ cpu with regs_valid := regs_valid, stage_WB := stage }, 1)
      else
        writeback_exit
          { cpu with
            regs_valid := regs_valid
            code_memory := store cpu.code_memory (get_code_index stage.pc)
              { current_ins with stage_finished := WB }
            ins_completed := cpu.ins_completed + 1 } stage
    else
      writeback_exit cpu stage
  else
    ({ cpu with stage_WB := { stage with is_empty := 1, pc := 0 } }, 0)

/-- The reconciliation that follows the seven stage calls in the loop body of
`APEX_cpu_run` (lines 543-554). -/
def reconcile (cpu : APEX_CPU) : APEX_CPU :=
  let cpu : APEX_CPU :=
    if cpu.flush_and_reload_pc ≠ 0 then
      { cpu with
        pc := cpu.flush_and_reload_pc
        stage_EX2 := { cpu.stage_EX2 with pc := 0 }
        stage_EX1 := { cpu.stage_EX1 with pc := 0 }
        stage_DRF := { cpu.stage_DRF with pc := 0 }
        stage_F := { cpu.stage_F with pc := 0 }
        flush_and_reload_pc := 0 }
    else cpu
  if cpu.halt_and_flush ≠ 0 then
    let cpu : APEX_CPU :=
      { cpu with
        pc := cpu.code_memory_size * 4 + 4000
        stage_DRF := { cpu.stage_DRF with pc := 0 }
        stage_F := { cpu.stage_F with pc := 0 } }
    if cpu.halt_and_flush > 1 then
      { cpu with
        stage_EX2 := { cpu.stage_EX2 with pc := 0 }
        stage_EX1 := { cpu.stage_EX1 with pc := 0 } }
    else cpu
  else cpu

/-- One iteration of the loop body of `APEX_cpu_run` up to and including the
reconciliation: the state reached and the value `writeback` returned. -/
def cycle (cpu : APEX_CPU) : APEX_CPU × Int :=
  let w := writeback cpu
  (reconcile (fetch (decode (execute1 (execute2 (memory1 (memory2 w.1)))))), w.2)

/-- The `while (cpu->clock <= no_of_cycles)` loop of `APEX_cpu_run`, unrolled at
most `fuel` times. -/
def run_loop : Nat → APEX_CPU → Int → APEX_CPU
  | 0, cpu, _ => cpu
  | fuel + 1, cpu, no_of_cycles =>
    if cpu.clock ≤ no_of_cycles then
      let r := cycle cpu
      if r.2 ≠ 0 then r.1
      else run_loop fuel { r.1 with clock := r.1.clock + 1 } no_of_cycles
    else cpu

/-- The first statement of `APEX_cpu_run`: `ENABLE_DEBUG_MESSAGES = flag`. -/
def enter_run (cpu : APEX_CPU) (flag : Int) : APEX_CPU :=
  { cpu with ENABLE_DEBUG_MESSAGES := flag }

/-- The simulation loop `APEX_cpu_run(cpu, no_of_cycles, flag)`, up to the
prints that follow the loop.  Every iteration that does not leave the loop
increments `clock`, so `no_of_cycles + 1 - clock` iterations always suffice (see
`run_loop_fuel_irrelevant`). -/
def APEX_cpu_run (cpu : APEX_CPU) (no_of_cycles : Int) (flag : Int) : APEX_CPU :=
  run_loop (no_of_cycles + 1 - cpu.clock).toNat (enter_run cpu flag) no_of_cycles

/-- An all-zero stage latch, as left by `memset(cpu->stage, 0, ...)`. -/
def empty_stage : CPU_Stage :=
  { pc := 0, opcode := "", rs1 := 0, rs2 := 0, rs3 := 0, rd := 0, imm := 0,
    rs1_value := 0, rs2_value := 0, rs3_value := 0, buffer := 0, mem_address := 0,
    busy := 0, stalled := 0, is_empty := 0 }

/-- The state `APEX_cpu_init` builds around a given instruction store: pc 4000,
registers 0, every validity word `0x01010101` (what `memset(.., 1, ..)` writes
into an int), all latches and data memory zero.  `clock` and `ins_completed`,
which `APEX_cpu_init` leaves as allocated, start at 0, and the file-scope
variables at their initialisers. -/
def APEX_cpu_init (code_memory : Int → APEX_Instruction) (code_memory_size : Int) :
    APEX_CPU :=
  { clock := 0, pc := 4000,
    regs := fun _ => 0, regs_valid := fun _ => 16843009,
    stage_F := empty_stage, stage_DRF := empty_stage, stage_EX1 := empty_stage,
    stage_EX2 := empty_stage, stage_MEM1 := empty_stage, stage_MEM2 := empty_stage,
    stage_WB := empty_stage,
    code_memory := code_memory, code_memory_size := code_memory_size,
    data_memory := fun _ => 0, ins_completed := 0,
    ENABLE_DEBUG_MESSAGES := 1, flush_and_reload_pc := 0, halt_and_flush := 0 }

/-- An instruction record as the loader produces it (marker 0). -/
def ins (opcode : String) (rd rs1 rs2 rs3 imm : Int) : APEX_Instruction :=
  { opcode := opcode, rd := rd, rs1 := rs1, rs2 := rs2, rs3 := rs3, imm := imm,
    stage_finished := 0 }

/-- The instruction store seen through `cpu->code_memory` when the loaded
program is `prog` and every entry outside it reads as `ghost`. -/
def load (prog : List APEX_Instruction) (ghost : APEX_Instruction) : Int → APEX_Instruction :=
  fun i => if 0 ≤ i then prog.getD i.toNat ghost else ghost

/-- The all-zero record: what an entry outside the program reads as when the
surrounding memory is zero. -/
def blank : APEX_Instruction := ins "" 0 0 0 0 0

/-- One full iteration of the loop of `APEX_cpu_run` that does not leave the
loop: the stage calls, the reconciliation and `cpu->clock++`. -/
def loop_body (cpu : APEX_CPU) : APEX_CPU :=
  { (cycle cpu).1 with clock := (cycle cpu).1.clock + 1 }

/-- The state at the start of the `k`-th iteration counted from `cpu`, as long
as the loop has not been left. -/
def at_cycle (cpu : APEX_CPU) : Nat → APEX_CPU
  | 0 => cpu
  | k + 1 => loop_body (at_cycle cpu k)

/-- The state in which `memory2` runs in the iteration that starts in `cpu`. -/
def before_memory2 (cpu : APEX_CPU) : APEX_CPU := (writeback cpu).1

/-- The state in which `memory1` runs in the iteration that starts in `cpu`. -/
def before_memory1 (cpu : APEX_CPU) : APEX_CPU := memory2 (before_memory2 cpu)

/-- The state in which `execute2` runs in the iteration that starts in `cpu`. -/
def before_execute2 (cpu : APEX_CPU) : APEX_CPU := memory1 (before_memory1 cpu)

/-- The state in which `execute1` runs in the iteration that starts in `cpu`. -/
def before_execute1 (cpu : APEX_CPU) : APEX_CPU := execute2 (before_execute2 cpu)

/-- The state in which `decode` runs in the iteration that starts in `cpu`. -/
def before_decode (cpu : APEX_CPU) : APEX_CPU := execute1 (before_execute1 cpu)

/-- The state in which `fetch` runs in the iteration that starts in `cpu`. -/
def before_fetch (cpu : APEX_CPU) : APEX_CPU := decode (before_decode cpu)

/-- The guard under which `execute1` processes its latch (lines 300 and 302). -/
def execute1_processes (cpu : APEX_CPU) : Prop :=
  cpu.stage_EX1.pc ≥ 4000 ∧ cpu.stage_EX1.busy = 0 ∧ cpu.stage_EX1.stalled = 0
    ∧ (cpu.code_memory (get_code_index cpu.stage_EX1.pc)).stage_finished < EX1

instance (cpu : APEX_CPU) : Decidable (execute1_processes cpu) := by
  unfold execute1_processes; infer_instance

/-- The guard under which `execute2` processes its latch (lines 360 and 362). -/
def execute2_processes (cpu : APEX_CPU) : Prop :=
  cpu.stage_EX2.pc ≥ 4000 ∧ cpu.stage_EX2.busy = 0 ∧ cpu.stage_EX2.stalled = 0
    ∧ (cpu.code_memory (get_code_index cpu.stage_EX2.pc)).stage_finished < EX2

instance (cpu : APEX_CPU) : Decidable (execute2_processes cpu) := by
  unfold execute2_processes; infer_instance

/-- The guard under which `memory2` processes its latch (lines 426 and 428). -/
def memory2_processes (cpu : APEX_CPU) : Prop :=
  cpu.stage_MEM2.pc ≥ 4000 ∧ cpu.stage_MEM2.busy = 0 ∧ cpu.stage_MEM2.stalled = 0
    ∧ (cpu.code_memory (get_code_index cpu.stage_MEM2.pc)).stage_finished < MEM2

instance (cpu : APEX_CPU) : Decidable (memory2_processes cpu) := by
  unfold memory2_processes; infer_instance

/-- The branch test of `execute2` (line 363): the Execute2 latch holds a `BZ`
with `regs[CC] == 1` or a `BNZ` with `regs[CC] == 0`. -/
def branch_taken (cpu : APEX_CPU) : Prop :=
  (cpu.stage_EX2.opcode = "BZ" ∧ cpu.regs CC = 1)
    ∨ (cpu.stage_EX2.opcode = "BNZ" ∧ cpu.regs CC = 0)

instance (cpu : APEX_CPU) : Decidable (branch_taken cpu) := by
  unfold branch_taken; infer_instance

/-- The straight-line program of the end-to-end example:
`MOVC R1,#5; MOVC R2,#10; ADD R3,R1,R2`. -/
def prog_add : List APEX_Instruction :=
  [ins "MOVC" 1 0 0 0 5, ins "MOVC" 2 0 0 0 10, ins "ADD" 3 1 2 0 0]

/-- A program whose only instruction is `HALT`. -/
def prog_halt : List APEX_Instruction := [ins "HALT" 0 0 0 0 0]

/-- A state whose Fetch latch is busy and whose Decode latch is stalled. -/
def state_fetch_busy : APEX_CPU :=
  { APEX_cpu_init (load prog_add blank) 3 with
    stage_F := { empty_stage with busy := 1 }
    stage_DRF := { empty_stage with stalled := 1 } }

/-- The test `!stage->is_empty && (strcmp(stage->opcode, "ADD") == 0 || ...)` that
`decode` applies to a downstream latch when it holds a `BZ` or `BNZ`. -/
def occupied_by_arith (l : CPU_Stage) : Prop :=
  l.is_empty = 0 ∧ is_arith l.opcode = true

instance (l : CPU_Stage) : Decidable (occupied_by_arith l) := by
  unfold occupied_by_arith; infer_instance

/-- A program in which a `BZ` follows an `ADD` at a distance of four
instructions. -/
def prog_branch_after_add : List APEX_Instruction :=
  [ins "ADD" 1 2 3 0 0, ins "MOVC" 4 0 0 0 1, ins "MOVC" 5 0 0 0 2, ins "MOVC" 6 0 0 0 3,
   ins "BZ" 0 0 0 0 8, ins "MOVC" 7 0 0 0 4, ins "MOVC" 8 0 0 0 5]

/-- A program whose only instruction is `MOVC R0,#5`. -/
def prog_movc_r0 : List APEX_Instruction := [ins "MOVC" 0 0 0 0 5]

/-- The guard under which `decode` processes its latch (lines 202 and 204; the
stalled flag tested there has just been cleared). -/
def decode_processes (cpu : APEX_CPU) : Prop :=
  cpu.stage_DRF.pc ≥ 4000 ∧ cpu.stage_DRF.busy = 0

instance (cpu : APEX_CPU) : Decidable (decode_processes cpu) := by
  unfold decode_processes; infer_instance

/-- A latch that `execute2` could process does not hold a conditional branch. -/
def no_branch (l : CPU_Stage) : Prop :=
  l.pc ≥ 4000 → ¬ (l.opcode = "BZ" ∨ l.opcode = "BNZ")

/-- Invariant of the run loop at the start of an iteration: once the
halt-and-flush signal is raised, the Decode latch is empty and neither the
Execute1 nor the Execute2 latch holds a conditional branch that could still be
processed. -/
def halt_inv (s : APEX_CPU) : Prop :=
  s.halt_and_flush ≠ 0 →
    s.stage_DRF.pc < 4000 ∧ no_branch s.stage_EX1 ∧ no_branch s.stage_EX2

/-- The form of `halt_inv` that holds between `execute2` and `decode`. -/
def halt_inv_mid (s : APEX_CPU) : Prop :=
  s.halt_and_flush = 0 ∨ s.halt_and_flush = 2
    ∨ (s.stage_DRF.pc < 4000 ∧ no_branch s.stage_EX1 ∧ no_branch s.stage_EX2)

/-- The form of `halt_inv` that holds between `decode` and the reconciliation. -/
def halt_inv_late (s : APEX_CPU) : Prop :=
  s.halt_and_flush = 0 ∨ s.halt_and_flush = 2
    ∨ (no_branch s.stage_EX1 ∧ no_branch s.stage_EX2)

/-- A program that starts with a `BNZ` over the next instruction:
`BNZ #8; MOVC R1,#5; MOVC R2,#7`. -/
def prog_branch_over : List APEX_Instruction :=
  [ins "BNZ" 0 0 0 0 8, ins "MOVC" 1 0 0 0 5, ins "MOVC" 2 0 0 0 7]

/-- A program that starts with a `BNZ` whose target `pc + imm` is 0:
`BNZ #-4000; MOVC R1,#5`. -/
def prog_branch_to_zero : List APEX_Instruction :=
  [ins "BNZ" 0 0 0 0 (-4000), ins "MOVC" 1 0 0 0 5]

/-- In the iteration that starts in `s`, `execute1` processes a latch whose
destination is `r`. -/
def execute1_claims (s : APEX_CPU) (r : Int) : Prop :=
  execute1_processes (before_execute1 s) ∧ (before_execute1 s).stage_EX1.rd = r

instance (s : APEX_CPU) (r : Int) : Decidable (execute1_claims s r) := by
  unfold execute1_claims; infer_instance

/-- In the iteration that starts in `s`, `writeback` processes a latch whose
destination is `r`. -/
def writeback_releases (s : APEX_CPU) (r : Int) : Prop :=
  writeback_processes s ∧ s.stage_WB.rd = r

instance (s : APEX_CPU) (r : Int) : Decidable (writeback_releases s r) := by
  unfold writeback_releases; infer_instance

/-- The guard under which `memory1` processes its latch (lines 394 and 396). -/
def memory1_processes (cpu : APEX_CPU) : Prop :=
  cpu.stage_MEM1.pc ≥ 4000 ∧ cpu.stage_MEM1.busy = 0 ∧ cpu.stage_MEM1.stalled = 0
    ∧ (cpu.code_memory (get_code_index cpu.stage_MEM1.pc)).stage_finished < MEM1

instance (cpu : APEX_CPU) : Decidable (memory1_processes cpu) := by
  unfold memory1_processes; infer_instance

/-- The condition under which `fetch` hands its instruction to Decode (lines 153
and 172). -/
def fetch_hands_off (cpu : APEX_CPU) : Prop :=
  cpu.stage_F.busy = 0 ∧ cpu.stage_F.stalled = 0 ∧ cpu.stage_DRF.stalled = 0

instance (cpu : APEX_CPU) : Decidable (fetch_hands_off cpu) := by
  unfold fetch_hands_off; infer_instance

/-- The condition under which `decode` hands its latch to Execute1: the latch is
processed and the opcode chain leaves `is_stage_stalled` at 0. -/
def decode_hands_off (cpu : APEX_CPU) : Prop :=
  decode_processes cpu
    ∧ (decode_read cpu { cpu.stage_DRF with stalled := 0, is_empty := 0 }).is_stage_stalled = 0

instance (cpu : APEX_CPU) : Decidable (decode_hands_off cpu) := by
  unfold decode_hands_off; infer_instance

/-- The update `current_ins->stage_finished = stage` of the entry `i`. -/
def set_marker (cm : Int → APEX_Instruction) (i : Int) (stage : Int) : Int → APEX_Instruction :=
  store cm i { cm i with stage_finished := stage }

/-- A program whose only instruction jumps to itself: `JUMP R0,#4000`. -/
def prog_jump_self : List APEX_Instruction := [ins "JUMP" 0 0 0 0 4000]
/-- Two instruction records agree in every field other than the marker. -/
def same_instruction (a b : APEX_Instruction) : Prop :=
  a.opcode = b.opcode ∧ a.rd = b.rd ∧ a.rs1 = b.rs1 ∧ a.rs2 = b.rs2 ∧ a.rs3 = b.rs3
    ∧ a.imm = b.imm

/-- A program with a `HALT` in the middle: `MOVC R1,#5; HALT; MOVC R2,#7`. -/
def prog_halt_between : List APEX_Instruction :=
  [ins "MOVC" 1 0 0 0 5, ins "HALT" 0 0 0 0 0, ins "MOVC" 2 0 0 0 7]

/-- The marker of the entry `i` of the instruction store. -/
def marker (s : APEX_CPU) (i : Int) : Int := (s.code_memory i).stage_finished

/-- The latch read by the stage with identifier `t`, for the five stages behind
Decode. -/
def latch (s : APEX_CPU) (t : Int) : CPU_Stage :=
  if t = EX1 then s.stage_EX1 else if t = EX2 then s.stage_EX2
  else if t = MEM1 then s.stage_MEM1 else if t = MEM2 then s.stage_MEM2 else s.stage_WB

/-- An opcode that is neither a branch, a jump nor `HALT`. -/
def plain (op : String) : Prop := op ≠ "BZ" ∧ op ≠ "BNZ" ∧ op ≠ "JUMP" ∧ op ≠ "HALT"

instance (op : String) : Decidable (plain op) := by
  unfold plain; infer_instance

/-- A latch that is neither busy nor stalled and holds a plain opcode. -/
def clean (l : CPU_Stage) : Prop := l.busy = 0 ∧ l.stalled = 0 ∧ plain l.opcode

/-- The guard `pc >= 4000 && !busy && !stalled && stage_finished < t` of the stage
with identifier `t`. -/
def stage_processes (t : Int) (s : APEX_CPU) : Prop :=
  (latch s t).pc ≥ 4000 ∧ (latch s t).busy = 0 ∧ (latch s t).stalled = 0
    ∧ marker s (get_code_index (latch s t).pc) < t

/-- What holds throughout a run of a program without `BZ`, `BNZ`, `JUMP` and
`HALT` whose instruction store initially is `cm0`: no signal is raised, no latch
is busy, the latches behind Decode are not stalled, no latch behind Fetch holds
a control opcode, and the instruction store differs from `cm0` in markers only. -/
structure flow_base (cm0 : Int → APEX_Instruction) (s : APEX_CPU) : Prop where
  flush : s.flush_and_reload_pc = 0
  halt : s.halt_and_flush = 0
  fbusy : s.stage_F.busy = 0
  dbusy : s.stage_DRF.busy = 0
  dplain : plain s.stage_DRF.opcode
  cEX1 : clean s.stage_EX1
  cEX2 : clean s.stage_EX2
  cMEM1 : clean s.stage_MEM1
  cMEM2 : clean s.stage_MEM2
  cWB : clean s.stage_WB
  code : ∀ i, same_instruction (s.code_memory i) (cm0 i)
  cplain : ∀ i, plain (cm0 i).opcode

instance (t : Int) (s : APEX_CPU) : Decidable (stage_processes t s) := by
  unfold stage_processes; infer_instance

/-- The effect on markers, latch pcs and the instruction counter of the stage
with identifier `t` (one of `EX1` .. `WB`) when it takes the state `s` to `s'`: the
instruction in its latch, if the guard holds, gets the marker `t` and moves into
the latch of the next stage; no other marker and no other latch changes. -/
structure advances (t : Int) (s s' : APEX_CPU) : Prop where
  code : s'.code_memory =
    if stage_processes t s then set_marker s.code_memory (get_code_index (latch s t).pc) t
    else s.code_memory
  next : t < WB → (latch s' (t + 1)).pc =
    if stage_processes t s then (latch s t).pc else (latch s (t + 1)).pc
  own : (latch s' t).pc = (latch s t).pc ∨ (latch s' t).pc = 0
  other : ∀ u, EX1 ≤ u → u ≤ WB → u ≠ t → u ≠ t + 1 → latch s' u = latch s u
  count : s'.ins_completed =
    if t = WB ∧ stage_processes t s then s.ins_completed + 1 else s.ins_completed

/-- Where the instructions are in a run of a program without control
instructions, when `d` instructions have been handed from Decode to Execute1:
each of the five latches behind Decode, when occupied, holds one of these `d`
instructions, which has finished at least the stage before; each of the `d`
instructions has a marker from `DRF` to `WB` and, unless it has finished
Writeback, sits in the latch of the stage that follows its marker; older
instructions are further down the pipeline; and `ins_completed` instructions,
the oldest ones, have finished Writeback. -/
structure flow_pos (s : APEX_CPU) (d : Int) : Prop where
  dnn : 0 ≤ d
  occ : ∀ t, EX1 ≤ t → t ≤ WB → (latch s t).pc ≥ 4000 →
    ∃ i, 0 ≤ i ∧ i < d ∧ (latch s t).pc = 4000 + 4 * i ∧ t - 1 ≤ marker s i
  live : ∀ i, 0 ≤ i → i < d → 1 ≤ marker s i ∧ marker s i ≤ 6
    ∧ (marker s i ≤ 5 → (latch s (marker s i + 1)).pc = 4000 + 4 * i)
  order : ∀ i j, 0 ≤ i → i < j → j < d → marker s j < marker s i ∨ marker s i = 6
  cnt : 0 ≤ s.ins_completed ∧ s.ins_completed ≤ d
    ∧ ∀ i, 0 ≤ i → i < d → (marker s i = 6 ↔ i < s.ins_completed)

/-- The front of the pipeline at the start of an iteration, when `d`
instructions have been handed to Execute1: nothing has been fetched yet, or the
Decode latch holds the instruction with index `d` and `cpu.pc` points behind
it. -/
def front_start (s : APEX_CPU) (d : Int) : Prop :=
  (d = 0 ∧ s.pc = 4000 ∧ s.stage_DRF.pc < 4000 ∧ s.stage_F.stalled = 0)
  ∨ (s.pc = 4000 + 4 * (d + 1) ∧ s.stage_DRF.pc = 4000 + 4 * d)

/-- The front of the pipeline between `decode` and `fetch`: Decode is free and
Fetch will hand it the instruction with index `d`, or Decode holds back the
instruction with index `d`. -/
def front_mid (s : APEX_CPU) (d : Int) : Prop :=
  (s.pc = 4000 + 4 * d ∧ s.stage_F.stalled = 0 ∧ s.stage_DRF.stalled = 0)
  ∨ (s.pc = 4000 + 4 * (d + 1) ∧ s.stage_DRF.pc = 4000 + 4 * d ∧ s.stage_DRF.stalled ≠ 0)

/-- The invariant of a straight-line run at the start of an iteration, when `d`
instructions have been handed from Decode to Execute1. -/
structure flow (cm0 : Int → APEX_Instruction) (s : APEX_CPU) (d : Int) : Prop where
  base : flow_base cm0 s
  pos : flow_pos s d
  front : front_start s d

/-- The invariant of a straight-line run between two stage calls of an
iteration: the stage with identifier `h + 1` has just run, so no instruction
behind Decode carries the marker `h`. -/
structure flow_at (cm0 : Int → APEX_Instruction) (s : APEX_CPU) (d : Int) (h : Int) :
    Prop where
  base : flow_base cm0 s
  pos : flow_pos s d
  front : front_start s d
  hole : ∀ i, 0 ≤ i → i < d → marker s i ≠ h

/-- Architectural state of the reference execution that takes one instruction
at a time: the register file (with the condition code at index `CC`) and the
data memory. -/
structure Arch where
  regs : Int → Int
  mem : Int → Int

/-- Reference semantics: the value an instruction puts into its destination
register, computed from the architectural state before it (sums, differences
and products in 32-bit wraparound arithmetic). -/
def sequential_value (x : APEX_Instruction) (a : Arch) : Int :=
  if x.opcode = "MOVC" then wrap32 x.imm
  else if x.opcode = "ADD" then wrap32 (a.regs x.rs1 + a.regs x.rs2)
  else if x.opcode = "SUB" then wrap32 (a.regs x.rs1 - a.regs x.rs2)
  else if x.opcode = "MUL" then wrap32 (a.regs x.rs1 * a.regs x.rs2)
  else if x.opcode = "ADDL" then wrap32 (a.regs x.rs1 + x.imm)
  else if x.opcode = "SUBL" then wrap32 (a.regs x.rs1 - x.imm)
  else if x.opcode = "AND" then Int.land (a.regs x.rs1) (a.regs x.rs2)
  else if x.opcode = "OR" then Int.lor (a.regs x.rs1) (a.regs x.rs2)
  else if x.opcode = "EX-OR" then Int.xor (a.regs x.rs1) (a.regs x.rs2)
  else if x.opcode = "LOAD" then a.mem (wrap32 (a.regs x.rs1 + x.imm))
  else 0

/-- Reference semantics: the effect of one instruction on the architectural
state.  `STORE` writes its first source to memory at second source plus
immediate; the arithmetic instructions write their destination and set the
condition code to the zero flag of the result; `MOVC`, `AND`, `OR`, `EX-OR` and
`LOAD` write their destination only; anything else has no effect. -/
def sequential_step (x : APEX_Instruction) (a : Arch) : Arch :=
  if x.opcode = "STORE" then
    { a with mem := store a.mem (wrap32 (a.regs x.rs2 + x.imm)) (a.regs x.rs1) }
  else if is_arith x.opcode then
    { a with regs := store (store a.regs x.rd (sequential_value x a)) CC
                      (if sequential_value x a = 0 then 1 else 0) }
  else if x.opcode = "MOVC" ∨ x.opcode = "AND" ∨ x.opcode = "OR" ∨ x.opcode = "EX-OR"
      ∨ x.opcode = "LOAD" then
    { a with regs := store a.regs x.rd (sequential_value x a) }
  else a

/-- Reference semantics: the instructions of a program one at a time, in
program order. -/
def sequential_run (prog : List APEX_Instruction) (a : Arch) : Arch :=
  prog.foldl (fun b x => sequential_step x b) a

/-- The architectural state `APEX_cpu_init` sets up: all registers and all
memory cells 0. -/
def arch_init : Arch := { regs := fun _ => 0, mem := fun _ => 0 }

/-- The architectural state after the first `k` entries of an instruction
store, taken one at a time. -/
def arch_after (cm : Int → APEX_Instruction) : Nat → Arch
  | 0 => arch_init
  | k + 1 => sequential_step (cm k) (arch_after cm k)

/-- The architectural state before the entry with index `i`. -/
def arch_at (cm : Int → APEX_Instruction) (i : Int) : Arch := arch_after cm i.toNat

/-- A register index from 1 to 15. -/
def reg_index (r : Int) : Prop := 1 ≤ r ∧ r ≤ 15

/-- The opcodes with two register sources and a register destination. -/
def two_source (op : String) : Prop :=
  op = "ADD" ∨ op = "SUB" ∨ op = "MUL" ∨ op = "AND" ∨ op = "OR" ∨ op = "EX-OR"

/-- The opcodes with one register source, an immediate and a register
destination. -/
def one_source (op : String) : Prop := op = "ADDL" ∨ op = "SUBL"

/-- The instruction records covered by the data invariant: `MOVC`, the eight
register-to-register and register-immediate operations, `LOAD` and `STORE` with
all the register indices they use in 1..15 (`STORE`, which has no destination,
with `rd = 0`), and the all-zero record found behind the program. -/
def regular (x : APEX_Instruction) : Prop :=
  (x.opcode = "MOVC" ∧ reg_index x.rd)
  ∨ (two_source x.opcode ∧ reg_index x.rd ∧ reg_index x.rs1 ∧ reg_index x.rs2)
  ∨ (one_source x.opcode ∧ reg_index x.rd ∧ reg_index x.rs1)
  ∨ (x.opcode = "LOAD" ∧ reg_index x.rd ∧ reg_index x.rs1)
  ∨ (x.opcode = "STORE" ∧ x.rd = 0 ∧ reg_index x.rs1 ∧ reg_index x.rs2)
  ∨ (x.opcode = "" ∧ x.rd = 0)

/-- The opcodes whose first source register `decode` reads. -/
def reads1 (op : String) : Prop :=
  two_source op ∨ one_source op ∨ op = "LOAD" ∨ op = "STORE"

/-- The opcodes whose second source register `decode` reads. -/
def reads2 (op : String) : Prop := two_source op ∨ op = "STORE"

/-- The opcodes whose result `execute1` computes. -/
def computes (op : String) : Prop := op = "MOVC" ∨ two_source op ∨ one_source op

/-- Reference semantics: the effective address of a `LOAD` or `STORE`. -/
def sequential_address (x : APEX_Instruction) (a : Arch) : Int :=
  if x.opcode = "LOAD" then wrap32 (a.regs x.rs1 + x.imm) else wrap32 (a.regs x.rs2 + x.imm)

/-- A latch carries the instruction with index `i` that has finished the stage
with identifier `m`: opcode, destination and immediate are those of the
instruction; the operand values read by `decode` are those of the reference
execution before instruction `i`; from Execute1 on, so are the computed result
and the effective address, and from Memory2 on the value a `LOAD` has read. -/
def carries (cm0 : Int → APEX_Instruction) (l : CPU_Stage) (i m : Int) : Prop :=
  l.opcode = (cm0 i).opcode ∧ l.rd = (cm0 i).rd ∧ l.imm = (cm0 i).imm
  ∧ (reads1 (cm0 i).opcode → l.rs1_value = (arch_at cm0 i).regs (cm0 i).rs1)
  ∧ (reads2 (cm0 i).opcode → l.rs2_value = (arch_at cm0 i).regs (cm0 i).rs2)
  ∧ (2 ≤ m → computes (cm0 i).opcode →
      l.buffer = sequential_value (cm0 i) (arch_at cm0 i))
  ∧ (2 ≤ m → ((cm0 i).opcode = "LOAD" ∨ (cm0 i).opcode = "STORE") →
      l.mem_address = sequential_address (cm0 i) (arch_at cm0 i))
  ∧ (5 ≤ m → (cm0 i).opcode = "LOAD" →
      l.buffer = sequential_value (cm0 i) (arch_at cm0 i))

/-- The conditions on the instruction store under which the pipeline is compared
with the reference execution: every entry is `regular`, and no register is the
destination of two entries. -/
structure program_ok (cm0 : Int → APEX_Instruction) : Prop where
  reg : ∀ i, regular (cm0 i)
  uniq : ∀ i j, i ≠ j → (cm0 i).rd ≠ 0 → (cm0 i).rd ≠ (cm0 j).rd

/-- The number of instructions that have passed Memory2: those that have
finished Writeback and the one in the Writeback latch, if any. -/
def mem_done (s : APEX_CPU) (d : Int) : Int :=
  if s.ins_completed < d ∧ marker s s.ins_completed = 5 then s.ins_completed + 1
  else s.ins_completed

/-- The data invariant of a straight-line run of `regular` instructions with
distinct destinations, when `d` instructions have been handed from Decode to
Execute1: the register file is the one of the reference execution after the
instructions that have finished Writeback, the data memory the one after the
instructions that have passed Memory2; the Decode latch holds the fields of
the instruction with index `d`; every instruction in a latch behind Decode is
carried by that latch; a register is invalid exactly while an instruction that
has it as destination is between Execute1 and Writeback. -/
structure flow_data (cm0 : Int → APEX_Instruction) (s : APEX_CPU) (d : Int) : Prop where
  regs : s.regs = (arch_at cm0 s.ins_completed).regs
  mem : s.data_memory = (arch_at cm0 (mem_done s d)).mem
  drf : s.stage_DRF.pc = 4000 + 4 * d →
    s.stage_DRF.opcode = (cm0 d).opcode ∧ s.stage_DRF.rd = (cm0 d).rd
    ∧ s.stage_DRF.rs1 = (cm0 d).rs1 ∧ s.stage_DRF.rs2 = (cm0 d).rs2
    ∧ s.stage_DRF.imm = (cm0 d).imm
  lat : ∀ i, 0 ≤ i → i < d → marker s i ≤ 5 →
    carries cm0 (latch s (marker s i + 1)) i (marker s i)
  valid : ∀ i, 0 ≤ i → i < d → 2 ≤ marker s i → marker s i ≤ 5 → (cm0 i).rd ≠ 0 →
    s.regs_valid (cm0 i).rd = 0
  claimed : ∀ r, s.regs_valid r = 0 →
    ∃ i, 0 ≤ i ∧ i < d ∧ 2 ≤ marker s i ∧ marker s i ≤ 5 ∧ (cm0 i).rd = r ∧ r ≠ 0

/-- The invariant of a straight-line run of `regular` instructions with distinct
destinations at the start of an iteration after the first: positions, data, and
the instruction with index `d` in the Decode latch. -/
structure flow_full (cm0 : Int → APEX_Instruction) (s : APEX_CPU) (d : Int) : Prop where
  flow : flow cm0 s d
  data : flow_data cm0 s d
  drf : s.stage_DRF.pc = 4000 + 4 * d

instance (r : Int) : Decidable (reg_index r) := by
  unfold reg_index; infer_instance

instance (op : String) : Decidable (two_source op) := by
  unfold two_source; infer_instance

instance (op : String) : Decidable (one_source op) := by
  unfold one_source; infer_instance

instance (x : APEX_Instruction) : Decidable (regular x) := by
  unfold regular; infer_instance

/-- Reference semantics, the zero flag: when the instructions of a program are
executed one at a time from the state `a`, 1 if the result of the last `ADD`,
`ADDL`, `SUB`, `SUBL` or `MUL` is 0 and 0 if it is not; `f` if the program has no
such instruction. -/
def sequential_flag : List APEX_Instruction → Arch → Int → Int
  | [], _, f => f
  | x :: rest, a, f =>
    sequential_flag rest (sequential_step x a)
      (if is_arith x.opcode then (if sequential_value x a = 0 then 1 else 0) else f)


/-- The instructions of C20: `MOVC`, `ADD`, `SUB`, `MUL`, `AND`, `OR`, `EX-OR`, `ADDL`
and `SUBL`, with every register index they name in 1..15. -/
def register_only (x : APEX_Instruction) : Prop :=
  (x.opcode = "MOVC" ∧ reg_index x.rd)
  ∨ (two_source x.opcode ∧ reg_index x.rd ∧ reg_index x.rs1 ∧ reg_index x.rs2)
  ∨ (one_source x.opcode ∧ reg_index x.rd ∧ reg_index x.rs1)

instance (x : APEX_Instruction) : Decidable (register_only x) := by
  unfold register_only; infer_instance

/-- The program of C15: `MOVC R1,#v; MOVC R2,#a; STORE R1,R2,#0; LOAD R3,R2,#0`. -/
def prog_store_load (v a : Int) : List APEX_Instruction :=
  [ins "MOVC" 1 0 0 0 v, ins "MOVC" 2 0 0 0 a, ins "STORE" 0 1 2 0 0, ins "LOAD" 3 2 0 0 0]

/-- The entry behind the last instruction follows it at a distance of one stage:
when the last instruction has just been handed to Execute1 the Decode latch
holds that entry (with its empty opcode), and once that entry is behind Decode
too, its marker is at most one below the marker of the last instruction. -/
structure drain_follows (s : APEX_CPU) (d : Int) : Prop where
  next : d = s.code_memory_size →
    s.stage_DRF.pc = 4000 + 4 * d ∧ s.stage_DRF.opcode = "" ∧ marker s (d - 1) = 1
  behind : s.code_memory_size < d →
    marker s (s.code_memory_size - 1) ≤ marker s s.code_memory_size + 1

/-- The index of the entry of the instruction store that `fetch` reads (line
163), when its latch is neither busy nor stalled. -/
def fetch_index (cpu : APEX_CPU) : Option Int :=
  if cpu.stage_F.busy = 0 ∧ cpu.stage_F.stalled = 0 then some (get_code_index cpu.pc) else none

/-- The index of the entry `&cpu->code_memory[get_code_index(stage->pc)]` that a
stage from Decode to Writeback addresses for its latch `l` (lines 203, 301, 361,
399, 427 and 460), when the latch pc is at least 4000. -/
def latch_index (l : CPU_Stage) : Option Int :=
  if l.pc ≥ 4000 then some (get_code_index l.pc) else none

/-- The value of `is_stage_stalled` that the scan of the `BZ`/`BNZ` case of `decode`
(lines 235-249) yields from the `is_empty` flags and the opcodes of the Execute2,
Memory1, Memory2 and Writeback latches alone. -/
def branch_stall (ex2_empty : Int) (ex2_op : String) (mem1_empty : Int) (mem1_op : String)
    (mem2_empty : Int) (mem2_op : String) (wb_empty : Int) (wb_op : String) : Int :=
  if ex2_empty = 0 ∧ is_arith ex2_op then 1
  else if mem1_empty = 0 ∧ is_arith mem1_op then 1
  else if mem2_empty = 0 ∧ is_arith mem2_op then 1
  else if wb_empty = 0 ∧ is_arith wb_op then 1
  else 0

/-- A program whose jump has the target 0: `JUMP R0,#0; MOVC R1,#5`. -/
def prog_jump_zero : List APEX_Instruction := [ins "JUMP" 0 0 0 0 0, ins "MOVC" 1 0 0 0 5]

/-- The members of `struct APEX_CPU` (cpu.h) from `regs` on, in the order of their
declaration; `outside` is whatever lies before `regs` or behind `ins_completed`. -/
inductive Member where
  | regs (i : Int)
  | regs_valid (i : Int)
  | stage
  | code_memory
  | code_memory_size
  | data_memory (i : Int)
  | ins_completed
  | outside
deriving DecidableEq

/-- The member of `struct APEX_CPU` in which the `int` with index `k`, counted from
the start of `regs`, lies when the members are laid out in the order of their
declaration without padding, an `int` in 4 bytes and the pointer `code_memory` in
8: `regs[17]`, `regs_valid[17]`, `stage[7]` (46 `int`s each: `pc`, `opcode[128]` and
13 more), `code_memory` (2), `code_memory_size`, `data_memory[4000]`,
`ins_completed`.  It is the object that an access `cpu->regs[k]` reaches when `k` is
not an index of `regs`; `cpu->regs_valid[k]` reaches `regs_member (17 + k)`. -/
def regs_member (k : Int) : Member :=
  if k < 0 then Member.outside
  else if k < 17 then Member.regs k
  else if k < 34 then Member.regs_valid (k - 17)
  else if k < 356 then Member.stage
  else if k < 358 then Member.code_memory
  else if k < 359 then Member.code_memory_size
  else if k < 4359 then Member.data_memory (k - 359)
  else if k < 4360 then Member.ins_completed
  else Member.outside

/-- A program whose only instruction names a register that does not exist:
`MOVC R359,#7`. -/
def prog_movc_r359 : List APEX_Instruction := [ins "MOVC" 359 0 0 0 7]

/-! ## Theorems -/

/-! ### Frame lemmas: what each stage function leaves alone -/

/-- Fields that `writeback` does not touch. -/
theorem writeback_frame (s : APEX_CPU) :
    (writeback s).1.halt_and_flush = s.halt_and_flush
    ∧ (writeback s).1.flush_and_reload_pc = s.flush_and_reload_pc
    ∧ (writeback s).1.stage_F = s.stage_F
    ∧ (writeback s).1.stage_DRF = s.stage_DRF
    ∧ (writeback s).1.stage_EX1 = s.stage_EX1
    ∧ (writeback s).1.stage_EX2 = s.stage_EX2
    ∧ (writeback s).1.stage_MEM1 = s.stage_MEM1
    ∧ (writeback s).1.stage_MEM2 = s.stage_MEM2
    ∧ (writeback s).1.pc = s.pc
    ∧ (writeback s).1.code_memory_size = s.code_memory_size := by
  unfold writeback writeback_exit
  simp only []
  split_ifs <;> simp

/-- Fields that `memory2` does not touch. -/
theorem memory2_frame (s : APEX_CPU) :
    (memory2 s).halt_and_flush = s.halt_and_flush
    ∧ (memory2 s).flush_and_reload_pc = s.flush_and_reload_pc
    ∧ (memory2 s).stage_F = s.stage_F
    ∧ (memory2 s).stage_DRF = s.stage_DRF
    ∧ (memory2 s).stage_EX1 = s.stage_EX1
    ∧ (memory2 s).stage_EX2 = s.stage_EX2
    ∧ (memory2 s).stage_MEM1 = s.stage_MEM1
    ∧ (memory2 s).pc = s.pc
    ∧ (memory2 s).code_memory_size = s.code_memory_size
    ∧ (memory2 s).regs = s.regs
    ∧ (memory2 s).regs_valid = s.regs_valid := by
  unfold memory2
  simp only []
  split_ifs <;> simp

/-- Fields that `memory1` does not touch. -/
theorem memory1_frame (s : APEX_CPU) :
    (memory1 s).halt_and_flush = s.halt_and_flush
    ∧ (memory1 s).flush_and_reload_pc = s.flush_and_reload_pc
    ∧ (memory1 s).stage_F = s.stage_F
    ∧ (memory1 s).stage_DRF = s.stage_DRF
    ∧ (memory1 s).stage_EX1 = s.stage_EX1
    ∧ (memory1 s).stage_EX2 = s.stage_EX2
    ∧ (memory1 s).pc = s.pc
    ∧ (memory1 s).code_memory_size = s.code_memory_size
    ∧ (memory1 s).regs = s.regs
    ∧ (memory1 s).regs_valid = s.regs_valid := by
  unfold memory1
  simp only []
  split_ifs <;> simp

/-- Fields that `execute2` does not touch, and what it does to its own latch. -/
theorem execute2_frame (s : APEX_CPU) :
    (execute2 s).stage_F = s.stage_F
    ∧ (execute2 s).stage_DRF = s.stage_DRF
    ∧ (execute2 s).stage_EX1 = s.stage_EX1
    ∧ (execute2 s).stage_EX2 = { s.stage_EX2 with is_empty := 1 }
    ∧ (execute2 s).pc = s.pc
    ∧ (execute2 s).code_memory_size = s.code_memory_size
    ∧ (execute2 s).regs = s.regs
    ∧ (execute2 s).regs_valid = s.regs_valid := by
  unfold execute2
  simp only []
  split_ifs <;> simp

/-- Fields that `execute1` does not touch. -/
theorem execute1_frame (s : APEX_CPU) :
    (execute1 s).halt_and_flush = s.halt_and_flush
    ∧ (execute1 s).flush_and_reload_pc = s.flush_and_reload_pc
    ∧ (execute1 s).stage_F = s.stage_F
    ∧ (execute1 s).stage_DRF = s.stage_DRF
    ∧ (execute1 s).stage_MEM1 = s.stage_MEM1
    ∧ (execute1 s).stage_MEM2 = s.stage_MEM2
    ∧ (execute1 s).stage_WB = s.stage_WB
    ∧ (execute1 s).pc = s.pc
    ∧ (execute1 s).code_memory_size = s.code_memory_size
    ∧ (execute1 s).regs = s.regs := by
  unfold execute1
  simp only []
  split_ifs <;> simp

/-- Fields that `decode` does not touch. -/
theorem decode_frame (s : APEX_CPU) :
    (decode s).flush_and_reload_pc = s.flush_and_reload_pc
    ∧ (decode s).stage_EX2 = s.stage_EX2
    ∧ (decode s).stage_MEM1 = s.stage_MEM1
    ∧ (decode s).stage_MEM2 = s.stage_MEM2
    ∧ (decode s).stage_WB = s.stage_WB
    ∧ (decode s).pc = s.pc
    ∧ (decode s).code_memory_size = s.code_memory_size
    ∧ (decode s).regs = s.regs
    ∧ (decode s).regs_valid = s.regs_valid := by
  unfold decode
  simp only []
  split_ifs <;> simp

/-- Fields that `fetch` does not touch. -/
theorem fetch_frame (s : APEX_CPU) :
    (fetch s).halt_and_flush = s.halt_and_flush
    ∧ (fetch s).flush_and_reload_pc = s.flush_and_reload_pc
    ∧ (fetch s).stage_EX1 = s.stage_EX1
    ∧ (fetch s).stage_EX2 = s.stage_EX2
    ∧ (fetch s).stage_MEM1 = s.stage_MEM1
    ∧ (fetch s).stage_MEM2 = s.stage_MEM2
    ∧ (fetch s).stage_WB = s.stage_WB
    ∧ (fetch s).code_memory_size = s.code_memory_size
    ∧ (fetch s).regs = s.regs
    ∧ (fetch s).regs_valid = s.regs_valid := by
  unfold fetch
  simp only []
  split_ifs <;> simp

/-- Fields that the reconciliation does not touch. -/
theorem reconcile_frame (s : APEX_CPU) :
    (reconcile s).halt_and_flush = s.halt_and_flush
    ∧ (reconcile s).stage_MEM1 = s.stage_MEM1
    ∧ (reconcile s).stage_MEM2 = s.stage_MEM2
    ∧ (reconcile s).stage_WB = s.stage_WB
    ∧ (reconcile s).code_memory_size = s.code_memory_size
    ∧ (reconcile s).code_memory = s.code_memory
    ∧ (reconcile s).regs = s.regs
    ∧ (reconcile s).regs_valid = s.regs_valid
    ∧ (reconcile s).data_memory = s.data_memory := by
  unfold reconcile
  simp only []
  split_ifs <;> simp

/-- The `if ... else if` chain of `execute1` keeps every field of the latch other
than `buffer` and `mem_address`. -/
theorem execute1_dispatch_keeps (l : CPU_Stage) :
    (execute1_dispatch l).pc = l.pc ∧ (execute1_dispatch l).opcode = l.opcode
    ∧ (execute1_dispatch l).rd = l.rd ∧ (execute1_dispatch l).busy = l.busy
    ∧ (execute1_dispatch l).stalled = l.stalled
    ∧ (execute1_dispatch l).is_empty = l.is_empty
    ∧ (execute1_dispatch l).imm = l.imm := by
  unfold execute1_dispatch
  simp only [apply_ite CPU_Stage.pc, apply_ite CPU_Stage.opcode, apply_ite CPU_Stage.rd,
    apply_ite CPU_Stage.busy, apply_ite CPU_Stage.stalled, apply_ite CPU_Stage.is_empty,
    apply_ite CPU_Stage.imm, ite_self, and_self]

/-- The computation of `execute1` keeps pc, opcode, destination and flags. -/
theorem execute1_compute_keeps (l : CPU_Stage) :
    (execute1_compute l).pc = l.pc ∧ (execute1_compute l).opcode = l.opcode
    ∧ (execute1_compute l).rd = l.rd ∧ (execute1_compute l).busy = l.busy
    ∧ (execute1_compute l).stalled = l.stalled
    ∧ (execute1_compute l).is_empty = l.is_empty := by
  have h := execute1_dispatch_keeps l
  unfold execute1_compute
  split_ifs <;> simp [h.1, h.2.1, h.2.2.1, h.2.2.2.1, h.2.2.2.2.1, h.2.2.2.2.2.1]

/-! ### What the stage functions do to the signals, the latches and the registers -/

/-- A processed `STORE` or `STR` performs exactly the assignment
`data_memory[mem_address] = rs1_value`. -/
theorem memory2_store_data (s : APEX_CPU) (hp : memory2_processes s)
    (hop : s.stage_MEM2.opcode = "STORE" ∨ s.stage_MEM2.opcode = "STR") :
    (memory2 s).data_memory = store s.data_memory s.stage_MEM2.mem_address s.stage_MEM2.rs1_value := by
  unfold memory2_processes at hp
  unfold memory2
  simp only []
  split_ifs <;> simp_all

/-- The validity words after `writeback`: a processed latch with a non-zero `rd`
sets `regs_valid[rd] = 1`, nothing else changes. -/
theorem writeback_regs_valid (s : APEX_CPU) :
    (writeback s).1.regs_valid =
      if writeback_processes s ∧ s.stage_WB.rd ≠ 0 then store s.regs_valid s.stage_WB.rd 1
      else s.regs_valid := by
  unfold writeback_processes writeback writeback_exit
  simp only []
  split_ifs <;> simp_all
  all_goals omega

/-- The register file after `writeback`. -/
theorem writeback_regs (s : APEX_CPU) :
    (writeback s).1.regs =
      if writeback_processes s then
        if s.stage_WB.opcode = "MOVC" ∨ s.stage_WB.opcode = "LOAD" ∨ s.stage_WB.opcode = "LDR"
            ∨ s.stage_WB.opcode = "AND" ∨ s.stage_WB.opcode = "OR"
            ∨ s.stage_WB.opcode = "EX-OR" then
          store s.regs s.stage_WB.rd s.stage_WB.buffer
        else if is_arith s.stage_WB.opcode then
          store (store s.regs s.stage_WB.rd s.stage_WB.buffer) CC
            (if s.stage_WB.buffer = 0 then 1 else 0)
        else s.regs
      else s.regs := by
  unfold writeback_processes writeback writeback_exit
  simp only []
  split_ifs <;> simp_all
  all_goals omega

/-- The instruction counter after `writeback`. -/
theorem writeback_ins_completed (s : APEX_CPU) :
    (writeback s).1.ins_completed =
      if writeback_processes s then
        if s.stage_WB.opcode = "MOVC" ∨ s.stage_WB.opcode = "LOAD" ∨ s.stage_WB.opcode = "LDR"
            ∨ s.stage_WB.opcode = "AND" ∨ s.stage_WB.opcode = "OR"
            ∨ s.stage_WB.opcode = "EX-OR" then s.ins_completed + 1
        else if is_arith s.stage_WB.opcode then s.ins_completed + 1
        else if s.stage_WB.opcode = "HALT" ∧ s.ENABLE_DEBUG_MESSAGES ≠ 0 then s.ins_completed
        else s.ins_completed + 1
      else s.ins_completed := by
  unfold writeback_processes writeback writeback_exit
  simp only []
  split_ifs <;> simp_all
  all_goals omega

/-- What `writeback` returns for a processed `HALT`: 1 in verbose mode; in silent
mode 1 only if the latch pc is the one right behind the instruction store. -/
theorem writeback_halt_result (s : APEX_CPU) (hp : writeback_processes s)
    (hop : s.stage_WB.opcode = "HALT") :
    (writeback s).2 =
      if s.ENABLE_DEBUG_MESSAGES ≠ 0 then 1
      else if get_code_index s.stage_WB.pc = s.code_memory_size then 1 else 0 := by
  have ha : ¬ (is_arith s.stage_WB.opcode = true) := by
    rw [hop]; decide
  have hn : ¬ (s.stage_WB.opcode = "MOVC" ∨ s.stage_WB.opcode = "LOAD"
      ∨ s.stage_WB.opcode = "LDR" ∨ s.stage_WB.opcode = "AND" ∨ s.stage_WB.opcode = "OR"
      ∨ s.stage_WB.opcode = "EX-OR") := by
    rw [hop]; decide
  unfold writeback_processes at hp
  unfold writeback writeback_exit
  simp only []
  rw [if_pos hp.1, if_pos hp.2, if_neg hn, if_neg ha]
  by_cases hd : s.ENABLE_DEBUG_MESSAGES ≠ 0
  · rw [if_pos ⟨hop, hd⟩, if_pos hd]
  · rw [if_neg (fun h => hd h.2), if_neg hd]
    split_ifs <;> rfl

/-- The flush-and-reload signal after `execute2`. -/
theorem execute2_flush_and_reload_pc (s : APEX_CPU) :
    (execute2 s).flush_and_reload_pc =
      if execute2_processes s then
        if branch_taken s then s.stage_EX2.pc + s.stage_EX2.imm
        else if s.stage_EX2.opcode = "JUMP" then s.stage_EX2.buffer
        else s.flush_and_reload_pc
      else s.flush_and_reload_pc := by
  unfold execute2_processes branch_taken execute2
  simp only []
  split_ifs <;> simp_all

/-- The halt-and-flush signal after `execute2`. -/
theorem execute2_halt_and_flush (s : APEX_CPU) :
    (execute2 s).halt_and_flush =
      if execute2_processes s ∧ ¬ branch_taken s ∧ s.stage_EX2.opcode ≠ "JUMP"
          ∧ s.stage_EX2.opcode = "HALT" ∧ s.halt_and_flush = 0 then 2
      else s.halt_and_flush := by
  unfold execute2_processes branch_taken execute2
  simp only []
  split_ifs <;> simp_all

/-- The Memory1 latch after `execute2`. -/
theorem execute2_stage_MEM1 (s : APEX_CPU) :
    (execute2 s).stage_MEM1 =
      if execute2_processes s then { s.stage_EX2 with is_empty := 0 } else s.stage_MEM1 := by
  unfold execute2_processes execute2
  simp only []
  split_ifs <;> simp_all

/-- The Execute2 latch after `execute1`. -/
theorem execute1_stage_EX2 (s : APEX_CPU) :
    (execute1 s).stage_EX2 =
      if execute1_processes s then execute1_compute { s.stage_EX1 with is_empty := 0 }
      else s.stage_EX2 := by
  unfold execute1_processes execute1
  simp only []
  split_ifs <;> simp_all

/-- The pc and the opcode in the Execute1 latch are not changed by `execute1`. -/
theorem execute1_stage_EX1 (s : APEX_CPU) :
    (execute1 s).stage_EX1.pc = s.stage_EX1.pc
    ∧ (execute1 s).stage_EX1.opcode = s.stage_EX1.opcode := by
  have h := execute1_compute_keeps { s.stage_EX1 with is_empty := 0 }
  unfold execute1
  simp only []
  split_ifs <;> simp [h.1, h.2.1]

/-- The validity words after `execute1`: a processed latch whose `rd` lies in
1..15 clears `regs_valid[rd]`, nothing else changes. -/
theorem execute1_regs_valid (s : APEX_CPU) :
    (execute1 s).regs_valid =
      if execute1_processes s ∧ s.stage_EX1.rd ≠ 0 ∧ s.stage_EX1.rd < 16 ∧ s.stage_EX1.rd ≥ 0
      then store s.regs_valid s.stage_EX1.rd 0
      else s.regs_valid := by
  unfold execute1_processes execute1
  simp only []
  split_ifs <;> simp_all

/-- The opcode chain of `decode` keeps pc and opcode of the latch. -/
theorem decode_read_keeps (s : APEX_CPU) (l : CPU_Stage) :
    (decode_read s l).stage.pc = l.pc ∧ (decode_read s l).stage.opcode = l.opcode := by
  unfold decode_read
  simp only [apply_ite DecodeRead.stage, apply_ite CPU_Stage.pc, apply_ite CPU_Stage.opcode,
    ite_self, and_self]

/-- The halt-and-flush signal that the opcode chain of `decode` produces: it is
recomputed for a `HALT` and kept for every other opcode. -/
theorem decode_read_halt_and_flush (s : APEX_CPU) (l : CPU_Stage) :
    (decode_read s l).halt_and_flush =
      if l.opcode = "HALT" then
        (if is_control s.stage_EX2.opcode = true ∨ is_control s.stage_MEM1.opcode = true
          then 0 else 1)
      else s.halt_and_flush := by
  by_cases h : l.opcode = "HALT"
  · simp [decode_read, h]
    split_ifs <;> simp_all
  · unfold decode_read
    simp only [apply_ite DecodeRead.halt_and_flush, ite_self, if_neg h]

/-- The halt-and-flush signal after `decode`. -/
theorem decode_halt_and_flush (s : APEX_CPU) :
    (decode s).halt_and_flush =
      if decode_processes s then
        (decode_read s { s.stage_DRF with stalled := 0, is_empty := 0 }).halt_and_flush
      else s.halt_and_flush := by
  unfold decode_processes decode
  simp only []
  split_ifs <;> simp_all

/-- The pc and the opcode in the Execute1 latch after `decode`: those of the
Decode latch when `decode` hands off, unchanged otherwise. -/
theorem decode_stage_EX1 (s : APEX_CPU) :
    ((decode s).stage_EX1 = s.stage_EX1)
    ∨ (decode_processes s ∧ (decode s).stage_EX1.pc = s.stage_DRF.pc
        ∧ (decode s).stage_EX1.opcode = s.stage_DRF.opcode) := by
  have h := decode_read_keeps s { s.stage_DRF with stalled := 0, is_empty := 0 }
  unfold decode_processes decode
  simp only []
  split_ifs <;> simp_all

/-- The pc in the Decode latch is not changed by `decode`. -/
theorem decode_stage_DRF_pc (s : APEX_CPU) : (decode s).stage_DRF.pc = s.stage_DRF.pc := by
  have h := decode_read_keeps s { s.stage_DRF with stalled := 0, is_empty := 0 }
  unfold decode
  simp only []
  split_ifs <;> simp_all

/-- A processed `HALT` always goes from Decode to Execute1. -/
theorem decode_halt_stage_EX1 (s : APEX_CPU) (hp : decode_processes s)
    (hop : s.stage_DRF.opcode = "HALT") : (decode s).stage_EX1.opcode = "HALT" := by
  have h1 : (4000 : Int) ≤ s.stage_DRF.pc := hp.1
  simp [decode, decode_read, hop, h1, hp.2]

/-- The program counter and the latch pcs after the reconciliation. -/
theorem reconcile_effect (s : APEX_CPU) :
    (reconcile s).pc =
      (if s.halt_and_flush ≠ 0 then s.code_memory_size * 4 + 4000
       else if s.flush_and_reload_pc ≠ 0 then s.flush_and_reload_pc else s.pc)
    ∧ (reconcile s).stage_F.pc =
        (if s.halt_and_flush ≠ 0 ∨ s.flush_and_reload_pc ≠ 0 then 0 else s.stage_F.pc)
    ∧ (reconcile s).stage_DRF.pc =
        (if s.halt_and_flush ≠ 0 ∨ s.flush_and_reload_pc ≠ 0 then 0 else s.stage_DRF.pc)
    ∧ (reconcile s).stage_EX1.pc =
        (if s.halt_and_flush > 1 ∨ s.flush_and_reload_pc ≠ 0 then 0 else s.stage_EX1.pc)
    ∧ (reconcile s).stage_EX2.pc =
        (if s.halt_and_flush > 1 ∨ s.flush_and_reload_pc ≠ 0 then 0 else s.stage_EX2.pc)
    ∧ (reconcile s).stage_EX1.opcode = s.stage_EX1.opcode
    ∧ (reconcile s).stage_EX2.opcode = s.stage_EX2.opcode
    ∧ (reconcile s).flush_and_reload_pc = 0 := by
  unfold reconcile
  simp only []
  split_ifs <;> simp_all
  all_goals omega

/-! ### The run loop -/

/-- No stage function and no reconciliation step changes `clock`. -/
theorem cycle_clock (s : APEX_CPU) : (cycle s).1.clock = s.clock := by
  have hw : (writeback s).1.clock = s.clock := by
    unfold writeback writeback_exit; simp only []; split_ifs <;> rfl
  have h2 : ∀ t : APEX_CPU, (memory2 t).clock = t.clock := by
    intro t; unfold memory2; simp only []; split_ifs <;> rfl
  have h1 : ∀ t : APEX_CPU, (memory1 t).clock = t.clock := by
    intro t; unfold memory1; simp only []; split_ifs <;> rfl
  have he2 : ∀ t : APEX_CPU, (execute2 t).clock = t.clock := by
    intro t; unfold execute2; simp only []; split_ifs <;> rfl
  have he1 : ∀ t : APEX_CPU, (execute1 t).clock = t.clock := by
    intro t; unfold execute1; simp only []; split_ifs <;> rfl
  have hd : ∀ t : APEX_CPU, (decode t).clock = t.clock := by
    intro t; unfold decode; simp only []; split_ifs <;> rfl
  have hf : ∀ t : APEX_CPU, (fetch t).clock = t.clock := by
    intro t; unfold fetch; simp only []; split_ifs <;> rfl
  have hr : ∀ t : APEX_CPU, (reconcile t).clock = t.clock := by
    intro t; unfold reconcile; simp only []; split_ifs <;> rfl
  unfold cycle
  simp only []
  rw [hr, hf, hd, he1, he2, h1, h2, hw]

/-- The loop of `APEX_cpu_run` needs at most `no_of_cycles + 1 - clock`
iterations: unrolling it further does not change the result. -/
theorem run_loop_fuel_irrelevant (fuel : Nat) (s : APEX_CPU) (n : Int)
    (h : (n + 1 - s.clock).toNat ≤ fuel) :
    run_loop fuel s n = run_loop (n + 1 - s.clock).toNat s n := by
  induction fuel generalizing s with
  | zero =>
    have h0 : (n + 1 - s.clock).toNat = 0 := by omega
    rw [h0]
  | succ f ih =>
    by_cases hc : s.clock ≤ n
    · obtain ⟨k, hk⟩ : ∃ k : Nat, (n + 1 - s.clock).toNat = k + 1 :=
        ⟨(n - s.clock).toNat, by omega⟩
      rw [hk]
      unfold run_loop
      simp only [hc, if_true]
      split_ifs with hstop
      · rfl
      · have hclk : ({ (cycle s).1 with clock := (cycle s).1.clock + 1 } : APEX_CPU).clock
            = s.clock + 1 := by
          simp [cycle_clock]
        have hk2 : (n + 1 - ({ (cycle s).1 with clock := (cycle s).1.clock + 1 } : APEX_CPU).clock).toNat
            = k := by
          rw [hclk]; omega
        rw [ih _ (by rw [hk2]; omega), hk2]
    · have h0 : (n + 1 - s.clock).toNat = 0 := by omega
      rw [h0]
      unfold run_loop
      simp [hc]

/-- Iterating from the state after one iteration. -/
theorem at_cycle_loop_body (s : APEX_CPU) (k : Nat) :
    at_cycle (loop_body s) k = at_cycle s (k + 1) := by
  induction k with
  | zero => rfl
  | succ n ih =>
    have h : at_cycle (loop_body s) (n + 1) = loop_body (at_cycle (loop_body s) n) := rfl
    rw [h, ih]
    rfl

/-- The state in which the loop of `APEX_cpu_run` is left is the state at the
start of some iteration (exit through the loop condition) or the state after
the stage calls and the reconciliation of some iteration (exit through the stop
signal of `writeback`). -/
theorem run_loop_reaches (fuel : Nat) (s : APEX_CPU) (n : Int) :
    ∃ k : Nat, k ≤ fuel ∧
      (run_loop fuel s n = at_cycle s k ∨ run_loop fuel s n = (cycle (at_cycle s k)).1) := by
  induction fuel generalizing s with
  | zero => exact ⟨0, le_refl 0, Or.inl rfl⟩
  | succ f ih =>
    unfold run_loop
    by_cases hc : s.clock ≤ n
    · simp only [hc, if_true]
      by_cases hstop : (cycle s).2 ≠ 0
      · rw [if_pos hstop]
        exact ⟨0, Nat.zero_le _, Or.inr rfl⟩
      · rw [if_neg hstop]
        obtain ⟨k, hk, h⟩ := ih (loop_body s)
        refine ⟨k + 1, by omega, ?_⟩
        rw [← at_cycle_loop_body]
        exact h
    · simp only [hc, if_false]
      exact ⟨0, Nat.zero_le _, Or.inl rfl⟩

/-! ### The halt-and-flush invariant -/

/-- `writeback`, `memory2` and `memory1` carry the invariant to `execute2`. -/
theorem halt_inv_before_execute2 (s : APEX_CPU) (h : halt_inv s) :
    halt_inv_mid (before_execute2 s) := by
  have hw := writeback_frame s
  have h2 := memory2_frame (writeback s).1
  have h1 := memory1_frame (memory2 (writeback s).1)
  unfold halt_inv_mid before_execute2 before_memory1 before_memory2
  rw [h1.1, h2.1, hw.1, h1.2.2.2.1, h2.2.2.2.1, hw.2.2.2.1, h1.2.2.2.2.1, h2.2.2.2.2.1,
    hw.2.2.2.2.1, h1.2.2.2.2.2.1, h2.2.2.2.2.2.1, hw.2.2.2.2.2.1]
  by_cases h0 : s.halt_and_flush = 0
  · exact Or.inl h0
  · exact Or.inr (Or.inr (h h0))

/-- `execute2` keeps the invariant: it raises the signal only to 2. -/
theorem halt_inv_mid_execute2 (s : APEX_CPU) (h : halt_inv_mid s) :
    halt_inv_mid (execute2 s) := by
  have hf := execute2_frame s
  have hh := execute2_halt_and_flush s
  unfold halt_inv_mid at *
  rw [hf.2.1, hf.2.2.1, hf.2.2.2.1, hh]
  split_ifs with hc
  · exact Or.inr (Or.inl rfl)
  · rcases h with h | h | h
    · exact Or.inl h
    · exact Or.inr (Or.inl h)
    · exact Or.inr (Or.inr ⟨h.1, h.2.1, h.2.2⟩)

/-- `execute1` keeps the invariant: what it puts into the Execute2 latch has the
opcode of the Execute1 latch. -/
theorem halt_inv_mid_execute1 (s : APEX_CPU) (h : halt_inv_mid s) :
    halt_inv_mid (execute1 s) := by
  have hf := execute1_frame s
  have h1 := execute1_stage_EX1 s
  have h2 := execute1_stage_EX2 s
  have hk := execute1_compute_keeps { s.stage_EX1 with is_empty := 0 }
  unfold halt_inv_mid at *
  rw [hf.1, hf.2.2.2.1]
  rcases h with h | h | h
  · exact Or.inl h
  · exact Or.inr (Or.inl h)
  · refine Or.inr (Or.inr ⟨h.1, ?_, ?_⟩)
    · unfold no_branch at *
      rw [h1.1, h1.2]
      exact h.2.1
    · rw [h2]
      split_ifs
      · unfold no_branch at *
        rw [hk.1, hk.2.1]
        exact h.2.1
      · exact h.2.2

/-- `decode` keeps the invariant: it raises the signal only for a `HALT`, which it
hands to Execute1, and only if the Execute2 latch holds no control opcode. -/
theorem halt_inv_mid_decode (s : APEX_CPU) (h : halt_inv_mid s) :
    halt_inv_late (decode s) := by
  have hf := decode_frame s
  have hh := decode_halt_and_flush s
  have hr := decode_read_halt_and_flush s { s.stage_DRF with stalled := 0, is_empty := 0 }
  have h1 := decode_stage_EX1 s
  unfold halt_inv_late
  rw [hf.2.1, hh]
  by_cases hp : decode_processes s
  · rw [if_pos hp, hr]
    simp only []
    by_cases hop : s.stage_DRF.opcode = "HALT"
    · rw [if_pos hop]
      split_ifs with hc
      · exact Or.inl rfl
      · refine Or.inr (Or.inr ⟨?_, ?_⟩)
        · unfold no_branch
          rw [decode_halt_stage_EX1 s hp hop]
          intro _
          decide
        · unfold no_branch
          intro _ hb
          apply hc
          left
          unfold is_control
          rcases hb with hb | hb <;> simp [hb]
    · rw [if_neg hop]
      rcases h with h | h | h
      · exact Or.inl h
      · exact Or.inr (Or.inl h)
      · exfalso
        unfold decode_processes at hp
        omega
  · rw [if_neg hp]
    rcases h1 with h1 | h1
    · rw [h1]
      rcases h with h | h | h
      · exact Or.inl h
      · exact Or.inr (Or.inl h)
      · exact Or.inr (Or.inr ⟨h.2.1, h.2.2⟩)
    · exact absurd h1.1 hp

/-- `fetch` keeps the invariant. -/
theorem halt_inv_late_fetch (s : APEX_CPU) (h : halt_inv_late s) :
    halt_inv_late (fetch s) := by
  have hf := fetch_frame s
  unfold halt_inv_late at *
  rw [hf.1, hf.2.2.1, hf.2.2.2.1]
  exact h

/-- The reconciliation restores the invariant of the start of an iteration: with
the signal raised it empties the Decode latch, and for the value 2 the Execute1
and Execute2 latches as well. -/
theorem halt_inv_late_reconcile (s : APEX_CPU) (h : halt_inv_late s) :
    halt_inv (reconcile s) := by
  have hf := reconcile_frame s
  have he := reconcile_effect s
  unfold halt_inv
  rw [hf.1]
  intro hne
  unfold no_branch
  rw [he.2.2.1, he.2.2.2.1, he.2.2.2.2.1, he.2.2.2.2.2.1, he.2.2.2.2.2.2.1]
  unfold halt_inv_late no_branch at h
  rcases h with h | h | h
  · exact absurd h hne
  · simp [h]
  · refine ⟨?_, ?_, ?_⟩
    · simp [hne]
    · split_ifs
      · intro hx; omega
      · exact h.1
    · split_ifs
      · intro hx; omega
      · exact h.2

/-- The halt-and-flush invariant is kept by an iteration of the run loop. -/
theorem halt_inv_loop_body (s : APEX_CPU) (h : halt_inv s) : halt_inv (loop_body s) := by
  have h1 := halt_inv_late_reconcile _ (halt_inv_late_fetch _ (halt_inv_mid_decode _
    (halt_inv_mid_execute1 _ (halt_inv_mid_execute2 _ (halt_inv_before_execute2 s h)))))
  exact h1

/-- The halt-and-flush invariant holds at the start of every iteration of a run
that starts in a state built by `APEX_cpu_init`. -/
theorem halt_inv_at_cycle (s : APEX_CPU) (h : halt_inv s) (k : Nat) :
    halt_inv (at_cycle s k) := by
  induction k with
  | zero => exact h
  | succ n ih => exact halt_inv_loop_body _ ih

/-- A taken conditional branch with a non-zero target, processed by `execute2` in
an iteration that starts in a state satisfying `halt_inv`, empties the four
upstream latches and redirects `cpu.pc`. -/
theorem taken_branch_flushes (s : APEX_CPU) (hinv : halt_inv s)
    (hp : execute2_processes (before_execute2 s)) (ht : branch_taken (before_execute2 s))
    (hz : (before_execute2 s).stage_EX2.pc + (before_execute2 s).stage_EX2.imm ≠ 0) :
    (cycle s).1.stage_F.pc = 0 ∧ (cycle s).1.stage_DRF.pc = 0
    ∧ (cycle s).1.stage_EX1.pc = 0 ∧ (cycle s).1.stage_EX2.pc = 0
    ∧ (cycle s).1.pc
        = (before_execute2 s).stage_EX2.pc + (before_execute2 s).stage_EX2.imm := by
  -- the state in which `execute2` runs
  have hw := writeback_frame s
  have h2 := memory2_frame (writeback s).1
  have h1 := memory1_frame (memory2 (writeback s).1)
  have ha_hf : (before_execute2 s).halt_and_flush = s.halt_and_flush := by
    unfold before_execute2 before_memory1 before_memory2
    rw [h1.1, h2.1, hw.1]
  have ha_ex2 : (before_execute2 s).stage_EX2 = s.stage_EX2 := by
    unfold before_execute2 before_memory1 before_memory2
    rw [h1.2.2.2.2.2.1, h2.2.2.2.2.2.1, hw.2.2.2.2.2.1]
  have hbr : (before_execute2 s).stage_EX2.opcode = "BZ"
      ∨ (before_execute2 s).stage_EX2.opcode = "BNZ" := by
    rcases ht with h | h
    · exact Or.inl h.1
    · exact Or.inr h.1
  have hf0 : (before_execute2 s).halt_and_flush = 0 := by
    rw [ha_hf]
    by_contra hne
    have hnb := (hinv hne).2.2
    rw [← ha_ex2] at hnb
    exact hnb hp.1 hbr
  -- after `execute2`
  have hb_fl : (before_execute1 s).flush_and_reload_pc
      = (before_execute2 s).stage_EX2.pc + (before_execute2 s).stage_EX2.imm := by
    unfold before_execute1
    rw [execute2_flush_and_reload_pc, if_pos hp, if_pos ht]
  have hb_hf : (before_execute1 s).halt_and_flush = 0 := by
    unfold before_execute1
    rw [execute2_halt_and_flush, if_neg (fun hc => hc.2.1 ht), hf0]
  have hb_m1 : is_control (before_execute1 s).stage_MEM1.opcode = true := by
    unfold before_execute1
    rw [execute2_stage_MEM1, if_pos hp]
    unfold is_control
    rcases hbr with h | h <;> simp [h]
  -- after `execute1`
  have hef := execute1_frame (before_execute1 s)
  have hc_fl : (before_decode s).flush_and_reload_pc
      = (before_execute2 s).stage_EX2.pc + (before_execute2 s).stage_EX2.imm := by
    unfold before_decode
    rw [hef.2.1, hb_fl]
  have hc_hf : (before_decode s).halt_and_flush = 0 := by
    unfold before_decode
    rw [hef.1, hb_hf]
  have hc_m1 : is_control (before_decode s).stage_MEM1.opcode = true := by
    unfold before_decode
    rw [hef.2.2.2.2.1, hb_m1]
  -- after `decode`
  have hdf := decode_frame (before_decode s)
  have hd_fl : (before_fetch s).flush_and_reload_pc
      = (before_execute2 s).stage_EX2.pc + (before_execute2 s).stage_EX2.imm := by
    unfold before_fetch
    rw [hdf.1, hc_fl]
  have hd_hf : (before_fetch s).halt_and_flush = 0 := by
    unfold before_fetch
    rw [decode_halt_and_flush, decode_read_halt_and_flush]
    simp only []
    split_ifs with h1 h2 h3
    · rfl
    · exact absurd (Or.inr hc_m1) h3
    · exact hc_hf
    · exact hc_hf
  -- after `fetch` and the reconciliation
  have hff := fetch_frame (before_fetch s)
  have he := reconcile_effect (fetch (before_fetch s))
  rw [hff.1, hff.2.1, hd_hf, hd_fl] at he
  have hcyc : (cycle s).1 = reconcile (fetch (before_fetch s)) := rfl
  rw [hcyc]
  refine ⟨?_, ?_, ?_, ?_, ?_⟩
  · rw [he.2.1]; simp [hz]
  · rw [he.2.2.1]; simp [hz]
  · rw [he.2.2.2.1]; simp [hz]
  · rw [he.2.2.2.2.1]; simp [hz]
  · rw [he.1]; simp [hz]

/-! ### The validity words along an iteration -/

/-- The validity words `execute1` finds are those `writeback` left. -/
theorem regs_valid_before_execute1 (s : APEX_CPU) :
    (before_execute1 s).regs_valid = (writeback s).1.regs_valid := by
  unfold before_execute1 before_execute2 before_memory1 before_memory2
  rw [(execute2_frame _).2.2.2.2.2.2.2, (memory1_frame _).2.2.2.2.2.2.2.2.2,
    (memory2_frame _).2.2.2.2.2.2.2.2.2.2]

/-- The validity words at the end of an iteration are those `decode` found. -/
theorem regs_valid_cycle (s : APEX_CPU) :
    (cycle s).1.regs_valid = (before_decode s).regs_valid := by
  have h : (cycle s).1 = reconcile (fetch (decode (before_decode s))) := rfl
  rw [h, (reconcile_frame _).2.2.2.2.2.2.2.1, (fetch_frame _).2.2.2.2.2.2.2.2.2,
    (decode_frame _).2.2.2.2.2.2.2.2]

/-- The validity word of a register `r` in 1..15 at the moment `decode` runs: it
is 0 exactly when `execute1` has just claimed `r`, or when it was 0 at the start
of the iteration and `writeback` has not released `r`. -/
theorem regs_valid_before_decode (s : APEX_CPU) (r : Int) (hr : 1 ≤ r ∧ r ≤ 15) :
    (before_decode s).regs_valid r = 0 ↔
      (execute1_claims s r ∨ (s.regs_valid r = 0 ∧ ¬ writeback_releases s r)) := by
  have h1 : (before_decode s).regs_valid = (execute1 (before_execute1 s)).regs_valid := rfl
  rw [h1, execute1_regs_valid, regs_valid_before_execute1, writeback_regs_valid]
  unfold execute1_claims writeback_releases
  by_cases hc : execute1_processes (before_execute1 s)
  · by_cases hrd : (before_execute1 s).stage_EX1.rd = r
    · have hg : execute1_processes (before_execute1 s) ∧ (before_execute1 s).stage_EX1.rd ≠ 0
          ∧ (before_execute1 s).stage_EX1.rd < 16 ∧ (before_execute1 s).stage_EX1.rd ≥ 0 := by
        refine ⟨hc, ?_, ?_, ?_⟩ <;> omega
      rw [if_pos hg]
      simp [store, hrd, hc]
    · have hne : r ≠ (before_execute1 s).stage_EX1.rd := fun h => hrd h.symm
      by_cases hw : writeback_processes s ∧ s.stage_WB.rd ≠ 0
      · by_cases hwr : s.stage_WB.rd = r
        · split_ifs <;> simp [store, hne, hrd, hwr, hw.1]
        · have hne2 : r ≠ s.stage_WB.rd := fun h => hwr h.symm
          split_ifs <;> simp [store, hne, hrd, hwr, hne2]
      · have hwr : ¬ (writeback_processes s ∧ s.stage_WB.rd = r) := by
          intro h
          apply hw
          exact ⟨h.1, by omega⟩
        split_ifs <;> simp [store, hne, hrd, hwr]
  · have hg : ¬ (execute1_processes (before_execute1 s) ∧ (before_execute1 s).stage_EX1.rd ≠ 0
        ∧ (before_execute1 s).stage_EX1.rd < 16 ∧ (before_execute1 s).stage_EX1.rd ≥ 0) :=
      fun h => hc h.1
    rw [if_neg hg]
    by_cases hw : writeback_processes s ∧ s.stage_WB.rd ≠ 0
    · by_cases hwr : s.stage_WB.rd = r
      · rw [if_pos hw]
        simp [store, hwr, hw.1, hc]
      · have hne2 : r ≠ s.stage_WB.rd := fun h => hwr h.symm
        rw [if_pos hw]
        simp [store, hwr, hne2, hc]
    · have hwr : ¬ (writeback_processes s ∧ s.stage_WB.rd = r) := by
        intro h
        apply hw
        exact ⟨h.1, by omega⟩
      rw [if_neg hw]
      simp [hwr, hc]

/-- The validity word of a register `r` in 1..15 at the end of an iteration. -/
theorem regs_valid_end_of_cycle (s : APEX_CPU) (r : Int) (hr : 1 ≤ r ∧ r ≤ 15) :
    (cycle s).1.regs_valid r = 0 ↔
      (execute1_claims s r ∨ (s.regs_valid r = 0 ∧ ¬ writeback_releases s r)) := by
  rw [regs_valid_cycle]
  exact regs_valid_before_decode s r hr

/-! ### C1: the end-to-end example -/

/-- C1 (as the code behaves): from the initial state with code memory
`MOVC R1,#5; MOVC R2,#10; ADD R3,R1,R2` and a cycle bound of 20, `APEX_cpu_run`
stops at clock 13 with R1 = 5, R2 = 10, R3 = 15 and CC = 0, but with
`ins_completed = 4`, in silent and in verbose mode alike: the entry fetched from
index 3, past the end of the three-instruction store, is committed and counted
by `writeback` in the cycle in which it raises the drain stop. -/
theorem C1_run_counts_entry_past_the_end :
    (APEX_cpu_run (APEX_cpu_init (load prog_add blank) 3) 20 0).regs 1 = 5
    ∧ (APEX_cpu_run (APEX_cpu_init (load prog_add blank) 3) 20 0).regs 2 = 10
    ∧ (APEX_cpu_run (APEX_cpu_init (load prog_add blank) 3) 20 0).regs 3 = 15
    ∧ (APEX_cpu_run (APEX_cpu_init (load prog_add blank) 3) 20 0).regs CC = 0
    ∧ (APEX_cpu_run (APEX_cpu_init (load prog_add blank) 3) 20 0).clock = 13
    ∧ (APEX_cpu_run (APEX_cpu_init (load prog_add blank) 3) 20 0).ins_completed = 4
    ∧ (APEX_cpu_run (APEX_cpu_init (load prog_add blank) 3) 20 1).regs 3 = 15
    ∧ (APEX_cpu_run (APEX_cpu_init (load prog_add blank) 3) 20 1).ins_completed = 4 := by
  decide

/-! ### C3: taken conditional branches -/

set_option maxRecDepth 100000 in
/-- C3, counterexample: in the run of `BNZ #-4000; MOVC R1,#5` (CC is 0, so the
branch at pc 4000 is taken, to target 0) `execute2` processes the `BNZ` in
iteration 3, and at the end of that iteration nothing has been flushed: the
Fetch, Decode, Execute1 and Execute2 latches hold pcs 4012, 4012, 4008 and 4004,
and `cpu.pc` is 4016, not 0. -/
theorem C3_branch_to_zero_is_not_taken :
    execute2_processes
      (before_execute2 (at_cycle (APEX_cpu_init (load prog_branch_to_zero blank) 2) 3))
    ∧ branch_taken
      (before_execute2 (at_cycle (APEX_cpu_init (load prog_branch_to_zero blank) 2) 3))
    ∧ (before_execute2
        (at_cycle (APEX_cpu_init (load prog_branch_to_zero blank) 2) 3)).stage_EX2.pc = 4000
    ∧ (before_execute2
        (at_cycle (APEX_cpu_init (load prog_branch_to_zero blank) 2) 3)).stage_EX2.imm = -4000
    ∧ (cycle (at_cycle (APEX_cpu_init (load prog_branch_to_zero blank) 2) 3)).1.stage_F.pc = 4012
    ∧ (cycle (at_cycle (APEX_cpu_init (load prog_branch_to_zero blank) 2) 3)).1.stage_DRF.pc = 4012
    ∧ (cycle (at_cycle (APEX_cpu_init (load prog_branch_to_zero blank) 2) 3)).1.stage_EX1.pc = 4008
    ∧ (cycle (at_cycle (APEX_cpu_init (load prog_branch_to_zero blank) 2) 3)).1.stage_EX2.pc = 4004
    ∧ (cycle (at_cycle (APEX_cpu_init (load prog_branch_to_zero blank) 2) 3)).1.pc = 4016 := by
  decide

/-- C3 (amended): in every run that starts in a state built by `APEX_cpu_init`,
for every iteration in which `execute2` processes a `BZ` with `regs[CC] = 1` or a
`BNZ` with `regs[CC] = 0` whose target (the branch's own pc plus its immediate) is
not 0, at the end of that iteration (after the reconciliation) the Fetch, Decode,
Execute1 and Execute2 latches all have pc = 0 and `cpu.pc` equals the target. -/
theorem C3_taken_branch_flushes_and_redirects
    (code_memory : Int → APEX_Instruction) (code_memory_size flag : Int) (k : Nat)
    (hp : execute2_processes (before_execute2
      (at_cycle (enter_run (APEX_cpu_init code_memory code_memory_size) flag) k)))
    (ht : branch_taken (before_execute2
      (at_cycle (enter_run (APEX_cpu_init code_memory code_memory_size) flag) k)))
    (hz : (before_execute2
        (at_cycle (enter_run (APEX_cpu_init code_memory code_memory_size) flag) k)).stage_EX2.pc
      + (before_execute2
        (at_cycle (enter_run (APEX_cpu_init code_memory code_memory_size) flag) k)).stage_EX2.imm
      ≠ 0) :
    (cycle (at_cycle (enter_run (APEX_cpu_init code_memory code_memory_size) flag) k)).1.stage_F.pc
      = 0
    ∧ (cycle (at_cycle (enter_run (APEX_cpu_init code_memory code_memory_size) flag) k)).1.stage_DRF.pc
      = 0
    ∧ (cycle (at_cycle (enter_run (APEX_cpu_init code_memory code_memory_size) flag) k)).1.stage_EX1.pc
      = 0
    ∧ (cycle (at_cycle (enter_run (APEX_cpu_init code_memory code_memory_size) flag) k)).1.stage_EX2.pc
      = 0
    ∧ (cycle (at_cycle (enter_run (APEX_cpu_init code_memory code_memory_size) flag) k)).1.pc
      = (before_execute2
          (at_cycle (enter_run (APEX_cpu_init code_memory code_memory_size) flag) k)).stage_EX2.pc
        + (before_execute2
          (at_cycle (enter_run (APEX_cpu_init code_memory code_memory_size) flag) k)).stage_EX2.imm := by
  have h0 : halt_inv (enter_run (APEX_cpu_init code_memory code_memory_size) flag) := by
    intro h
    exact absurd rfl h
  exact taken_branch_flushes _ (halt_inv_at_cycle _ h0 k) hp ht hz

set_option maxRecDepth 100000 in
/-- C3, witness: in the run of `BNZ #8; MOVC R1,#5; MOVC R2,#7` the branch at pc
4000 is processed by `execute2` in iteration 3 and taken to 4008. -/
theorem C3_taken_branch_witness :
    (cycle (at_cycle (enter_run (APEX_cpu_init (load prog_branch_over blank) 3) 0) 3)).1.stage_F.pc
      = 0
    ∧ (cycle (at_cycle (enter_run (APEX_cpu_init (load prog_branch_over blank) 3) 0) 3)).1.stage_DRF.pc
      = 0
    ∧ (cycle (at_cycle (enter_run (APEX_cpu_init (load prog_branch_over blank) 3) 0) 3)).1.stage_EX1.pc
      = 0
    ∧ (cycle (at_cycle (enter_run (APEX_cpu_init (load prog_branch_over blank) 3) 0) 3)).1.stage_EX2.pc
      = 0
    ∧ (cycle (at_cycle (enter_run (APEX_cpu_init (load prog_branch_over blank) 3) 0) 3)).1.pc
      = (before_execute2
          (at_cycle (enter_run (APEX_cpu_init (load prog_branch_over blank) 3) 0) 3)).stage_EX2.pc
        + (before_execute2
          (at_cycle (enter_run (APEX_cpu_init (load prog_branch_over blank) 3) 0) 3)).stage_EX2.imm :=
  C3_taken_branch_flushes_and_redirects (load prog_branch_over blank) 3 0 3
    (by decide) (by decide) (by decide)

/-! ### C4: HALT at Writeback -/

set_option maxRecDepth 100000 in
/-- C4 (as the code behaves): in silent mode a `HALT` at Writeback is not
terminal.  In the run of the one-instruction program `HALT` the latch of
Writeback holds the `HALT` at the start of iteration 6 and `writeback` processes
it, yet returns 0 when `ENABLE_DEBUG_MESSAGES` is 0 (and 1 when it is 1); with
a cycle bound of 20 the silent run leaves the loop only through the loop
condition, at clock 21, while the verbose run stops at clock 6. -/
theorem C4_halt_is_not_terminal_in_silent_mode :
    writeback_processes (at_cycle (enter_run (APEX_cpu_init (load prog_halt blank) 1) 0) 6)
    ∧ (at_cycle (enter_run (APEX_cpu_init (load prog_halt blank) 1) 0) 6).stage_WB.opcode = "HALT"
    ∧ (writeback (at_cycle (enter_run (APEX_cpu_init (load prog_halt blank) 1) 0) 6)).2 = 0
    ∧ (writeback (at_cycle (enter_run (APEX_cpu_init (load prog_halt blank) 1) 1) 6)).2 = 1
    ∧ (APEX_cpu_run (APEX_cpu_init (load prog_halt blank) 1) 20 0).clock = 21
    ∧ (APEX_cpu_run (APEX_cpu_init (load prog_halt blank) 1) 20 1).clock = 6 := by
  decide

/-! ### C5: operand interlock of Decode -/

/-- C5: for every state in which the Decode latch is occupied (pc >= 4000) and
not busy, `decode` hands its latch to Execute1 exactly when every required source
register is valid: rs1, rs2 and rs3 for `STR`; rs1 and rs2 for `ADD`, `SUB`,
`MUL`, `AND`, `OR`, `EX-OR`, `LDR`, `STORE`; rs1 for `ADDL`, `SUBL`, `LOAD`,
`JUMP`; none for `MOVC`.  On a hand-off the Execute1 latch is the Decode latch
with `rsN_value = regs[rsN]` for each required source, the marker of the
instruction is `DRF`, Fetch's stalled flag is 0 and Decode is not stalled.
Otherwise Decode's stalled flag is 1 and the Execute1 latch, the register file,
the validity words and the instruction store (the markers) are unchanged. -/
theorem C5_decode_operand_interlock (s : APEX_CPU)
    (hpc : s.stage_DRF.pc ≥ 4000) (hbusy : s.stage_DRF.busy = 0) :
    (s.stage_DRF.opcode = "STR" →
      ((s.regs_valid s.stage_DRF.rs1 ≠ 0 ∧ s.regs_valid s.stage_DRF.rs2 ≠ 0
          ∧ s.regs_valid s.stage_DRF.rs3 ≠ 0) →
        (decode s).stage_EX1 =
            { s.stage_DRF with
              stalled := 0, is_empty := 0,
              rs1_value := s.regs s.stage_DRF.rs1, rs2_value := s.regs s.stage_DRF.rs2,
              rs3_value := s.regs s.stage_DRF.rs3 }
          ∧ ((decode s).code_memory (get_code_index s.stage_DRF.pc)).stage_finished = DRF
          ∧ (decode s).stage_F.stalled = 0 ∧ (decode s).stage_DRF.stalled = 0)
      ∧ (¬ (s.regs_valid s.stage_DRF.rs1 ≠ 0 ∧ s.regs_valid s.stage_DRF.rs2 ≠ 0
          ∧ s.regs_valid s.stage_DRF.rs3 ≠ 0) →
        (decode s).stage_DRF.stalled = 1 ∧ (decode s).stage_EX1 = s.stage_EX1
          ∧ (decode s).regs = s.regs ∧ (decode s).regs_valid = s.regs_valid
          ∧ (decode s).code_memory = s.code_memory))
    ∧ ((s.stage_DRF.opcode = "ADD" ∨ s.stage_DRF.opcode = "SUB" ∨ s.stage_DRF.opcode = "MUL"
          ∨ s.stage_DRF.opcode = "AND" ∨ s.stage_DRF.opcode = "OR"
          ∨ s.stage_DRF.opcode = "EX-OR" ∨ s.stage_DRF.opcode = "LDR"
          ∨ s.stage_DRF.opcode = "STORE") →
      ((s.regs_valid s.stage_DRF.rs1 ≠ 0 ∧ s.regs_valid s.stage_DRF.rs2 ≠ 0) →
        (decode s).stage_EX1 =
            { s.stage_DRF with
              stalled := 0, is_empty := 0,
              rs1_value := s.regs s.stage_DRF.rs1, rs2_value := s.regs s.stage_DRF.rs2 }
          ∧ ((decode s).code_memory (get_code_index s.stage_DRF.pc)).stage_finished = DRF
          ∧ (decode s).stage_F.stalled = 0 ∧ (decode s).stage_DRF.stalled = 0)
      ∧ (¬ (s.regs_valid s.stage_DRF.rs1 ≠ 0 ∧ s.regs_valid s.stage_DRF.rs2 ≠ 0) →
        (decode s).stage_DRF.stalled = 1 ∧ (decode s).stage_EX1 = s.stage_EX1
          ∧ (decode s).regs = s.regs ∧ (decode s).regs_valid = s.regs_valid
          ∧ (decode s).code_memory = s.code_memory))
    ∧ ((s.stage_DRF.opcode = "ADDL" ∨ s.stage_DRF.opcode = "SUBL"
          ∨ s.stage_DRF.opcode = "LOAD" ∨ s.stage_DRF.opcode = "JUMP") →
      (s.regs_valid s.stage_DRF.rs1 ≠ 0 →
        (decode s).stage_EX1 =
            { s.stage_DRF with
              stalled := 0, is_empty := 0, rs1_value := s.regs s.stage_DRF.rs1 }
          ∧ ((decode s).code_memory (get_code_index s.stage_DRF.pc)).stage_finished = DRF
          ∧ (decode s).stage_F.stalled = 0 ∧ (decode s).stage_DRF.stalled = 0)
      ∧ (¬ s.regs_valid s.stage_DRF.rs1 ≠ 0 →
        (decode s).stage_DRF.stalled = 1 ∧ (decode s).stage_EX1 = s.stage_EX1
          ∧ (decode s).regs = s.regs ∧ (decode s).regs_valid = s.regs_valid
          ∧ (decode s).code_memory = s.code_memory))
    ∧ (s.stage_DRF.opcode = "MOVC" →
        (decode s).stage_EX1 = { s.stage_DRF with stalled := 0, is_empty := 0 }
          ∧ ((decode s).code_memory (get_code_index s.stage_DRF.pc)).stage_finished = DRF
          ∧ (decode s).stage_F.stalled = 0 ∧ (decode s).stage_DRF.stalled = 0) := by
  have hpc2 : (4000 : Int) ≤ s.stage_DRF.pc := hpc
  refine ⟨?_, ?_, ?_, ?_⟩
  · intro hop
    constructor
    · intro hv
      simp [decode, decode_read, hop, hpc2, hbusy, hv.1, hv.2.1, hv.2.2, store]
    · intro hv
      have hv2 : ¬ (¬ s.regs_valid s.stage_DRF.rs1 = 0 ∧ ¬ s.regs_valid s.stage_DRF.rs2 = 0
          ∧ ¬ s.regs_valid s.stage_DRF.rs3 = 0) := hv
      simp [decode, decode_read, hop, hpc2, hbusy, hv2]
  · intro hop
    constructor
    · intro hv
      rcases hop with h | h | h | h | h | h | h | h <;>
        simp [decode, decode_read, h, hpc2, hbusy, hv.1, hv.2, store]
    · intro hv
      have hv2 : ¬ (¬ s.regs_valid s.stage_DRF.rs1 = 0 ∧ ¬ s.regs_valid s.stage_DRF.rs2 = 0) := hv
      rcases hop with h | h | h | h | h | h | h | h <;>
        simp [decode, decode_read, h, hpc2, hbusy, hv2]
  · intro hop
    constructor
    · intro hv
      rcases hop with h | h | h | h <;>
        simp [decode, decode_read, h, hpc2, hbusy, hv, store]
    · intro hv
      have hv2 : s.regs_valid s.stage_DRF.rs1 = 0 := not_not.mp hv
      rcases hop with h | h | h | h <;>
        simp [decode, decode_read, h, hpc2, hbusy, hv2]
  · intro hop
    simp [decode, decode_read, hop, hpc2, hbusy, store]

set_option maxRecDepth 100000 in
/-- C5, witness: in the run of `MOVC R1,#5; MOVC R2,#10; ADD R3,R1,R2` the `ADD`
is in Decode in iteration 3 while R1 is invalid, and `decode` stalls and leaves
the Execute1 latch alone; in iteration 7 both sources are valid and the `ADD`
goes to Execute1 with `rs1_value = 5` and `rs2_value = 10`. -/
theorem C5_decode_operand_interlock_witness :
    ((decode (before_decode (at_cycle (APEX_cpu_init (load prog_add blank) 3) 3))).stage_DRF.stalled = 1
      ∧ (decode (before_decode (at_cycle (APEX_cpu_init (load prog_add blank) 3) 3))).stage_EX1
          = (before_decode (at_cycle (APEX_cpu_init (load prog_add blank) 3) 3)).stage_EX1)
    ∧ ((decode (before_decode (at_cycle (APEX_cpu_init (load prog_add blank) 3) 7))).stage_EX1.rs1_value = 5
      ∧ (decode (before_decode (at_cycle (APEX_cpu_init (load prog_add blank) 3) 7))).stage_EX1.rs2_value = 10) :=
  have h3 := ((C5_decode_operand_interlock
    (before_decode (at_cycle (APEX_cpu_init (load prog_add blank) 3) 3))
    (by decide) (by decide)).2.1 (by decide)).2 (by decide)
  have h7 := ((C5_decode_operand_interlock
    (before_decode (at_cycle (APEX_cpu_init (load prog_add blank) 3) 7))
    (by decide) (by decide)).2.1 (by decide)).1 (by decide)
  ⟨⟨h3.1, h3.2.1⟩, ⟨by rw [h7.1]; decide, by rw [h7.1]; decide⟩⟩

/-! ### C6: stall decision of Decode for conditional branches -/

set_option maxRecDepth 100000 in
/-- C6, counterexample: in the run of `prog_branch_after_add`, when `decode` runs
in iteration 5 its latch holds the `BZ`, none of the Execute1, Execute2, Memory1
and Memory2 latches is occupied by an arithmetic instruction, the Writeback latch
is occupied by the `ADD`, and `decode` stalls. -/
theorem C6_branch_stalls_on_writeback_latch :
    (before_decode (at_cycle (APEX_cpu_init (load prog_branch_after_add blank) 7) 5)).stage_DRF.pc
        ≥ 4000
    ∧ (before_decode (at_cycle (APEX_cpu_init (load prog_branch_after_add blank) 7) 5)).stage_DRF.busy
        = 0
    ∧ (before_decode (at_cycle (APEX_cpu_init (load prog_branch_after_add blank) 7) 5)).stage_DRF.opcode
        = "BZ"
    ∧ ¬ (occupied_by_arith
          (before_decode (at_cycle (APEX_cpu_init (load prog_branch_after_add blank) 7) 5)).stage_EX1
        ∨ occupied_by_arith
          (before_decode (at_cycle (APEX_cpu_init (load prog_branch_after_add blank) 7) 5)).stage_EX2
        ∨ occupied_by_arith
          (before_decode (at_cycle (APEX_cpu_init (load prog_branch_after_add blank) 7) 5)).stage_MEM1
        ∨ occupied_by_arith
          (before_decode (at_cycle (APEX_cpu_init (load prog_branch_after_add blank) 7) 5)).stage_MEM2)
    ∧ (decode (before_decode
          (at_cycle (APEX_cpu_init (load prog_branch_after_add blank) 7) 5))).stage_DRF.stalled = 1
    ∧ (decode (before_decode
          (at_cycle (APEX_cpu_init (load prog_branch_after_add blank) 7) 5))).stage_EX1
        = (before_decode
          (at_cycle (APEX_cpu_init (load prog_branch_after_add blank) 7) 5)).stage_EX1 := by
  decide

/-- C6 (amended): for every state in which the Decode latch holds a `BZ` or `BNZ`
(pc >= 4000, not busy), `decode` stalls if and only if at least one of the
Execute1, Execute2, Memory1, Memory2 or Writeback latches is occupied
(`is_empty = 0`) by an arithmetic-class instruction (`ADD`, `ADDL`, `SUB`,
`SUBL`, `MUL`); when it stalls the Execute1 latch is unchanged, otherwise the
Execute1 latch becomes the Decode latch.  Nothing else (no other latch field, no
validity word) enters the decision. -/
theorem C6_branch_stall_decision (s : APEX_CPU)
    (hpc : s.stage_DRF.pc ≥ 4000) (hbusy : s.stage_DRF.busy = 0)
    (hop : s.stage_DRF.opcode = "BZ" ∨ s.stage_DRF.opcode = "BNZ") :
    ((decode s).stage_DRF.stalled = 1 ↔
      (occupied_by_arith s.stage_EX1 ∨ occupied_by_arith s.stage_EX2
        ∨ occupied_by_arith s.stage_MEM1 ∨ occupied_by_arith s.stage_MEM2
        ∨ occupied_by_arith s.stage_WB))
    ∧ ((decode s).stage_DRF.stalled = 0 ↔
      ¬ (occupied_by_arith s.stage_EX1 ∨ occupied_by_arith s.stage_EX2
        ∨ occupied_by_arith s.stage_MEM1 ∨ occupied_by_arith s.stage_MEM2
        ∨ occupied_by_arith s.stage_WB))
    ∧ ((occupied_by_arith s.stage_EX1 ∨ occupied_by_arith s.stage_EX2
        ∨ occupied_by_arith s.stage_MEM1 ∨ occupied_by_arith s.stage_MEM2
        ∨ occupied_by_arith s.stage_WB) → (decode s).stage_EX1 = s.stage_EX1)
    ∧ (¬ (occupied_by_arith s.stage_EX1 ∨ occupied_by_arith s.stage_EX2
        ∨ occupied_by_arith s.stage_MEM1 ∨ occupied_by_arith s.stage_MEM2
        ∨ occupied_by_arith s.stage_WB) →
          (decode s).stage_EX1 = { s.stage_DRF with stalled := 0, is_empty := 0 }) := by
  have hpc2 : (4000 : Int) ≤ s.stage_DRF.pc := hpc
  unfold occupied_by_arith
  by_cases h1 : s.stage_EX1.is_empty = 0 ∧ is_arith s.stage_EX1.opcode = true
  · rcases hop with h | h <;> simp [decode, decode_read, h, hpc2, hbusy, h1]
  · by_cases h2 : s.stage_EX2.is_empty = 0 ∧ is_arith s.stage_EX2.opcode = true
    · rcases hop with h | h <;> simp [decode, decode_read, h, hpc2, hbusy, h1, h2]
    · by_cases h3 : s.stage_MEM1.is_empty = 0 ∧ is_arith s.stage_MEM1.opcode = true
      · rcases hop with h | h <;> simp [decode, decode_read, h, hpc2, hbusy, h1, h2, h3]
      · by_cases h4 : s.stage_MEM2.is_empty = 0 ∧ is_arith s.stage_MEM2.opcode = true
        · rcases hop with h | h <;> simp [decode, decode_read, h, hpc2, hbusy, h1, h2, h3, h4]
        · by_cases h5 : s.stage_WB.is_empty = 0 ∧ is_arith s.stage_WB.opcode = true
          · rcases hop with h | h <;>
              simp [decode, decode_read, h, hpc2, hbusy, h1, h2, h3, h4, h5]
          · rcases hop with h | h <;>
              simp [decode, decode_read, h, hpc2, hbusy, h1, h2, h3, h4, h5]

set_option maxRecDepth 100000 in
/-- C6, witness: the stall decision at the state of the counterexample, where
only the Writeback latch is occupied by an arithmetic instruction. -/
theorem C6_branch_stall_decision_witness :
    (decode (before_decode
      (at_cycle (APEX_cpu_init (load prog_branch_after_add blank) 7) 5))).stage_DRF.stalled = 1 :=
  (C6_branch_stall_decision
    (before_decode (at_cycle (APEX_cpu_init (load prog_branch_after_add blank) 7) 5))
    (by decide) (by decide) (by decide)).1.2 (by decide)

/-! ### C7: Fetch -/

/-- C7, counterexample: with the Fetch latch busy (and not stalled) and the
Decode latch stalled, `fetch` does not hand off, `cpu.pc` and the Decode latch
are unchanged, and Fetch's own stalled flag is still 0 afterwards. -/
theorem C7_busy_fetch_does_not_set_stalled :
    ¬ (state_fetch_busy.stage_F.busy = 0 ∧ state_fetch_busy.stage_F.stalled = 0
        ∧ state_fetch_busy.stage_DRF.stalled = 0)
    ∧ state_fetch_busy.stage_DRF.stalled ≠ 0
    ∧ (fetch state_fetch_busy).stage_F.stalled = 0 := by
  decide

/-- C7 (amended): for every state, `fetch` advances `cpu.pc` by exactly 4 if and
only if it hands off to Decode, which happens exactly when the Fetch latch is
neither busy nor stalled and the Decode latch is not stalled; the Decode latch
then is the Fetch latch loaded with the fields of the instruction at the old pc
and with latch pc = old pc, and that instruction's marker is `F`.  In every other
case `cpu.pc` and the Decode latch are unchanged, and if Decode was stalled and
the Fetch latch is not busy, Fetch's own stalled flag is set afterwards. -/
theorem C7_fetch_hand_off (s : APEX_CPU) :
    ((fetch s).pc = s.pc + 4 ↔
      (s.stage_F.busy = 0 ∧ s.stage_F.stalled = 0 ∧ s.stage_DRF.stalled = 0))
    ∧ ((s.stage_F.busy = 0 ∧ s.stage_F.stalled = 0 ∧ s.stage_DRF.stalled = 0) →
        (fetch s).stage_DRF =
          { s.stage_F with
            is_empty := 0, pc := s.pc,
            opcode := (s.code_memory (get_code_index s.pc)).opcode,
            rd := (s.code_memory (get_code_index s.pc)).rd,
            rs1 := (s.code_memory (get_code_index s.pc)).rs1,
            rs2 := (s.code_memory (get_code_index s.pc)).rs2,
            rs3 := (s.code_memory (get_code_index s.pc)).rs3,
            imm := (s.code_memory (get_code_index s.pc)).imm }
        ∧ ((fetch s).code_memory (get_code_index s.pc)).stage_finished = F)
    ∧ (¬ (s.stage_F.busy = 0 ∧ s.stage_F.stalled = 0 ∧ s.stage_DRF.stalled = 0) →
        (fetch s).pc = s.pc ∧ (fetch s).stage_DRF = s.stage_DRF)
    ∧ (¬ (s.stage_F.busy = 0 ∧ s.stage_F.stalled = 0 ∧ s.stage_DRF.stalled = 0) →
        s.stage_DRF.stalled ≠ 0 → s.stage_F.busy = 0 → (fetch s).stage_F.stalled ≠ 0) := by
  refine ⟨?_, ?_, ?_, ?_⟩
  · unfold fetch
    simp only []
    split_ifs with h1 h2
    · simp [h1.1, h1.2, h2]
    · simp [h2]
    · simp only [self_eq_add_right, OfNat.ofNat_ne_zero, false_iff]
      intro h
      exact h1 ⟨h.1, h.2.1⟩
  · intro h
    unfold fetch
    simp [h.1, h.2.1, h.2.2, store]
  · intro h
    unfold fetch
    simp only []
    split_ifs with h1 h2
    · exact absurd ⟨h1.1, h1.2, h2⟩ h
    · exact ⟨rfl, rfl⟩
    · exact ⟨rfl, rfl⟩
  · intro h hd hb
    unfold fetch
    simp only []
    split_ifs with h1
    · simp
    · exact fun h0 => h1 ⟨hb, h0⟩

/-- C7, witness: in the initial state of the three-instruction program `fetch`
hands the `MOVC` at pc 4000 to Decode and moves `cpu.pc` to 4004. -/
theorem C7_fetch_hand_off_witness :
    (fetch (APEX_cpu_init (load prog_add blank) 3)).stage_DRF.opcode = "MOVC"
    ∧ (fetch (APEX_cpu_init (load prog_add blank) 3)).pc = 4004 :=
  have h := C7_fetch_hand_off (APEX_cpu_init (load prog_add blank) 3)
  ⟨by rw [(h.2.1 (by decide)).1]; decide, by rw [h.1.2 (by decide)]; decide⟩

/-! ### C8: readiness test between Execute1 and Writeback -/

set_option maxRecDepth 100000 in
/-- C9, counterexample: in the run of the one-instruction program `MOVC R0,#5`,
`writeback` processes the `MOVC` in iteration 6 (destination register 0,
buffer 5); `regs[0]` becomes 5, but `regs_valid[0]` is not made 1: it keeps the
word `0x01010101` it had.  Started from the same state with every validity word
cleared, `writeback` leaves `regs_valid[0]` at 0. -/
theorem C9_writeback_skips_validity_of_r0 :
    writeback_processes (at_cycle (APEX_cpu_init (load prog_movc_r0 blank) 1) 6)
    ∧ (at_cycle (APEX_cpu_init (load prog_movc_r0 blank) 1) 6).stage_WB.opcode = "MOVC"
    ∧ (at_cycle (APEX_cpu_init (load prog_movc_r0 blank) 1) 6).stage_WB.rd = 0
    ∧ (writeback (at_cycle (APEX_cpu_init (load prog_movc_r0 blank) 1) 6)).1.regs 0 = 5
    ∧ (writeback (at_cycle (APEX_cpu_init (load prog_movc_r0 blank) 1) 6)).1.regs_valid 0
        = 16843009
    ∧ (writeback (at_cycle (APEX_cpu_init (load prog_movc_r0 blank) 1) 6)).1.regs_valid 0 ≠ 1
    ∧ writeback_processes
        { at_cycle (APEX_cpu_init (load prog_movc_r0 blank) 1) 6 with regs_valid := fun _ => 0 }
    ∧ (writeback
        { at_cycle (APEX_cpu_init (load prog_movc_r0 blank) 1) 6 with
          regs_valid := fun _ => 0 }).1.regs_valid 0 = 0 := by
  decide

/-- C9 (amended): for every state in which `writeback` processes its latch
(pc >= 4000, not busy, not stalled, marker below `WB`) and the destination `rd` of
the latch is an index of the register file (0..16), and for every opcode:
`regs_valid[rd]` becomes 1 when `rd` is not 0, and no other validity word of the
file changes; for `MOVC`, `LOAD`, `LDR`, `AND`, `OR`, `EX-OR` `regs[rd]` becomes the
latch buffer and every other register, `regs[CC]` included when `rd` is not
`CC`, is unchanged; for `ADD`, `ADDL`, `SUB`, `SUBL`, `MUL` `regs[CC]` becomes 1
if the buffer is 0 and 0 otherwise, `regs[rd]` becomes the buffer when `rd` is
not `CC`, and every other register is unchanged; for all other opcodes the
register values are unchanged; and `ins_completed` increases by exactly 1 unless
the opcode is `HALT` and `ENABLE_DEBUG_MESSAGES` is set.  (Registers and validity
words are those with an index in 0..16.) -/
theorem C9_writeback_commit (s : APEX_CPU) (hp : writeback_processes s)
    (_hrd : 0 ≤ s.stage_WB.rd ∧ s.stage_WB.rd ≤ 16) :
    (s.stage_WB.rd ≠ 0 → (writeback s).1.regs_valid s.stage_WB.rd = 1)
    ∧ (∀ r : Int, 0 ≤ r → r ≤ 16 → r ≠ s.stage_WB.rd ∨ s.stage_WB.rd = 0 →
        (writeback s).1.regs_valid r = s.regs_valid r)
    ∧ ((s.stage_WB.opcode = "MOVC" ∨ s.stage_WB.opcode = "LOAD" ∨ s.stage_WB.opcode = "LDR"
          ∨ s.stage_WB.opcode = "AND" ∨ s.stage_WB.opcode = "OR"
          ∨ s.stage_WB.opcode = "EX-OR") →
        (writeback s).1.regs s.stage_WB.rd = s.stage_WB.buffer
        ∧ ∀ r : Int, 0 ≤ r → r ≤ 16 → r ≠ s.stage_WB.rd → (writeback s).1.regs r = s.regs r)
    ∧ ((s.stage_WB.opcode = "ADD" ∨ s.stage_WB.opcode = "ADDL" ∨ s.stage_WB.opcode = "SUB"
          ∨ s.stage_WB.opcode = "SUBL" ∨ s.stage_WB.opcode = "MUL") →
        (writeback s).1.regs CC = (if s.stage_WB.buffer = 0 then 1 else 0)
        ∧ (s.stage_WB.rd ≠ CC → (writeback s).1.regs s.stage_WB.rd = s.stage_WB.buffer)
        ∧ ∀ r : Int, 0 ≤ r → r ≤ 16 → r ≠ s.stage_WB.rd → r ≠ CC →
            (writeback s).1.regs r = s.regs r)
    ∧ (¬ (s.stage_WB.opcode = "MOVC" ∨ s.stage_WB.opcode = "LOAD" ∨ s.stage_WB.opcode = "LDR"
          ∨ s.stage_WB.opcode = "AND" ∨ s.stage_WB.opcode = "OR"
          ∨ s.stage_WB.opcode = "EX-OR" ∨ s.stage_WB.opcode = "ADD"
          ∨ s.stage_WB.opcode = "ADDL" ∨ s.stage_WB.opcode = "SUB"
          ∨ s.stage_WB.opcode = "SUBL" ∨ s.stage_WB.opcode = "MUL") →
        ∀ r : Int, 0 ≤ r → r ≤ 16 → (writeback s).1.regs r = s.regs r)
    ∧ (¬ (s.stage_WB.opcode = "HALT" ∧ s.ENABLE_DEBUG_MESSAGES ≠ 0) →
        (writeback s).1.ins_completed = s.ins_completed + 1) := by
  refine ⟨?_, ?_, ?_, ?_, ?_, ?_⟩
  · intro hne
    rw [writeback_regs_valid, if_pos ⟨hp, hne⟩]
    simp [store]
  · intro r _ _ hr
    rw [writeback_regs_valid]
    split_ifs with h
    · rcases hr with hr | hr
      · simp [store, hr]
      · exact absurd hr h.2
    · rfl
  · intro hop
    rw [writeback_regs, if_pos hp, if_pos hop]
    constructor
    · simp [store]
    · intro r _ _ hr
      simp [store, hr]
  · intro hop
    have ha : is_arith s.stage_WB.opcode = true := by
      unfold is_arith; rcases hop with h | h | h | h | h <;> simp [h]
    have hn : ¬ (s.stage_WB.opcode = "MOVC" ∨ s.stage_WB.opcode = "LOAD"
        ∨ s.stage_WB.opcode = "LDR" ∨ s.stage_WB.opcode = "AND" ∨ s.stage_WB.opcode = "OR"
        ∨ s.stage_WB.opcode = "EX-OR") := by
      rcases hop with h | h | h | h | h <;> simp [h]
    rw [writeback_regs, if_pos hp, if_neg hn, if_pos ha]
    refine ⟨?_, ?_, ?_⟩
    · simp [store]
    · intro hcc
      simp [store, hcc]
    · intro r _ _ hr hcc
      simp [store, hr, hcc]
  · intro hop r _ _
    have ha : ¬ (is_arith s.stage_WB.opcode = true) := by
      unfold is_arith
      simp only [not_or] at hop
      simp [hop]
    have hn : ¬ (s.stage_WB.opcode = "MOVC" ∨ s.stage_WB.opcode = "LOAD"
        ∨ s.stage_WB.opcode = "LDR" ∨ s.stage_WB.opcode = "AND" ∨ s.stage_WB.opcode = "OR"
        ∨ s.stage_WB.opcode = "EX-OR") := by
      simp only [not_or] at hop ⊢
      exact ⟨hop.1, hop.2.1, hop.2.2.1, hop.2.2.2.1, hop.2.2.2.2.1, hop.2.2.2.2.2.1⟩
    rw [writeback_regs, if_pos hp, if_neg hn, if_neg ha]
  · intro hh
    rw [writeback_ins_completed, if_pos hp]
    split_ifs <;> rfl

set_option maxRecDepth 100000 in
/-- C9, witness: in the run of `MOVC R1,#5; MOVC R2,#10; ADD R3,R1,R2` the first
`MOVC` (destination 1, buffer 5) is committed in iteration 6: its destination
becomes valid and takes the buffer, and `ins_completed` goes up by 1. -/
theorem C9_writeback_commit_witness :
    (at_cycle (APEX_cpu_init (load prog_add blank) 3) 6).stage_WB.rd = 1
    ∧ (at_cycle (APEX_cpu_init (load prog_add blank) 3) 6).stage_WB.buffer = 5
    ∧ (writeback (at_cycle (APEX_cpu_init (load prog_add blank) 3) 6)).1.regs_valid
        (at_cycle (APEX_cpu_init (load prog_add blank) 3) 6).stage_WB.rd = 1
    ∧ (writeback (at_cycle (APEX_cpu_init (load prog_add blank) 3) 6)).1.regs
        (at_cycle (APEX_cpu_init (load prog_add blank) 3) 6).stage_WB.rd
        = (at_cycle (APEX_cpu_init (load prog_add blank) 3) 6).stage_WB.buffer
    ∧ (writeback (at_cycle (APEX_cpu_init (load prog_add blank) 3) 6)).1.ins_completed
        = (at_cycle (APEX_cpu_init (load prog_add blank) 3) 6).ins_completed + 1 :=
  have h6 := C9_writeback_commit (at_cycle (APEX_cpu_init (load prog_add blank) 3) 6)
    (by decide) ⟨by decide, by decide⟩
  ⟨by decide, by decide, h6.1 (by decide), (h6.2.2.1 (by decide)).1,
    h6.2.2.2.2.2 (by decide)⟩

/-! ### C10: data memory -/

/-- What the claim says of `memory2`, and of the other stage functions where they
stay inside the register file: when `memory2` processes a `STORE` or `STR` with
`0 <= mem_address < 4000`, `data_memory[mem_address]` becomes `rs1_value` and
every other cell is unchanged; when it processes a `LOAD` or `LDR`, the buffer of
the latch forwarded to Writeback is `data_memory[mem_address]` and data memory is
unchanged; in every other case of `memory2`, for `fetch`, `decode`, `execute1`,
`execute2` and `memory1`, and for `writeback` when the destination of its latch is
an index of the register file (0..16), data memory is unchanged. -/
theorem data_memory_frame (s : APEX_CPU) :
    (memory2_processes s → (s.stage_MEM2.opcode = "STORE" ∨ s.stage_MEM2.opcode = "STR") →
      0 ≤ s.stage_MEM2.mem_address → s.stage_MEM2.mem_address < 4000 →
        (memory2 s).data_memory s.stage_MEM2.mem_address = s.stage_MEM2.rs1_value
        ∧ ∀ a : Int, a ≠ s.stage_MEM2.mem_address → (memory2 s).data_memory a = s.data_memory a)
    ∧ (memory2_processes s → (s.stage_MEM2.opcode = "LOAD" ∨ s.stage_MEM2.opcode = "LDR") →
        (memory2 s).stage_WB.buffer = s.data_memory s.stage_MEM2.mem_address
        ∧ (memory2 s).data_memory = s.data_memory)
    ∧ (¬ (memory2_processes s ∧ (s.stage_MEM2.opcode = "STORE" ∨ s.stage_MEM2.opcode = "STR")) →
        (memory2 s).data_memory = s.data_memory)
    ∧ (fetch s).data_memory = s.data_memory
    ∧ (decode s).data_memory = s.data_memory
    ∧ (execute1 s).data_memory = s.data_memory
    ∧ (execute2 s).data_memory = s.data_memory
    ∧ (memory1 s).data_memory = s.data_memory
    ∧ (0 ≤ s.stage_WB.rd → s.stage_WB.rd ≤ 16 → (writeback s).1.data_memory = s.data_memory) := by
  refine ⟨?_, ?_, ?_, ?_, ?_, ?_, ?_, ?_, ?_⟩
  · intro hp hop _ _
    rw [memory2_store_data s hp hop]
    constructor
    · simp [store]
    · intro a ha
      simp [store, ha]
  · intro hp hop
    unfold memory2_processes at hp
    unfold memory2
    simp only []
    rcases hop with h | h <;> split_ifs <;> simp_all
  · intro h
    unfold memory2_processes at h
    unfold memory2
    simp only []
    split_ifs <;> simp_all
  · unfold fetch; simp only []; split_ifs <;> rfl
  · unfold decode; simp only []; split_ifs <;> rfl
  · unfold execute1; simp only []; split_ifs <;> rfl
  · unfold execute2; simp only []; split_ifs <;> rfl
  · unfold memory1; simp only []; split_ifs <;> rfl
  · intro _ _
    unfold writeback writeback_exit; simp only []; split_ifs <;> rfl

set_option maxRecDepth 100000 in
/-- C10: `writeback` changes data memory.  In the run of the one-instruction
program `MOVC R359,#7`, `writeback` processes the `MOVC` in iteration 6, with
destination 359 and buffer 7, and performs `cpu->regs_valid[359] = 1` (line 463)
and `cpu->regs[359] = 7` (line 467).  Neither array has such an index: in
`struct APEX_CPU` the `int` 359 places behind the start of `regs` is
`data_memory[0]`, and the one 359 places behind the start of `regs_valid` is
`data_memory[17]`. -/
theorem C10_writeback_writes_into_data_memory :
    writeback_processes (at_cycle (APEX_cpu_init (load prog_movc_r359 blank) 1) 6)
    ∧ (at_cycle (APEX_cpu_init (load prog_movc_r359 blank) 1) 6).stage_WB.opcode = "MOVC"
    ∧ (at_cycle (APEX_cpu_init (load prog_movc_r359 blank) 1) 6).stage_WB.rd = 359
    ∧ (at_cycle (APEX_cpu_init (load prog_movc_r359 blank) 1) 6).stage_WB.buffer = 7
    ∧ (at_cycle (APEX_cpu_init (load prog_movc_r359 blank) 1) 6).regs 359 = 0
    ∧ (writeback (at_cycle (APEX_cpu_init (load prog_movc_r359 blank) 1) 6)).1.regs 359 = 7
    ∧ (writeback (at_cycle (APEX_cpu_init (load prog_movc_r359 blank) 1) 6)).1.regs_valid 359
        = 1
    ∧ regs_member 359 = Member.data_memory 0
    ∧ regs_member (17 + 359) = Member.data_memory 17 := by
  decide

/-! ### C11: Execute2 -/

/-- The marker that `execute2` leaves on the instruction it processes. -/
theorem execute2_marker (s : APEX_CPU) (hp : execute2_processes s) :
    ((execute2 s).code_memory (get_code_index s.stage_EX2.pc)).stage_finished = EX2 := by
  unfold execute2_processes at hp
  unfold execute2
  simp only []
  split_ifs <;> simp_all [store]

set_option maxRecDepth 100000 in
/-- C11 as stated fails: in the run of `JUMP R0,#0; MOVC R1,#5` the `JUMP` is in the
Execute2 latch when `execute2` runs in iteration 3, with buffer 0, and `execute2`
processes it; the signal `flush_and_reload_pc`, 0 before, is 0 afterwards, so no
signal is raised: the iteration flushes nothing (the Execute1 latch keeps pc 4008,
`cpu.pc` goes on to 4016) and the run ends with the `MOVC` behind the jump
committed (`regs[1] = 5`, three entries counted). -/
theorem C11_jump_to_zero_raises_no_signal :
    execute2_processes
        (before_execute2 (at_cycle (APEX_cpu_init (load prog_jump_zero blank) 2) 3))
    ∧ (before_execute2 (at_cycle (APEX_cpu_init (load prog_jump_zero blank) 2) 3)
        ).stage_EX2.opcode = "JUMP"
    ∧ (before_execute2 (at_cycle (APEX_cpu_init (load prog_jump_zero blank) 2) 3)
        ).stage_EX2.buffer = 0
    ∧ (before_execute2 (at_cycle (APEX_cpu_init (load prog_jump_zero blank) 2) 3)
        ).flush_and_reload_pc = 0
    ∧ (execute2 (before_execute2 (at_cycle (APEX_cpu_init (load prog_jump_zero blank) 2) 3))
        ).flush_and_reload_pc = 0
    ∧ (cycle (at_cycle (APEX_cpu_init (load prog_jump_zero blank) 2) 3)).1.stage_EX1.pc = 4008
    ∧ (cycle (at_cycle (APEX_cpu_init (load prog_jump_zero blank) 2) 3)).1.pc = 4016
    ∧ (APEX_cpu_run (APEX_cpu_init (load prog_jump_zero blank) 2) 20 0).regs 1 = 5
    ∧ (APEX_cpu_run (APEX_cpu_init (load prog_jump_zero blank) 2) 20 0).ins_completed = 3 := by
  decide

/-- C11, amended: the signal is the variable `flush_and_reload_pc` itself, raised
when it is not 0.  For every state in which `execute2` processes its latch, a `BZ`
sets it to `pc + imm` when `regs[CC] = 1` and leaves it unchanged otherwise, a
`BNZ` does so when `regs[CC] = 0` and leaves it unchanged otherwise, a `JUMP`
always sets it to the latch `buffer`, and every other opcode leaves it
unchanged.  Hence, with no signal pending on entry, a `BZ` raises the signal
exactly when `regs[CC] = 1` and `pc + imm` is not 0, a `BNZ` exactly when
`regs[CC] = 0` and `pc + imm` is not 0, and a `JUMP` exactly when the buffer is not
0.  In all cases the latch (with `is_empty` cleared on entry) is copied to Memory1
and the marker of the instruction is `EX2`. -/
theorem C11_execute2_signal_and_hand_off (s : APEX_CPU) (hp : execute2_processes s) :
    (s.stage_EX2.opcode = "BZ" →
        (s.regs CC = 1 →
          (execute2 s).flush_and_reload_pc = s.stage_EX2.pc + s.stage_EX2.imm)
        ∧ (s.regs CC ≠ 1 → (execute2 s).flush_and_reload_pc = s.flush_and_reload_pc)
        ∧ (s.flush_and_reload_pc = 0 →
            ((execute2 s).flush_and_reload_pc ≠ 0 ↔
              (s.regs CC = 1 ∧ s.stage_EX2.pc + s.stage_EX2.imm ≠ 0))))
    ∧ (s.stage_EX2.opcode = "BNZ" →
        (s.regs CC = 0 →
          (execute2 s).flush_and_reload_pc = s.stage_EX2.pc + s.stage_EX2.imm)
        ∧ (s.regs CC ≠ 0 → (execute2 s).flush_and_reload_pc = s.flush_and_reload_pc)
        ∧ (s.flush_and_reload_pc = 0 →
            ((execute2 s).flush_and_reload_pc ≠ 0 ↔
              (s.regs CC = 0 ∧ s.stage_EX2.pc + s.stage_EX2.imm ≠ 0))))
    ∧ (s.stage_EX2.opcode = "JUMP" →
        (execute2 s).flush_and_reload_pc = s.stage_EX2.buffer
        ∧ ((execute2 s).flush_and_reload_pc ≠ 0 ↔ s.stage_EX2.buffer ≠ 0))
    ∧ (s.stage_EX2.opcode ≠ "BZ" → s.stage_EX2.opcode ≠ "BNZ" → s.stage_EX2.opcode ≠ "JUMP" →
        (execute2 s).flush_and_reload_pc = s.flush_and_reload_pc)
    ∧ (execute2 s).stage_MEM1 = { s.stage_EX2 with is_empty := 0 }
    ∧ ((execute2 s).code_memory (get_code_index s.stage_EX2.pc)).stage_finished = EX2 := by
  have hf := execute2_flush_and_reload_pc s
  have hm := execute2_stage_MEM1 s
  rw [if_pos hp] at hf hm
  refine ⟨?_, ?_, ?_, ?_, hm, execute2_marker s hp⟩
  · intro hop
    have hset : s.regs CC = 1 →
        (execute2 s).flush_and_reload_pc = s.stage_EX2.pc + s.stage_EX2.imm := by
      intro hc
      have ht : branch_taken s := Or.inl ⟨hop, hc⟩
      rw [hf, if_pos ht]
    have hkeep : s.regs CC ≠ 1 → (execute2 s).flush_and_reload_pc = s.flush_and_reload_pc := by
      intro hc
      have hnt : ¬ branch_taken s := by
        unfold branch_taken
        rw [hop]
        simp [hc]
      rw [hf, if_neg hnt, if_neg (by rw [hop]; decide)]
    refine ⟨hset, hkeep, ?_⟩
    intro h0
    by_cases hc : s.regs CC = 1
    · rw [hset hc]
      exact ⟨fun h => ⟨hc, h⟩, fun h => h.2⟩
    · rw [hkeep hc, h0]
      exact ⟨fun h => absurd rfl h, fun h => absurd h.1 hc⟩
  · intro hop
    have hset : s.regs CC = 0 →
        (execute2 s).flush_and_reload_pc = s.stage_EX2.pc + s.stage_EX2.imm := by
      intro hc
      have ht : branch_taken s := Or.inr ⟨hop, hc⟩
      rw [hf, if_pos ht]
    have hkeep : s.regs CC ≠ 0 → (execute2 s).flush_and_reload_pc = s.flush_and_reload_pc := by
      intro hc
      have hnt : ¬ branch_taken s := by
        unfold branch_taken
        rw [hop]
        simp [hc]
      rw [hf, if_neg hnt, if_neg (by rw [hop]; decide)]
    refine ⟨hset, hkeep, ?_⟩
    intro h0
    by_cases hc : s.regs CC = 0
    · rw [hset hc]
      exact ⟨fun h => ⟨hc, h⟩, fun h => h.2⟩
    · rw [hkeep hc, h0]
      exact ⟨fun h => absurd rfl h, fun h => absurd h.1 hc⟩
  · intro hop
    have hnt : ¬ branch_taken s := by
      unfold branch_taken
      rw [hop]
      simp
    have hb : (execute2 s).flush_and_reload_pc = s.stage_EX2.buffer := by
      rw [hf, if_neg hnt, if_pos hop]
    refine ⟨hb, ?_⟩
    rw [hb]
  · intro h1 h2 h3
    have hnt : ¬ branch_taken s := by
      unfold branch_taken
      simp [h1, h2]
    rw [hf, if_neg hnt, if_neg h3]

set_option maxRecDepth 100000 in
/-- C11, witness: in the run of `BNZ #8; MOVC R1,#5; MOVC R2,#7` the branch at pc
4000 is in the Execute2 latch when `execute2` runs in iteration 3; `regs[CC]` is
0, no signal is pending, the target 4008 is not 0, and the signal is raised with
the value 4008. -/
theorem C11_execute2_witness :
    execute2_processes
        (before_execute2 (at_cycle (APEX_cpu_init (load prog_branch_over blank) 3) 3))
    ∧ (execute2
        (before_execute2 (at_cycle (APEX_cpu_init (load prog_branch_over blank) 3) 3))
        ).flush_and_reload_pc = 4008
    ∧ (execute2
        (before_execute2 (at_cycle (APEX_cpu_init (load prog_branch_over blank) 3) 3))
        ).flush_and_reload_pc ≠ 0 :=
  ⟨by decide,
   ((C11_execute2_signal_and_hand_off
      (before_execute2 (at_cycle (APEX_cpu_init (load prog_branch_over blank) 3) 3))
      (by decide)).2.1 (by decide)).1 (by decide),
   (((C11_execute2_signal_and_hand_off
      (before_execute2 (at_cycle (APEX_cpu_init (load prog_branch_over blank) 3) 3))
      (by decide)).2.1 (by decide)).2.2 (by decide)).2 ⟨by decide, by decide⟩⟩

/-! ### C12: Execute1 -/

/-- C12: for every state in which `execute1` processes its latch, the latch
forwarded to Execute2 is the Execute1 latch (with `is_empty` cleared on entry)
in which `mem_address` is the 32-bit sum `rs2_value + imm` for `STORE`,
`rs2_value + rs3_value` for `STR`, `rs1_value + imm` for `LOAD`,
`rs1_value + rs2_value` for `LDR`, or in which `buffer` is the 32-bit value of
`rs1_value + rs2_value` for `ADD`, `rs1_value - rs2_value` for `SUB`,
`rs1_value + imm` for `ADDL`, `rs1_value - imm` for `SUBL`,
`rs1_value * rs2_value` for `MUL`, the bitwise and / or / xor of `rs1_value` and
`rs2_value` for `AND` / `OR` / `EX-OR`, `rs1_value + imm` for `JUMP` and `imm` for
`MOVC`; every other field is the one of the Execute1 latch. -/
theorem C12_execute1_results (s : APEX_CPU) (hp : execute1_processes s) :
    (s.stage_EX1.opcode = "STORE" → (execute1 s).stage_EX2 =
        { s.stage_EX1 with
          is_empty := 0, mem_address := wrap32 (s.stage_EX1.rs2_value + s.stage_EX1.imm) })
    ∧ (s.stage_EX1.opcode = "STR" → (execute1 s).stage_EX2 =
        { s.stage_EX1 with
          is_empty := 0
          mem_address := wrap32 (s.stage_EX1.rs2_value + s.stage_EX1.rs3_value) })
    ∧ (s.stage_EX1.opcode = "LOAD" → (execute1 s).stage_EX2 =
        { s.stage_EX1 with
          is_empty := 0, mem_address := wrap32 (s.stage_EX1.rs1_value + s.stage_EX1.imm) })
    ∧ (s.stage_EX1.opcode = "LDR" → (execute1 s).stage_EX2 =
        { s.stage_EX1 with
          is_empty := 0
          mem_address := wrap32 (s.stage_EX1.rs1_value + s.stage_EX1.rs2_value) })
    ∧ (s.stage_EX1.opcode = "ADD" → (execute1 s).stage_EX2 =
        { s.stage_EX1 with
          is_empty := 0, buffer := wrap32 (s.stage_EX1.rs1_value + s.stage_EX1.rs2_value) })
    ∧ (s.stage_EX1.opcode = "SUB" → (execute1 s).stage_EX2 =
        { s.stage_EX1 with
          is_empty := 0, buffer := wrap32 (s.stage_EX1.rs1_value - s.stage_EX1.rs2_value) })
    ∧ (s.stage_EX1.opcode = "ADDL" → (execute1 s).stage_EX2 =
        { s.stage_EX1 with
          is_empty := 0, buffer := wrap32 (s.stage_EX1.rs1_value + s.stage_EX1.imm) })
    ∧ (s.stage_EX1.opcode = "SUBL" → (execute1 s).stage_EX2 =
        { s.stage_EX1 with
          is_empty := 0, buffer := wrap32 (s.stage_EX1.rs1_value - s.stage_EX1.imm) })
    ∧ (s.stage_EX1.opcode = "MUL" → (execute1 s).stage_EX2 =
        { s.stage_EX1 with
          is_empty := 0, buffer := wrap32 (s.stage_EX1.rs1_value * s.stage_EX1.rs2_value) })
    ∧ (s.stage_EX1.opcode = "AND" → (execute1 s).stage_EX2 =
        { s.stage_EX1 with
          is_empty := 0, buffer := Int.land s.stage_EX1.rs1_value s.stage_EX1.rs2_value })
    ∧ (s.stage_EX1.opcode = "OR" → (execute1 s).stage_EX2 =
        { s.stage_EX1 with
          is_empty := 0, buffer := Int.lor s.stage_EX1.rs1_value s.stage_EX1.rs2_value })
    ∧ (s.stage_EX1.opcode = "EX-OR" → (execute1 s).stage_EX2 =
        { s.stage_EX1 with
          is_empty := 0, buffer := Int.xor s.stage_EX1.rs1_value s.stage_EX1.rs2_value })
    ∧ (s.stage_EX1.opcode = "JUMP" → (execute1 s).stage_EX2 =
        { s.stage_EX1 with
          is_empty := 0, buffer := wrap32 (s.stage_EX1.rs1_value + s.stage_EX1.imm) })
    ∧ (s.stage_EX1.opcode = "MOVC" → (execute1 s).stage_EX2 =
        { s.stage_EX1 with is_empty := 0, buffer := wrap32 s.stage_EX1.imm }) := by
  have h := execute1_stage_EX2 s
  rw [if_pos hp] at h
  rw [h]
  refine ⟨?_, ?_, ?_, ?_, ?_, ?_, ?_, ?_, ?_, ?_, ?_, ?_, ?_, ?_⟩ <;> intro hop <;>
    simp [execute1_compute, execute1_dispatch, hop]

set_option maxRecDepth 100000 in
/-- C12, witness: in the run of `MOVC R1,#5; MOVC R2,#10; ADD R3,R1,R2` the `ADD`
is processed by `execute1` in iteration 8 and the latch forwarded to Execute2
carries the sum 15. -/
theorem C12_execute1_witness :
    execute1_processes (before_execute1 (at_cycle (APEX_cpu_init (load prog_add blank) 3) 8))
    ∧ (before_execute1 (at_cycle (APEX_cpu_init (load prog_add blank) 3) 8)).stage_EX1.opcode
        = "ADD"
    ∧ (execute1 (before_execute1 (at_cycle (APEX_cpu_init (load prog_add blank) 3) 8))
        ).stage_EX2.buffer = 15 :=
  ⟨by decide, by decide,
   by
    rw [(C12_execute1_results
      (before_execute1 (at_cycle (APEX_cpu_init (load prog_add blank) 3) 8))
      (by decide)).2.2.2.2.1 (by decide)]
    decide⟩

/-! ### C13: the drain test of Writeback -/

/-- The clock at the start of the `k`-th iteration. -/
theorem at_cycle_clock (s : APEX_CPU) (k : Nat) : (at_cycle s k).clock = s.clock + k := by
  induction k with
  | zero => simp [at_cycle]
  | succ n ih =>
    have h : at_cycle s (n + 1) = loop_body (at_cycle s n) := rfl
    rw [h]
    unfold loop_body
    simp only [cycle_clock, ih]
    push_cast
    ring

/-- As long as the loop condition holds and `writeback` returns 0, the loop goes
from one iteration to the next. -/
theorem run_loop_steps (k fuel : Nat) (s : APEX_CPU) (n : Int)
    (h : ∀ j : Nat, j < k → (at_cycle s j).clock ≤ n ∧ (cycle (at_cycle s j)).2 = 0) :
    run_loop (k + fuel) s n = run_loop fuel (at_cycle s k) n := by
  induction k generalizing s with
  | zero => simp [at_cycle]
  | succ m ih =>
    have h0 := h 0 (Nat.succ_pos m)
    have hc : s.clock ≤ n := h0.1
    have hs : ¬ ((cycle s).2 ≠ 0) := by
      intro hne
      exact hne h0.2
    have hfuel : m + 1 + fuel = (m + fuel) + 1 := by omega
    rw [hfuel]
    have hstep : run_loop (m + fuel + 1) s n = run_loop (m + fuel) (loop_body s) n := by
      conv_lhs => unfold run_loop
      simp only [hc, if_true]
      rw [if_neg hs]
      rfl
    rw [hstep, ih (loop_body s), at_cycle_loop_body]
    intro j hj
    rw [at_cycle_loop_body]
    exact h (j + 1) (by omega)

/-- A run in which `writeback` returns 0 in each of the iterations `0 .. N` is
left through the loop condition, after `N + 1` iterations. -/
theorem run_exits_through_loop_condition (s : APEX_CPU) (N : Nat) (flag : Int)
    (hclk : s.clock = 0)
    (h : ∀ j : Nat, j ≤ N → (cycle (at_cycle (enter_run s flag) j)).2 = 0) :
    APEX_cpu_run s (N : Int) flag = at_cycle (enter_run s flag) (N + 1) := by
  have hclk2 : (enter_run s flag).clock = 0 := hclk
  unfold APEX_cpu_run
  have hfuel : ((N : Int) + 1 - s.clock).toNat = (N + 1) + 0 := by
    rw [hclk]; omega
  rw [hfuel, run_loop_steps (N + 1) 0 (enter_run s flag) N]
  · rfl
  · intro j hj
    refine ⟨?_, h j (by omega)⟩
    rw [at_cycle_clock, hclk2]
    omega

/-- A run in which `writeback` returns 0 in the iterations before `T` and a
non-zero value in iteration `T`, with `T` within the bound, is left through the
stop signal in iteration `T`. -/
theorem run_exits_through_stop_signal (s : APEX_CPU) (N T : Nat) (flag : Int)
    (hclk : s.clock = 0) (hT : T ≤ N)
    (h : ∀ j : Nat, j < T → (cycle (at_cycle (enter_run s flag) j)).2 = 0)
    (hstop : (cycle (at_cycle (enter_run s flag) T)).2 ≠ 0) :
    APEX_cpu_run s (N : Int) flag = (cycle (at_cycle (enter_run s flag) T)).1 := by
  have hclk2 : (enter_run s flag).clock = 0 := hclk
  unfold APEX_cpu_run
  have hfuel : ((N : Int) + 1 - s.clock).toNat = T + ((N - T) + 1) := by
    rw [hclk]; omega
  rw [hfuel, run_loop_steps T ((N - T) + 1) (enter_run s flag) N]
  · have hc : (at_cycle (enter_run s flag) T).clock ≤ (N : Int) := by
      rw [at_cycle_clock, hclk2]
      omega
    conv_lhs => unfold run_loop
    simp only [hc, if_true]
    rw [if_pos hstop]
  · intro j hj
    refine ⟨?_, h j hj⟩
    rw [at_cycle_clock, hclk2]
    omega

/-! ### C17: the cycle bound -/

set_option maxRecDepth 100000 in
/-- C17: with the bound `N = 0` the run of `MOVC R1,#5; MOVC R2,#10; ADD R3,R1,R2`
from `clock = 0` simulates one cycle (the first instruction is fetched, handed
to Decode and `clock` is 1 at the exit), and with `N = 2` it simulates three: the
loop `while (cpu->clock <= no_of_cycles)` runs for the clock values `0 .. N`. -/
theorem C17_run_simulates_one_cycle_more_than_the_bound :
    (APEX_cpu_run (APEX_cpu_init (load prog_add blank) 3) 0 0).clock = 1
    ∧ (APEX_cpu_run (APEX_cpu_init (load prog_add blank) 3) 0 0).pc = 4004
    ∧ (APEX_cpu_run (APEX_cpu_init (load prog_add blank) 3) 0 0).stage_DRF.pc = 4000
    ∧ (APEX_cpu_run (APEX_cpu_init (load prog_add blank) 3) 2 0).clock = 3
    ∧ (APEX_cpu_run (APEX_cpu_init (load prog_add blank) 3) 2 0).pc = 4012
    ∧ (APEX_cpu_run (APEX_cpu_init (load prog_add blank) 3) 2 0).stage_EX2.pc = 4000 := by
  decide

/-! ### The instruction store along the stage functions -/

/-- The instruction store after `writeback`. -/
theorem writeback_code_memory (s : APEX_CPU) :
    (writeback s).1.code_memory =
      if writeback_processes s
          ∧ ¬ (s.stage_WB.opcode = "HALT" ∧ s.ENABLE_DEBUG_MESSAGES ≠ 0) then
        set_marker s.code_memory (get_code_index s.stage_WB.pc) WB
      else s.code_memory := by
  have h1 : ¬ (is_arith "HALT" = true) := by decide
  unfold writeback_processes set_marker writeback writeback_exit
  simp only []
  split_ifs <;> simp_all
  all_goals omega

/-- The instruction store after `memory2`. -/
theorem memory2_code_memory (s : APEX_CPU) :
    (memory2 s).code_memory =
      if memory2_processes s then set_marker s.code_memory (get_code_index s.stage_MEM2.pc) MEM2
      else s.code_memory := by
  unfold memory2_processes set_marker memory2
  simp only []
  split_ifs <;> simp_all

/-- The instruction store after `memory1`. -/
theorem memory1_code_memory (s : APEX_CPU) :
    (memory1 s).code_memory =
      if memory1_processes s then set_marker s.code_memory (get_code_index s.stage_MEM1.pc) MEM1
      else s.code_memory := by
  unfold memory1_processes set_marker memory1
  simp only []
  split_ifs <;> simp_all

/-- The instruction store after `execute2`. -/
theorem execute2_code_memory (s : APEX_CPU) :
    (execute2 s).code_memory =
      if execute2_processes s then set_marker s.code_memory (get_code_index s.stage_EX2.pc) EX2
      else s.code_memory := by
  unfold execute2_processes set_marker execute2
  simp only []
  split_ifs <;> simp_all

/-- The instruction store after `execute1`. -/
theorem execute1_code_memory (s : APEX_CPU) :
    (execute1 s).code_memory =
      if execute1_processes s then set_marker s.code_memory (get_code_index s.stage_EX1.pc) EX1
      else s.code_memory := by
  unfold execute1_processes set_marker execute1
  simp only []
  split_ifs <;> simp_all

/-- The instruction store after `decode`. -/
theorem decode_code_memory (s : APEX_CPU) :
    (decode s).code_memory =
      if decode_hands_off s then set_marker s.code_memory (get_code_index s.stage_DRF.pc) DRF
      else s.code_memory := by
  unfold decode_hands_off decode_processes set_marker
  by_cases hp : s.stage_DRF.pc ≥ 4000
  · by_cases hb : s.stage_DRF.busy = 0
    · by_cases hs : (decode_read s
          { s.stage_DRF with stalled := 0, is_empty := 0 }).is_stage_stalled = 0
      · rw [if_pos ⟨⟨hp, hb⟩, hs⟩]
        unfold decode
        simp only []
        rw [if_pos hp, if_pos ⟨hb, trivial⟩, if_neg (not_not.mpr hs)]
      · rw [if_neg (fun h => hs h.2)]
        unfold decode
        simp only []
        rw [if_pos hp, if_pos ⟨hb, trivial⟩, if_pos hs]
    · rw [if_neg (fun h => hb h.1.2)]
      unfold decode
      simp only []
      rw [if_pos hp, if_neg (fun h => hb h.1)]
  · rw [if_neg (fun h => hp h.1.1)]
    unfold decode
    simp only []
    rw [if_neg hp]

/-- The instruction store after `fetch`. -/
theorem fetch_code_memory (s : APEX_CPU) :
    (fetch s).code_memory =
      if fetch_hands_off s then set_marker s.code_memory (get_code_index s.pc) F
      else s.code_memory := by
  unfold fetch_hands_off set_marker fetch
  simp only []
  split_ifs <;> simp_all

/-- Setting a marker changes no other field of any entry. -/
theorem set_marker_fields (cm : Int → APEX_Instruction) (i j : Int) (m : Int) :
    (set_marker cm i m j).opcode = (cm j).opcode ∧ (set_marker cm i m j).rd = (cm j).rd
    ∧ (set_marker cm i m j).rs1 = (cm j).rs1 ∧ (set_marker cm i m j).rs2 = (cm j).rs2
    ∧ (set_marker cm i m j).rs3 = (cm j).rs3 ∧ (set_marker cm i m j).imm = (cm j).imm := by
  unfold set_marker store
  by_cases h : j = i
  · simp [h]
  · simp [h]

/-- The marker of an entry after a marker update. -/
theorem set_marker_stage_finished (cm : Int → APEX_Instruction) (i j : Int) (m : Int) :
    (set_marker cm i m j).stage_finished = if j = i then m else (cm j).stage_finished := by
  unfold set_marker store
  by_cases h : j = i
  · simp [h]
  · simp [h]

/-- Setting a marker that is below the new value lowers no marker. -/
theorem set_marker_mono (cm : Int → APEX_Instruction) (i j : Int) (m : Int)
    (h : (cm i).stage_finished < m) :
    (cm j).stage_finished ≤ (set_marker cm i m j).stage_finished := by
  rw [set_marker_stage_finished]
  by_cases hj : j = i
  · rw [if_pos hj, hj]
    omega
  · rw [if_neg hj]

/-- Setting a marker leaves the instruction itself as it was. -/
theorem set_marker_same (cm : Int → APEX_Instruction) (i j : Int) (m : Int) :
    same_instruction (set_marker cm i m j) (cm j) :=
  set_marker_fields cm i j m

/-- A record agrees with itself. -/
theorem same_instruction_refl (a : APEX_Instruction) : same_instruction a a :=
  ⟨rfl, rfl, rfl, rfl, rfl, rfl⟩

/-! ### C19: the markers of the instruction store -/

set_option maxRecDepth 100000 in
/-- C19 as stated fails: in the run of `JUMP R0,#4000` the instruction at index 0
is fetched again in iteration 4, where `fetch` takes its marker from `MEM1` (4)
down to `F` (0), and decoded again in iteration 5, where `decode` takes the
marker from `MEM2` (5) down to `DRF` (1). -/
theorem C19_fetch_and_decode_lower_markers :
    ((before_fetch (at_cycle (enter_run (APEX_cpu_init (load prog_jump_self blank) 1) 0) 4)
        ).code_memory 0).stage_finished = MEM1
    ∧ ((fetch (before_fetch
          (at_cycle (enter_run (APEX_cpu_init (load prog_jump_self blank) 1) 0) 4))
        ).code_memory 0).stage_finished = F
    ∧ ((before_decode (at_cycle (enter_run (APEX_cpu_init (load prog_jump_self blank) 1) 0) 5)
        ).code_memory 0).stage_finished = MEM2
    ∧ ((decode (before_decode
          (at_cycle (enter_run (APEX_cpu_init (load prog_jump_self blank) 1) 0) 5))
        ).code_memory 0).stage_finished = DRF := by
  decide

/-- C19, amended: in every state and for every entry `i` of the instruction
store, `writeback`, `memory2`, `memory1`, `execute2` and `execute1` do not lower
the marker of `i`; `decode` leaves it unchanged or sets it to `DRF`, `fetch` leaves
it unchanged or sets it to `F`; and no stage function changes any other field
of `i`. -/
theorem C19_markers_and_instruction_fields (s : APEX_CPU) (i : Int) :
    (s.code_memory i).stage_finished ≤ ((writeback s).1.code_memory i).stage_finished
    ∧ (s.code_memory i).stage_finished ≤ ((memory2 s).code_memory i).stage_finished
    ∧ (s.code_memory i).stage_finished ≤ ((memory1 s).code_memory i).stage_finished
    ∧ (s.code_memory i).stage_finished ≤ ((execute2 s).code_memory i).stage_finished
    ∧ (s.code_memory i).stage_finished ≤ ((execute1 s).code_memory i).stage_finished
    ∧ (((decode s).code_memory i).stage_finished = (s.code_memory i).stage_finished
        ∨ ((decode s).code_memory i).stage_finished = DRF)
    ∧ (((fetch s).code_memory i).stage_finished = (s.code_memory i).stage_finished
        ∨ ((fetch s).code_memory i).stage_finished = F)
    ∧ same_instruction ((writeback s).1.code_memory i) (s.code_memory i)
    ∧ same_instruction ((memory2 s).code_memory i) (s.code_memory i)
    ∧ same_instruction ((memory1 s).code_memory i) (s.code_memory i)
    ∧ same_instruction ((execute2 s).code_memory i) (s.code_memory i)
    ∧ same_instruction ((execute1 s).code_memory i) (s.code_memory i)
    ∧ same_instruction ((decode s).code_memory i) (s.code_memory i)
    ∧ same_instruction ((fetch s).code_memory i) (s.code_memory i) := by
  rw [writeback_code_memory, memory2_code_memory, memory1_code_memory, execute2_code_memory,
    execute1_code_memory, decode_code_memory, fetch_code_memory]
  refine ⟨?_, ?_, ?_, ?_, ?_, ?_, ?_, ?_, ?_, ?_, ?_, ?_, ?_, ?_⟩
  · split_ifs with h
    · exact set_marker_mono _ _ _ _ h.1.2.2.2
    · exact le_refl _
  · split_ifs with h
    · exact set_marker_mono _ _ _ _ h.2.2.2
    · exact le_refl _
  · split_ifs with h
    · exact set_marker_mono _ _ _ _ h.2.2.2
    · exact le_refl _
  · split_ifs with h
    · exact set_marker_mono _ _ _ _ h.2.2.2
    · exact le_refl _
  · split_ifs with h
    · exact set_marker_mono _ _ _ _ h.2.2.2
    · exact le_refl _
  · split_ifs with h
    · rw [set_marker_stage_finished]
      by_cases hi : i = get_code_index s.stage_DRF.pc
      · exact Or.inr (if_pos hi)
      · exact Or.inl (if_neg hi)
    · exact Or.inl rfl
  · split_ifs with h
    · rw [set_marker_stage_finished]
      by_cases hi : i = get_code_index s.pc
      · exact Or.inr (if_pos hi)
      · exact Or.inl (if_neg hi)
    · exact Or.inl rfl
  all_goals
    split_ifs
    · exact set_marker_same _ _ _ _
    · exact same_instruction_refl _

/-! ### C16: draining after a HALT -/

set_option maxRecDepth 100000 in
/-- C16: in the run of `MOVC R1,#5; HALT; MOVC R2,#7`, `writeback` processes the
`MOVC` at pc 4000 in iteration 6 and the `HALT` at pc 4004 in iteration 7.  In
silent mode it returns 0 for the `HALT`, and the run with bound 20 is left
through the loop condition at clock 21; in verbose mode it returns 1 and the run
stops in iteration 7, but with `ins_completed = 1` although two instructions
have reached Writeback. -/
theorem C16_halt_neither_stops_silent_run_nor_is_counted :
    writeback_processes (at_cycle (enter_run (APEX_cpu_init (load prog_halt_between blank) 3) 0) 6)
    ∧ (at_cycle (enter_run (APEX_cpu_init (load prog_halt_between blank) 3) 0) 6).stage_WB.pc
        = 4000
    ∧ writeback_processes
        (at_cycle (enter_run (APEX_cpu_init (load prog_halt_between blank) 3) 0) 7)
    ∧ (at_cycle (enter_run (APEX_cpu_init (load prog_halt_between blank) 3) 0) 7).stage_WB.opcode
        = "HALT"
    ∧ (writeback (at_cycle (enter_run (APEX_cpu_init (load prog_halt_between blank) 3) 0) 7)).2
        = 0
    ∧ (APEX_cpu_run (APEX_cpu_init (load prog_halt_between blank) 3) 20 0).clock = 21
    ∧ (APEX_cpu_run (APEX_cpu_init (load prog_halt_between blank) 3) 20 0).ins_completed = 2
    ∧ writeback_processes
        (at_cycle (enter_run (APEX_cpu_init (load prog_halt_between blank) 3) 1) 6)
    ∧ writeback_processes
        (at_cycle (enter_run (APEX_cpu_init (load prog_halt_between blank) 3) 1) 7)
    ∧ (writeback (at_cycle (enter_run (APEX_cpu_init (load prog_halt_between blank) 3) 1) 7)).2
        = 1
    ∧ (APEX_cpu_run (APEX_cpu_init (load prog_halt_between blank) 3) 20 1).clock = 7
    ∧ (APEX_cpu_run (APEX_cpu_init (load prog_halt_between blank) 3) 20 1).ins_completed = 1 := by
  decide

/-! ### Straight-line programs: what every stage function preserves -/

/-- The opcode chain of `decode` keeps every field of the latch other than the
three operand values. -/
theorem decode_read_fields (s : APEX_CPU) (l : CPU_Stage) :
    (decode_read s l).stage.busy = l.busy ∧ (decode_read s l).stage.stalled = l.stalled
    ∧ (decode_read s l).stage.rd = l.rd ∧ (decode_read s l).stage.rs1 = l.rs1
    ∧ (decode_read s l).stage.rs2 = l.rs2 ∧ (decode_read s l).stage.imm = l.imm
    ∧ (decode_read s l).stage.is_empty = l.is_empty := by
  unfold decode_read
  simp only [apply_ite DecodeRead.stage, apply_ite CPU_Stage.busy, apply_ite CPU_Stage.stalled,
    apply_ite CPU_Stage.rd, apply_ite CPU_Stage.rs1, apply_ite CPU_Stage.rs2,
    apply_ite CPU_Stage.imm, apply_ite CPU_Stage.is_empty, ite_self, and_self]

/-- With both signals down the reconciliation changes nothing. -/
theorem reconcile_idle (s : APEX_CPU) (hf : s.flush_and_reload_pc = 0)
    (hh : s.halt_and_flush = 0) : reconcile s = s := by
  unfold reconcile
  simp [hf, hh]

/-- The instruction store keeps its instructions under a conditional marker
update. -/
theorem same_instruction_update (cm : Int → APEX_Instruction) (cm0 : Int → APEX_Instruction)
    (c : Prop) [Decidable c] (j m : Int) (h : ∀ i, same_instruction (cm i) (cm0 i)) (i : Int) :
    same_instruction ((if c then set_marker cm j m else cm) i) (cm0 i) := by
  have h1 := set_marker_fields cm j i m
  have h2 := h i
  unfold same_instruction at *
  split_ifs
  · exact ⟨h1.1.trans h2.1, h1.2.1.trans h2.2.1, h1.2.2.1.trans h2.2.2.1,
      h1.2.2.2.1.trans h2.2.2.2.1, h1.2.2.2.2.1.trans h2.2.2.2.2.1,
      h1.2.2.2.2.2.trans h2.2.2.2.2.2⟩
  · exact h2

/-- `writeback` preserves `flow_base`. -/
theorem writeback_flow_base (cm0 : Int → APEX_Instruction) (s : APEX_CPU)
    (h : flow_base cm0 s) : flow_base cm0 (writeback s).1 := by
  have hf := writeback_frame s
  have hc := writeback_code_memory s
  have hw : clean (writeback s).1.stage_WB := by
    have h0 := h.cWB
    unfold clean at *
    unfold writeback writeback_exit
    simp only []
    split_ifs <;> simp_all
  exact
    { flush := by rw [hf.2.1]; exact h.flush
      halt := by rw [hf.1]; exact h.halt
      fbusy := by rw [hf.2.2.1]; exact h.fbusy
      dbusy := by rw [hf.2.2.2.1]; exact h.dbusy
      dplain := by rw [hf.2.2.2.1]; exact h.dplain
      cEX1 := by rw [hf.2.2.2.2.1]; exact h.cEX1
      cEX2 := by rw [hf.2.2.2.2.2.1]; exact h.cEX2
      cMEM1 := by rw [hf.2.2.2.2.2.2.1]; exact h.cMEM1
      cMEM2 := by rw [hf.2.2.2.2.2.2.2.1]; exact h.cMEM2
      cWB := hw
      code := by rw [hc]; exact same_instruction_update _ _ _ _ _ h.code
      cplain := h.cplain }

/-- More fields that `memory2` does not touch. -/
theorem memory2_frame_more (s : APEX_CPU) :
    (memory2 s).ins_completed = s.ins_completed
    ∧ (memory2 s).ENABLE_DEBUG_MESSAGES = s.ENABLE_DEBUG_MESSAGES := by
  unfold memory2
  simp only []
  split_ifs <;> simp

/-- More fields that `memory1` does not touch. -/
theorem memory1_frame_more (s : APEX_CPU) :
    (memory1 s).stage_WB = s.stage_WB
    ∧ (memory1 s).ins_completed = s.ins_completed
    ∧ (memory1 s).data_memory = s.data_memory
    ∧ (memory1 s).ENABLE_DEBUG_MESSAGES = s.ENABLE_DEBUG_MESSAGES := by
  unfold memory1
  simp only []
  split_ifs <;> simp

/-- More fields that `execute2` does not touch. -/
theorem execute2_frame_more (s : APEX_CPU) :
    (execute2 s).stage_MEM2 = s.stage_MEM2
    ∧ (execute2 s).stage_WB = s.stage_WB
    ∧ (execute2 s).ins_completed = s.ins_completed
    ∧ (execute2 s).data_memory = s.data_memory
    ∧ (execute2 s).ENABLE_DEBUG_MESSAGES = s.ENABLE_DEBUG_MESSAGES := by
  unfold execute2
  simp only []
  split_ifs <;> simp

/-- More fields that `execute1` does not touch. -/
theorem execute1_frame_more (s : APEX_CPU) :
    (execute1 s).ins_completed = s.ins_completed
    ∧ (execute1 s).data_memory = s.data_memory
    ∧ (execute1 s).ENABLE_DEBUG_MESSAGES = s.ENABLE_DEBUG_MESSAGES := by
  unfold execute1
  simp only []
  split_ifs <;> simp

/-- More fields that `decode` does not touch. -/
theorem decode_frame_more (s : APEX_CPU) :
    (decode s).ins_completed = s.ins_completed
    ∧ (decode s).data_memory = s.data_memory
    ∧ (decode s).ENABLE_DEBUG_MESSAGES = s.ENABLE_DEBUG_MESSAGES := by
  unfold decode
  simp only []
  split_ifs <;> simp

/-- More fields that `fetch` does not touch. -/
theorem fetch_frame_more (s : APEX_CPU) :
    (fetch s).ins_completed = s.ins_completed
    ∧ (fetch s).data_memory = s.data_memory
    ∧ (fetch s).ENABLE_DEBUG_MESSAGES = s.ENABLE_DEBUG_MESSAGES := by
  unfold fetch
  simp only []
  split_ifs <;> simp

/-- More fields that `writeback` does not touch. -/
theorem writeback_frame_more (s : APEX_CPU) :
    (writeback s).1.data_memory = s.data_memory
    ∧ (writeback s).1.ENABLE_DEBUG_MESSAGES = s.ENABLE_DEBUG_MESSAGES := by
  unfold writeback writeback_exit
  simp only []
  split_ifs <;> simp

/-- `memory2` preserves `flow_base`. -/
theorem memory2_flow_base (cm0 : Int → APEX_Instruction) (s : APEX_CPU)
    (h : flow_base cm0 s) : flow_base cm0 (memory2 s) := by
  have hf := memory2_frame s
  have hc := memory2_code_memory s
  have hw : clean (memory2 s).stage_WB ∧ clean (memory2 s).stage_MEM2 := by
    have h0 := h.cWB
    have h1 := h.cMEM2
    unfold clean at *
    unfold memory2
    simp only []
    split_ifs <;> simp_all
  exact
    { flush := by rw [hf.2.1]; exact h.flush
      halt := by rw [hf.1]; exact h.halt
      fbusy := by rw [hf.2.2.1]; exact h.fbusy
      dbusy := by rw [hf.2.2.2.1]; exact h.dbusy
      dplain := by rw [hf.2.2.2.1]; exact h.dplain
      cEX1 := by rw [hf.2.2.2.2.1]; exact h.cEX1
      cEX2 := by rw [hf.2.2.2.2.2.1]; exact h.cEX2
      cMEM1 := by rw [hf.2.2.2.2.2.2.1]; exact h.cMEM1
      cMEM2 := hw.2
      cWB := hw.1
      code := by rw [hc]; exact same_instruction_update _ _ _ _ _ h.code
      cplain := h.cplain }

/-- `memory1` preserves `flow_base`. -/
theorem memory1_flow_base (cm0 : Int → APEX_Instruction) (s : APEX_CPU)
    (h : flow_base cm0 s) : flow_base cm0 (memory1 s) := by
  have hf := memory1_frame s
  have hg := memory1_frame_more s
  have hc := memory1_code_memory s
  have hw : clean (memory1 s).stage_MEM2 ∧ clean (memory1 s).stage_MEM1 := by
    have h0 := h.cMEM2
    have h1 := h.cMEM1
    unfold clean at *
    unfold memory1
    simp only []
    split_ifs <;> simp_all
  exact
    { flush := by rw [hf.2.1]; exact h.flush
      halt := by rw [hf.1]; exact h.halt
      fbusy := by rw [hf.2.2.1]; exact h.fbusy
      dbusy := by rw [hf.2.2.2.1]; exact h.dbusy
      dplain := by rw [hf.2.2.2.1]; exact h.dplain
      cEX1 := by rw [hf.2.2.2.2.1]; exact h.cEX1
      cEX2 := by rw [hf.2.2.2.2.2.1]; exact h.cEX2
      cMEM1 := hw.2
      cMEM2 := hw.1
      cWB := by rw [hg.1]; exact h.cWB
      code := by rw [hc]; exact same_instruction_update _ _ _ _ _ h.code
      cplain := h.cplain }

/-- `execute2` preserves `flow_base`. -/
theorem execute2_flow_base (cm0 : Int → APEX_Instruction) (s : APEX_CPU)
    (h : flow_base cm0 s) : flow_base cm0 (execute2 s) := by
  have hf := execute2_frame s
  have hg := execute2_frame_more s
  have hc := execute2_code_memory s
  have h1 := h.cEX2
  have hm := h.cMEM1
  unfold clean plain at h1 hm
  have hnt : ¬ branch_taken s := by
    unfold branch_taken
    intro hbt
    rcases hbt with hbt | hbt
    · exact h1.2.2.1 hbt.1
    · exact h1.2.2.2.1 hbt.1
  have hfl : (execute2 s).flush_and_reload_pc = 0 := by
    rw [execute2_flush_and_reload_pc]
    split_ifs with ha hb
    · exact absurd hb h1.2.2.2.2.1
    · exact h.flush
    · exact h.flush
  have hha : (execute2 s).halt_and_flush = 0 := by
    rw [execute2_halt_and_flush]
    split_ifs with ha
    · exact absurd ha.2.2.2.1 h1.2.2.2.2.2
    · exact h.halt
  have hw : clean (execute2 s).stage_MEM1 := by
    rw [execute2_stage_MEM1]
    unfold clean plain
    split_ifs
    · exact h1
    · exact hm
  exact
    { flush := hfl
      halt := hha
      fbusy := by rw [hf.1]; exact h.fbusy
      dbusy := by rw [hf.2.1]; exact h.dbusy
      dplain := by rw [hf.2.1]; exact h.dplain
      cEX1 := by rw [hf.2.2.1]; exact h.cEX1
      cEX2 := by rw [hf.2.2.2.1]; exact h.cEX2
      cMEM1 := hw
      cMEM2 := by rw [hg.1]; exact h.cMEM2
      cWB := by rw [hg.2.1]; exact h.cWB
      code := by rw [hc]; exact same_instruction_update _ _ _ _ _ h.code
      cplain := h.cplain }

/-- The flags and the opcode in the Execute1 latch are not changed by `execute1`. -/
theorem execute1_stage_EX1_flags (s : APEX_CPU) :
    (execute1 s).stage_EX1.busy = s.stage_EX1.busy
    ∧ (execute1 s).stage_EX1.stalled = s.stage_EX1.stalled := by
  have h := execute1_compute_keeps { s.stage_EX1 with is_empty := 0 }
  unfold execute1
  simp only []
  split_ifs <;> simp [h.2.2.2.1, h.2.2.2.2.1]

/-- `execute1` preserves `flow_base`. -/
theorem execute1_flow_base (cm0 : Int → APEX_Instruction) (s : APEX_CPU)
    (h : flow_base cm0 s) : flow_base cm0 (execute1 s) := by
  have hf := execute1_frame s
  have hc := execute1_code_memory s
  have h1 := h.cEX1
  have h2 := h.cEX2
  have hk := execute1_compute_keeps { s.stage_EX1 with is_empty := 0 }
  have hown := execute1_stage_EX1 s
  have hflags := execute1_stage_EX1_flags s
  unfold clean at h1 h2
  have hw : clean (execute1 s).stage_EX2 := by
    rw [execute1_stage_EX2]
    unfold clean
    split_ifs
    · rw [hk.2.2.2.1, hk.2.2.2.2.1, hk.2.1]
      exact h1
    · exact h2
  have hw1 : clean (execute1 s).stage_EX1 := by
    unfold clean
    rw [hflags.1, hflags.2, hown.2]
    exact h1
  exact
    { flush := by rw [hf.2.1]; exact h.flush
      halt := by rw [hf.1]; exact h.halt
      fbusy := by rw [hf.2.2.1]; exact h.fbusy
      dbusy := by rw [hf.2.2.2.1]; exact h.dbusy
      dplain := by rw [hf.2.2.2.1]; exact h.dplain
      cEX1 := hw1
      cEX2 := hw
      cMEM1 := by rw [hf.2.2.2.2.1]; exact h.cMEM1
      cMEM2 := by rw [hf.2.2.2.2.2.1]; exact h.cMEM2
      cWB := by rw [hf.2.2.2.2.2.2.1]; exact h.cWB
      code := by rw [hc]; exact same_instruction_update _ _ _ _ _ h.code
      cplain := h.cplain }

/-- The Execute1 latch after `decode`: the Decode latch with the operands read
when `decode` hands off, unchanged otherwise. -/
theorem decode_stage_EX1_eq (s : APEX_CPU) :
    (decode s).stage_EX1 =
      if decode_hands_off s then
        (decode_read s { s.stage_DRF with stalled := 0, is_empty := 0 }).stage
      else s.stage_EX1 := by
  unfold decode_hands_off decode_processes
  by_cases hp : s.stage_DRF.pc ≥ 4000
  · by_cases hb : s.stage_DRF.busy = 0
    · by_cases hs : (decode_read s
          { s.stage_DRF with stalled := 0, is_empty := 0 }).is_stage_stalled = 0
      · rw [if_pos ⟨⟨hp, hb⟩, hs⟩]
        unfold decode
        simp only []
        rw [if_pos hp, if_pos ⟨hb, trivial⟩, if_neg (not_not.mpr hs)]
      · rw [if_neg (fun h => hs h.2)]
        unfold decode
        simp only []
        rw [if_pos hp, if_pos ⟨hb, trivial⟩, if_pos hs]
    · rw [if_neg (fun h => hb h.1.2)]
      unfold decode
      simp only []
      rw [if_pos hp, if_neg (fun h => hb h.1)]
  · rw [if_neg (fun h => hp h.1.1)]
    unfold decode
    simp only []
    rw [if_neg hp]

/-- The Fetch latch after `decode`: its stalled flag is cleared when `decode`
hands off. -/
theorem decode_stage_F (s : APEX_CPU) :
    (decode s).stage_F =
      if decode_hands_off s then { s.stage_F with stalled := 0 } else s.stage_F := by
  unfold decode_hands_off decode_processes
  by_cases hp : s.stage_DRF.pc ≥ 4000
  · by_cases hb : s.stage_DRF.busy = 0
    · by_cases hs : (decode_read s
          { s.stage_DRF with stalled := 0, is_empty := 0 }).is_stage_stalled = 0
      · rw [if_pos ⟨⟨hp, hb⟩, hs⟩]
        unfold decode
        simp only []
        rw [if_pos hp, if_pos ⟨hb, trivial⟩, if_neg (not_not.mpr hs)]
      · rw [if_neg (fun h => hs h.2)]
        unfold decode
        simp only []
        rw [if_pos hp, if_pos ⟨hb, trivial⟩, if_pos hs]
    · rw [if_neg (fun h => hb h.1.2)]
      unfold decode
      simp only []
      rw [if_pos hp, if_neg (fun h => hb h.1)]
  · rw [if_neg (fun h => hp h.1.1)]
    unfold decode
    simp only []
    rw [if_neg hp]

/-- The Decode latch after `decode`: pc, busy flag and opcode are kept; the
stalled flag tells whether a processed latch was held back. -/
theorem decode_stage_DRF (s : APEX_CPU) :
    (decode s).stage_DRF.pc = s.stage_DRF.pc
    ∧ (decode s).stage_DRF.busy = s.stage_DRF.busy
    ∧ (decode s).stage_DRF.opcode = s.stage_DRF.opcode
    ∧ (decode s).stage_DRF.stalled =
        if decode_processes s ∧ ¬ decode_hands_off s then 1 else 0 := by
  have hk := decode_read_keeps s { s.stage_DRF with stalled := 0, is_empty := 0 }
  have hfl := decode_read_fields s { s.stage_DRF with stalled := 0, is_empty := 0 }
  unfold decode_hands_off decode_processes
  by_cases hp : s.stage_DRF.pc ≥ 4000
  · by_cases hb : s.stage_DRF.busy = 0
    · by_cases hs : (decode_read s
          { s.stage_DRF with stalled := 0, is_empty := 0 }).is_stage_stalled = 0
      · rw [if_neg (fun h => h.2 ⟨⟨hp, hb⟩, hs⟩)]
        unfold decode
        simp only []
        rw [if_pos hp, if_pos ⟨hb, trivial⟩, if_neg (not_not.mpr hs)]
        exact ⟨hk.1, hfl.1, hk.2, hfl.2.1⟩
      · rw [if_pos ⟨⟨hp, hb⟩, fun h => hs h.2⟩]
        unfold decode
        simp only []
        rw [if_pos hp, if_pos ⟨hb, trivial⟩, if_pos hs]
        exact ⟨hk.1, hfl.1, hk.2, rfl⟩
    · rw [if_neg (fun h => hb h.1.2)]
      unfold decode
      simp only []
      rw [if_pos hp, if_neg (fun h => hb h.1)]
      exact ⟨rfl, rfl, rfl, rfl⟩
  · rw [if_neg (fun h => hp h.1.1)]
    unfold decode
    simp only []
    rw [if_neg hp]
    exact ⟨rfl, rfl, rfl, rfl⟩

/-- `decode` preserves `flow_base`. -/
theorem decode_flow_base (cm0 : Int → APEX_Instruction) (s : APEX_CPU)
    (h : flow_base cm0 s) : flow_base cm0 (decode s) := by
  have hf := decode_frame s
  have hc := decode_code_memory s
  have hd := decode_stage_DRF s
  have hdp := h.dplain
  have hk := decode_read_keeps s { s.stage_DRF with stalled := 0, is_empty := 0 }
  have hfl := decode_read_fields s { s.stage_DRF with stalled := 0, is_empty := 0 }
  have hha : (decode s).halt_and_flush = 0 := by
    rw [decode_halt_and_flush]
    split_ifs
    · rw [decode_read_halt_and_flush, if_neg hdp.2.2.2]
      exact h.halt
    · exact h.halt
  have hw : clean (decode s).stage_EX1 := by
    rw [decode_stage_EX1_eq]
    split_ifs with hh
    · unfold clean
      rw [hfl.1, hfl.2.1, hk.2]
      exact ⟨h.dbusy, rfl, hdp⟩
    · exact h.cEX1
  have hfb : (decode s).stage_F.busy = 0 := by
    rw [decode_stage_F]
    split_ifs
    · exact h.fbusy
    · exact h.fbusy
  exact
    { flush := by rw [hf.1]; exact h.flush
      halt := hha
      fbusy := hfb
      dbusy := by rw [hd.2.1]; exact h.dbusy
      dplain := by rw [hd.2.2.1]; exact h.dplain
      cEX1 := hw
      cEX2 := by rw [hf.2.1]; exact h.cEX2
      cMEM1 := by rw [hf.2.2.1]; exact h.cMEM1
      cMEM2 := by rw [hf.2.2.2.1]; exact h.cMEM2
      cWB := by rw [hf.2.2.2.2.1]; exact h.cWB
      code := by rw [hc]; exact same_instruction_update _ _ _ _ _ h.code
      cplain := h.cplain }

/-- The Decode latch, the Fetch flags and the program counter after `fetch`. -/
theorem fetch_effect (s : APEX_CPU) :
    (fetch s).stage_F.busy = s.stage_F.busy
    ∧ (fetch_hands_off s →
        (fetch s).pc = s.pc + 4
        ∧ (fetch s).stage_DRF.pc = s.pc
        ∧ (fetch s).stage_DRF.busy = 0
        ∧ (fetch s).stage_DRF.stalled = 0
        ∧ (fetch s).stage_DRF.opcode = (s.code_memory (get_code_index s.pc)).opcode
        ∧ (fetch s).stage_DRF.rd = (s.code_memory (get_code_index s.pc)).rd
        ∧ (fetch s).stage_DRF.rs1 = (s.code_memory (get_code_index s.pc)).rs1
        ∧ (fetch s).stage_DRF.rs2 = (s.code_memory (get_code_index s.pc)).rs2
        ∧ (fetch s).stage_DRF.imm = (s.code_memory (get_code_index s.pc)).imm
        ∧ (fetch s).stage_F.stalled = 0)
    ∧ (¬ fetch_hands_off s → (fetch s).pc = s.pc ∧ (fetch s).stage_DRF = s.stage_DRF) := by
  unfold fetch_hands_off
  refine ⟨?_, ?_, ?_⟩
  · unfold fetch
    simp only []
    split_ifs <;> simp
  · intro hh
    unfold fetch
    simp [hh.1, hh.2.1, hh.2.2]
  · intro hh
    unfold fetch
    simp only []
    split_ifs with h1 h2
    · exact absurd ⟨h1.1, h1.2, h2⟩ hh
    · exact ⟨rfl, rfl⟩
    · exact ⟨rfl, rfl⟩

/-- `fetch` preserves `flow_base`. -/
theorem fetch_flow_base (cm0 : Int → APEX_Instruction) (s : APEX_CPU)
    (h : flow_base cm0 s) : flow_base cm0 (fetch s) := by
  have hf := fetch_frame s
  have hc := fetch_code_memory s
  have he := fetch_effect s
  have hd : (fetch s).stage_DRF.busy = 0 ∧ plain (fetch s).stage_DRF.opcode := by
    by_cases hh : fetch_hands_off s
    · have h1 := he.2.1 hh
      rw [h1.2.2.1, h1.2.2.2.2.1, (h.code _).1]
      exact ⟨rfl, h.cplain _⟩
    · rw [(he.2.2 hh).2]
      exact ⟨h.dbusy, h.dplain⟩
  exact
    { flush := by rw [hf.2.1]; exact h.flush
      halt := by rw [hf.1]; exact h.halt
      fbusy := by rw [he.1]; exact h.fbusy
      dbusy := hd.1
      dplain := hd.2
      cEX1 := by rw [hf.2.2.1]; exact h.cEX1
      cEX2 := by rw [hf.2.2.2.1]; exact h.cEX2
      cMEM1 := by rw [hf.2.2.2.2.1]; exact h.cMEM1
      cMEM2 := by rw [hf.2.2.2.2.2.1]; exact h.cMEM2
      cWB := by rw [hf.2.2.2.2.2.2.1]; exact h.cWB
      code := by rw [hc]; exact same_instruction_update _ _ _ _ _ h.code
      cplain := h.cplain }

/-! ### Straight-line programs: the five stages behind Decode as one pattern -/

/-- The latches by stage identifier. -/
theorem latch_values (s : APEX_CPU) :
    latch s EX1 = s.stage_EX1 ∧ latch s EX2 = s.stage_EX2 ∧ latch s MEM1 = s.stage_MEM1
    ∧ latch s MEM2 = s.stage_MEM2 ∧ latch s WB = s.stage_WB :=
  ⟨rfl, rfl, rfl, rfl, rfl⟩

/-- The guards of the five stages behind Decode, by stage identifier. -/
theorem stage_processes_values (s : APEX_CPU) :
    (stage_processes EX1 s ↔ execute1_processes s)
    ∧ (stage_processes EX2 s ↔ execute2_processes s)
    ∧ (stage_processes MEM1 s ↔ memory1_processes s)
    ∧ (stage_processes MEM2 s ↔ memory2_processes s)
    ∧ (stage_processes WB s ↔ writeback_processes s) :=
  ⟨Iff.rfl, Iff.rfl, Iff.rfl, Iff.rfl, Iff.rfl⟩

/-- `writeback` on a latch with a plain opcode follows the pattern. -/
theorem writeback_advances (s : APEX_CPU) (hop : plain s.stage_WB.opcode) :
    advances WB s (writeback s).1 := by
  have hf := writeback_frame s
  have hnh : ¬ (s.stage_WB.opcode = "HALT" ∧ s.ENABLE_DEBUG_MESSAGES ≠ 0) :=
    fun h => hop.2.2.2 h.1
  have hiff : stage_processes WB s ↔ writeback_processes s := Iff.rfl
  refine ⟨?_, ?_, ?_, ?_, ?_⟩
  · rw [writeback_code_memory]
    by_cases hp : writeback_processes s
    · rw [if_pos ⟨hp, hnh⟩, if_pos (hiff.mpr hp)]
      rfl
    · rw [if_neg (fun h => hp h.1), if_neg (fun h => hp (hiff.mp h))]
  · intro h
    exact absurd h (by decide)
  · show (writeback s).1.stage_WB.pc = s.stage_WB.pc ∨ (writeback s).1.stage_WB.pc = 0
    unfold writeback writeback_exit
    simp only []
    split_ifs <;> simp
  · intro u h1 h2 h3 h4
    have h5 : u = 2 ∨ u = 3 ∨ u = 4 ∨ u = 5 := by
      have e1 : EX1 = 2 := rfl
      have e6 : WB = 6 := rfl
      omega
    rcases h5 with h | h | h | h <;> subst h
    · exact hf.2.2.2.2.1
    · exact hf.2.2.2.2.2.1
    · exact hf.2.2.2.2.2.2.1
    · exact hf.2.2.2.2.2.2.2.1
  · rw [writeback_ins_completed]
    by_cases hp : writeback_processes s
    · have hr : (if WB = WB ∧ stage_processes WB s then s.ins_completed + 1
          else s.ins_completed) = s.ins_completed + 1 := if_pos ⟨rfl, hiff.mpr hp⟩
      rw [hr, if_pos hp]
      split_ifs <;> rfl
    · have hr : (if WB = WB ∧ stage_processes WB s then s.ins_completed + 1
          else s.ins_completed) = s.ins_completed := if_neg (fun h => hp (hiff.mp h.2))
      rw [hr, if_neg hp]

/-- `memory2` follows the pattern. -/
theorem memory2_advances (s : APEX_CPU) : advances MEM2 s (memory2 s) := by
  have hf := memory2_frame s
  have hg := memory2_frame_more s
  have hiff : stage_processes MEM2 s ↔ memory2_processes s := Iff.rfl
  have hwb : (memory2 s).stage_WB.pc =
      if memory2_processes s then s.stage_MEM2.pc else s.stage_WB.pc := by
    unfold memory2_processes memory2
    simp only []
    split_ifs <;> simp_all
  have hown : (memory2 s).stage_MEM2.pc = 0 := by
    unfold memory2
    simp only []
    split_ifs <;> simp
  refine ⟨?_, ?_, ?_, ?_, ?_⟩
  · rw [memory2_code_memory]
    by_cases hp : memory2_processes s
    · rw [if_pos hp, if_pos (hiff.mpr hp)]
      rfl
    · rw [if_neg hp, if_neg (fun h => hp (hiff.mp h))]
  · intro _
    show (memory2 s).stage_WB.pc = _
    rw [hwb]
    by_cases hp : memory2_processes s
    · rw [if_pos hp, if_pos (hiff.mpr hp)]
      rfl
    · rw [if_neg hp, if_neg (fun h => hp (hiff.mp h))]
      rfl
  · exact Or.inr hown
  · intro u h1 h2 h3 h4
    have h5 : u = 2 ∨ u = 3 ∨ u = 4 := by
      have e1 : EX1 = 2 := rfl
      have e5 : MEM2 = 5 := rfl
      have e6 : WB = 6 := rfl
      omega
    rcases h5 with h | h | h <;> subst h
    · exact hf.2.2.2.2.1
    · exact hf.2.2.2.2.2.1
    · exact hf.2.2.2.2.2.2.1
  · rw [hg.1, if_neg (fun h => absurd h.1 (by decide))]

/-- `memory1` follows the pattern. -/
theorem memory1_advances (s : APEX_CPU) : advances MEM1 s (memory1 s) := by
  have hf := memory1_frame s
  have hg := memory1_frame_more s
  have hiff : stage_processes MEM1 s ↔ memory1_processes s := Iff.rfl
  have hnx : (memory1 s).stage_MEM2.pc =
      if memory1_processes s then s.stage_MEM1.pc else s.stage_MEM2.pc := by
    unfold memory1_processes memory1
    simp only []
    split_ifs <;> simp_all
  have hown : (memory1 s).stage_MEM1.pc = 0 := by
    unfold memory1
    simp only []
    split_ifs <;> simp
  refine ⟨?_, ?_, ?_, ?_, ?_⟩
  · rw [memory1_code_memory]
    by_cases hp : memory1_processes s
    · rw [if_pos hp, if_pos (hiff.mpr hp)]
      rfl
    · rw [if_neg hp, if_neg (fun h => hp (hiff.mp h))]
  · intro _
    show (memory1 s).stage_MEM2.pc = _
    rw [hnx]
    by_cases hp : memory1_processes s
    · rw [if_pos hp, if_pos (hiff.mpr hp)]
      rfl
    · rw [if_neg hp, if_neg (fun h => hp (hiff.mp h))]
      rfl
  · exact Or.inr hown
  · intro u h1 h2 h3 h4
    have h5 : u = 2 ∨ u = 3 ∨ u = 6 := by
      have e1 : EX1 = 2 := rfl
      have e4 : MEM1 = 4 := rfl
      have e6 : WB = 6 := rfl
      omega
    rcases h5 with h | h | h <;> subst h
    · exact hf.2.2.2.2.1
    · exact hf.2.2.2.2.2.1
    · exact hg.1
  · rw [hg.2.1, if_neg (fun h => absurd h.1 (by decide))]

/-- `execute2` follows the pattern. -/
theorem execute2_advances (s : APEX_CPU) : advances EX2 s (execute2 s) := by
  have hf := execute2_frame s
  have hg := execute2_frame_more s
  have hiff : stage_processes EX2 s ↔ execute2_processes s := Iff.rfl
  refine ⟨?_, ?_, ?_, ?_, ?_⟩
  · rw [execute2_code_memory]
    by_cases hp : execute2_processes s
    · rw [if_pos hp, if_pos (hiff.mpr hp)]
      rfl
    · rw [if_neg hp, if_neg (fun h => hp (hiff.mp h))]
  · intro _
    show (execute2 s).stage_MEM1.pc = _
    rw [execute2_stage_MEM1]
    by_cases hp : execute2_processes s
    · rw [if_pos hp, if_pos (hiff.mpr hp)]
      rfl
    · rw [if_neg hp, if_neg (fun h => hp (hiff.mp h))]
      rfl
  · left
    show (execute2 s).stage_EX2.pc = s.stage_EX2.pc
    rw [hf.2.2.2.1]
  · intro u h1 h2 h3 h4
    have h5 : u = 2 ∨ u = 5 ∨ u = 6 := by
      have e1 : EX1 = 2 := rfl
      have e3 : EX2 = 3 := rfl
      have e6 : WB = 6 := rfl
      omega
    rcases h5 with h | h | h <;> subst h
    · exact hf.2.2.1
    · exact hg.1
    · exact hg.2.1
  · rw [hg.2.2.1, if_neg (fun h => absurd h.1 (by decide))]

/-- `execute1` follows the pattern. -/
theorem execute1_advances (s : APEX_CPU) : advances EX1 s (execute1 s) := by
  have hf := execute1_frame s
  have hg := execute1_frame_more s
  have hk := execute1_compute_keeps { s.stage_EX1 with is_empty := 0 }
  have hiff : stage_processes EX1 s ↔ execute1_processes s := Iff.rfl
  refine ⟨?_, ?_, ?_, ?_, ?_⟩
  · rw [execute1_code_memory]
    by_cases hp : execute1_processes s
    · rw [if_pos hp, if_pos (hiff.mpr hp)]
      rfl
    · rw [if_neg hp, if_neg (fun h => hp (hiff.mp h))]
  · intro _
    show (execute1 s).stage_EX2.pc = _
    rw [execute1_stage_EX2]
    by_cases hp : execute1_processes s
    · rw [if_pos hp, if_pos (hiff.mpr hp), hk.1]
      rfl
    · rw [if_neg hp, if_neg (fun h => hp (hiff.mp h))]
      rfl
  · left
    exact (execute1_stage_EX1 s).1
  · intro u h1 h2 h3 h4
    have h5 : u = 4 ∨ u = 5 ∨ u = 6 := by
      have e1 : EX1 = 2 := rfl
      have e6 : WB = 6 := rfl
      omega
    rcases h5 with h | h | h <;> subst h
    · exact hf.2.2.2.2.1
    · exact hf.2.2.2.2.2.1
    · exact hf.2.2.2.2.2.2.1
  · rw [hg.1, if_neg (fun h => absurd h.1 (by decide))]

/-- The index of the pc of the `i`-th instruction. -/
theorem get_code_index_pc (i : Int) : get_code_index (4000 + 4 * i) = i := by
  unfold get_code_index
  have h : 4000 + 4 * i - 4000 = 4 * i := by ring
  rw [h]
  exact Int.mul_tdiv_cancel_left i (by decide)

/-- The markers after a stage that follows the pattern. -/
theorem advances_marker (t : Int) (s s' : APEX_CPU) (ha : advances t s s') (i : Int) :
    marker s' i =
      if stage_processes t s ∧ i = get_code_index (latch s t).pc then t else marker s i := by
  unfold marker
  rw [ha.code]
  by_cases hp : stage_processes t s
  · rw [if_pos hp, set_marker_stage_finished]
    by_cases hi : i = get_code_index (latch s t).pc
    · rw [if_pos hi, if_pos ⟨hp, hi⟩]
    · rw [if_neg hi, if_neg (fun h => hi h.2)]
  · rw [if_neg hp, if_neg (fun h => hp h.1)]

/-- What a stage that follows the pattern does to the markers of the
instructions behind Decode: exactly the instruction whose marker is `t - 1`
gets the marker `t`. -/
theorem advances_step (t : Int) (s s' : APEX_CPU) (d : Int) (ht1 : EX1 ≤ t) (ht2 : t ≤ WB)
    (hcl : (latch s t).busy = 0 ∧ (latch s t).stalled = 0)
    (hp : flow_pos s d) (ha : advances t s s') :
    (∀ i, 0 ≤ i → i < d →
        marker s' i = if marker s i = t - 1 then t else marker s i)
    ∧ (∀ i, d ≤ i → marker s' i = marker s i)
    ∧ (stage_processes t s →
        ∃ i, 0 ≤ i ∧ i < d ∧ (latch s t).pc = 4000 + 4 * i ∧ marker s i = t - 1)
    ∧ ((∃ i, 0 ≤ i ∧ i < d ∧ marker s i = t - 1) → stage_processes t s) := by
  have e1 : EX1 = 2 := rfl
  have e6 : WB = 6 := rfl
  have hproc : stage_processes t s →
      ∃ i, 0 ≤ i ∧ i < d ∧ (latch s t).pc = 4000 + 4 * i ∧ marker s i = t - 1 := by
    intro hpr
    obtain ⟨i0, h0, h1, h2, h3⟩ := hp.occ t ht1 ht2 hpr.1
    have h4 := hpr.2.2.2
    rw [h2, get_code_index_pc] at h4
    exact ⟨i0, h0, h1, h2, by omega⟩
  have hlive : ∀ i, 0 ≤ i → i < d → marker s i = t - 1 → (latch s t).pc = 4000 + 4 * i := by
    intro i h0 h1 hm
    have h2 := (hp.live i h0 h1).2.2 (by omega)
    rw [hm, sub_add_cancel] at h2
    exact h2
  have hconv : (∃ i, 0 ≤ i ∧ i < d ∧ marker s i = t - 1) → stage_processes t s := by
    rintro ⟨i, h0, h1, hm⟩
    have h2 := hlive i h0 h1 hm
    refine ⟨by omega, hcl.1, hcl.2, ?_⟩
    rw [h2, get_code_index_pc]
    omega
  refine ⟨?_, ?_, hproc, hconv⟩
  · intro i h0 h1
    rw [advances_marker t s s' ha i]
    by_cases hm : marker s i = t - 1
    · rw [if_pos hm]
      have h2 := hlive i h0 h1 hm
      have hpr := hconv ⟨i, h0, h1, hm⟩
      rw [if_pos ⟨hpr, by rw [h2, get_code_index_pc]⟩]
    · rw [if_neg hm]
      by_cases hpr : stage_processes t s
      · obtain ⟨i0, h3, h4, h5, h6⟩ := hproc hpr
        have hne : i ≠ i0 := by
          intro h
          rw [h] at hm
          exact hm h6
        rw [if_neg]
        intro h
        rw [h5, get_code_index_pc] at h
        exact hne h.2
      · rw [if_neg (fun h => hpr h.1)]
  · intro i hi
    rw [advances_marker t s s' ha i]
    by_cases hpr : stage_processes t s
    · obtain ⟨i0, h3, h4, h5, h6⟩ := hproc hpr
      rw [if_neg]
      intro h
      rw [h5, get_code_index_pc] at h
      omega
    · rw [if_neg (fun h => hpr h.1)]

/-- A stage that follows the pattern preserves `flow_pos`, provided no
instruction behind Decode already carries the marker `t` (for `t` below `WB`);
afterwards no instruction behind Decode carries the marker `t - 1`. -/
theorem advances_flow_pos (t : Int) (s s' : APEX_CPU) (d : Int) (ht1 : EX1 ≤ t) (ht2 : t ≤ WB)
    (hcl : (latch s t).busy = 0 ∧ (latch s t).stalled = 0)
    (hp : flow_pos s d) (hh : t < WB → ∀ i, 0 ≤ i → i < d → marker s i ≠ t)
    (ha : advances t s s') :
    flow_pos s' d ∧ (∀ i, 0 ≤ i → i < d → marker s' i ≠ t - 1) := by
  have e1 : EX1 = 2 := rfl
  have e6 : WB = 6 := rfl
  obtain ⟨hstep, -, hproc, hconv⟩ := advances_step t s s' d ht1 ht2 hcl hp ha
  have hmono : ∀ i, 0 ≤ i → i < d → marker s i ≤ marker s' i := by
    intro i h0 h1
    rw [hstep i h0 h1]
    split_ifs with h
    · omega
    · exact le_refl _
  have hhole : ∀ i, 0 ≤ i → i < d → marker s i ≠ t ∨ t = 6 := by
    intro i h0 h1
    by_cases h6 : t = 6
    · exact Or.inr h6
    · exact Or.inl (hh (by omega) i h0 h1)
  refine ⟨⟨hp.dnn, ?_, ?_, ?_, ?_⟩, ?_⟩
  · -- occupied latches
    intro u hu1 hu2 hpc
    by_cases hut : u = t
    · subst hut
      rcases ha.own with ho | ho
      · rw [ho] at hpc ⊢
        obtain ⟨i, h0, h1, h2, h3⟩ := hp.occ u hu1 hu2 hpc
        exact ⟨i, h0, h1, h2, le_trans h3 (hmono i h0 h1)⟩
      · rw [ho] at hpc
        omega
    · by_cases hut1 : u = t + 1
      · subst hut1
        have hn := ha.next (by omega)
        by_cases hpr : stage_processes t s
        · rw [if_pos hpr] at hn
          obtain ⟨i, h0, h1, h2, h3⟩ := hproc hpr
          refine ⟨i, h0, h1, by rw [hn, h2], ?_⟩
          rw [hstep i h0 h1, if_pos h3]
          omega
        · rw [if_neg hpr] at hn
          rw [hn] at hpc ⊢
          obtain ⟨i, h0, h1, h2, h3⟩ := hp.occ (t + 1) hu1 hu2 hpc
          exact ⟨i, h0, h1, h2, le_trans h3 (hmono i h0 h1)⟩
      · have ho := ha.other u hu1 hu2 hut hut1
        rw [ho] at hpc ⊢
        obtain ⟨i, h0, h1, h2, h3⟩ := hp.occ u hu1 hu2 hpc
        exact ⟨i, h0, h1, h2, le_trans h3 (hmono i h0 h1)⟩
  · -- instructions behind Decode
    intro i h0 h1
    have hl := hp.live i h0 h1
    have hs := hstep i h0 h1
    by_cases hm : marker s i = t - 1
    · rw [if_pos hm] at hs
      refine ⟨by omega, by omega, ?_⟩
      intro h5
      rw [hs]
      have hn := ha.next (by omega)
      have hpr := hconv ⟨i, h0, h1, hm⟩
      rw [if_pos hpr] at hn
      rw [hn]
      have h2 := hl.2.2 (by omega)
      rw [hm, sub_add_cancel] at h2
      exact h2
    · rw [if_neg hm] at hs
      rw [hs]
      refine ⟨hl.1, hl.2.1, ?_⟩
      intro h5
      have h2 := hl.2.2 h5
      have hne : marker s i ≠ t := by
        rcases hhole i h0 h1 with h | h
        · exact h
        · omega
      rw [ha.other (marker s i + 1) (by omega) (by omega) (by omega) (by omega)]
      exact h2
  · -- order
    intro i j h0 hij hj
    have ho := hp.order i j h0 hij hj
    have hli := hp.live i h0 (by omega)
    have hlj := hp.live j (by omega) hj
    have hsi := hstep i h0 (by omega)
    have hsj := hstep j (by omega) hj
    have hhi := hhole i h0 (by omega)
    rw [hsi, hsj]
    split_ifs with ha1 ha2 ha2 <;> omega
  · -- instruction counter
    have hc := ha.count
    have hcn := hp.cnt
    by_cases hw : t = WB ∧ stage_processes t s
    · rw [if_pos hw] at hc
      obtain ⟨i0, h0, h1, h2, h3⟩ := hproc hw.2
      have hge : s.ins_completed ≤ i0 := by
        by_contra hlt
        have := (hcn.2.2 i0 h0 h1).mpr (by omega)
        omega
      have hle : i0 ≤ s.ins_completed := by
        by_contra hlt
        have hic : marker s s.ins_completed ≠ 6 := by
          intro h
          have := (hcn.2.2 s.ins_completed hcn.1 (by omega)).mp h
          omega
        have ho := hp.order s.ins_completed i0 hcn.1 (by omega) h1
        have hl := hp.live s.ins_completed hcn.1 (by omega)
        omega
      rw [hc]
      refine ⟨by omega, by omega, ?_⟩
      intro i hi0 hi1
      have hs := hstep i hi0 hi1
      have hci := hcn.2.2 i hi0 hi1
      have hli := hp.live i hi0 hi1
      by_cases hm : marker s i = t - 1
      · rw [if_pos hm] at hs
        have hii : i = i0 := by
          have h5 := hli.2.2 (by omega)
          rw [hm, sub_add_cancel, h2] at h5
          omega
        constructor
        · intro _
          omega
        · intro _
          omega
      · rw [if_neg hm] at hs
        rw [hs]
        constructor
        · intro h
          have := hci.mp h
          omega
        · intro h
          by_cases hii : i = i0
          · rw [hii] at hm
            exact absurd h3 hm
          · exact hci.mpr (by omega)
    · rw [if_neg hw] at hc
      rw [hc]
      refine ⟨hcn.1, hcn.2.1, ?_⟩
      intro i hi0 hi1
      have hs := hstep i hi0 hi1
      have hci := hcn.2.2 i hi0 hi1
      have hli := hp.live i hi0 hi1
      by_cases hm : marker s i = t - 1
      · rw [if_pos hm] at hs
        have hpr := hconv ⟨i, hi0, hi1, hm⟩
        have ht6 : t ≠ 6 := fun h => hw ⟨by omega, hpr⟩
        rw [hs]
        constructor
        · intro h
          omega
        · intro h
          have := hci.mpr h
          omega
      · rw [if_neg hm] at hs
        rw [hs]
        exact hci
  · -- the marker `t - 1` is vacated
    intro i h0 h1
    rw [hstep i h0 h1]
    have hhi := hhole i h0 h1
    have hli := hp.live i h0 h1
    split_ifs with h <;> omega

/-! ### Straight-line programs: Decode and Fetch -/

/-- The latches behind Execute1 are not touched by `decode`. -/
theorem decode_latch (s : APEX_CPU) (u : Int) (hu : u ≠ EX1) :
    latch (decode s) u = latch s u := by
  have hf := decode_frame s
  unfold latch
  rw [if_neg hu, if_neg hu, hf.2.1, hf.2.2.1, hf.2.2.2.1, hf.2.2.2.2.1]

/-- The latches behind Decode are not touched by `fetch`. -/
theorem fetch_latch (s : APEX_CPU) (u : Int) : latch (fetch s) u = latch s u := by
  have hf := fetch_frame s
  unfold latch
  rw [hf.2.2.1, hf.2.2.2.1, hf.2.2.2.2.1, hf.2.2.2.2.2.1, hf.2.2.2.2.2.2.1]

/-- The markers after `decode`. -/
theorem decode_marker (s : APEX_CPU) (i : Int) :
    marker (decode s) i =
      if decode_hands_off s ∧ i = get_code_index s.stage_DRF.pc then DRF else marker s i := by
  unfold marker
  rw [decode_code_memory]
  by_cases hp : decode_hands_off s
  · rw [if_pos hp, set_marker_stage_finished]
    by_cases hi : i = get_code_index s.stage_DRF.pc
    · rw [if_pos hi, if_pos ⟨hp, hi⟩]
    · rw [if_neg hi, if_neg (fun h => hi h.2)]
  · rw [if_neg hp, if_neg (fun h => hp h.1)]

/-- The markers after `fetch`. -/
theorem fetch_marker (s : APEX_CPU) (i : Int) :
    marker (fetch s) i =
      if fetch_hands_off s ∧ i = get_code_index s.pc then F else marker s i := by
  unfold marker
  rw [fetch_code_memory]
  by_cases hp : fetch_hands_off s
  · rw [if_pos hp, set_marker_stage_finished]
    by_cases hi : i = get_code_index s.pc
    · rw [if_pos hi, if_pos ⟨hp, hi⟩]
    · rw [if_neg hi, if_neg (fun h => hi h.2)]
  · rw [if_neg hp, if_neg (fun h => hp h.1)]

/-- `decode` on a straight-line run when it does not hand off: nothing moves. -/
theorem decode_flow_pos_stall (cm0 : Int → APEX_Instruction) (s : APEX_CPU) (d : Int)
    (hb : flow_base cm0 s) (hp : flow_pos s d) (hf : front_start s d)
    (hn : ¬ decode_hands_off s) :
    flow_pos (decode s) d ∧ front_mid (decode s) d
    ∧ (∀ i, marker (decode s) i = marker s i) := by
  have hfr := decode_frame s
  have hg := decode_frame_more s
  have hd := decode_stage_DRF s
  have hF := decode_stage_F s
  rw [if_neg hn] at hF
  have hE := decode_stage_EX1_eq s
  rw [if_neg hn] at hE
  have hm : ∀ i, marker (decode s) i = marker s i := by
    intro i
    rw [decode_marker, if_neg (fun h => hn h.1)]
  have hl : ∀ u, latch (decode s) u = latch s u := by
    intro u
    by_cases hu : u = EX1
    · rw [hu]
      exact hE
    · exact decode_latch s u hu
  refine ⟨⟨hp.dnn, ?_, ?_, ?_, ?_⟩, ?_, hm⟩
  · intro t h1 h2 h3
    rw [hl] at h3 ⊢
    obtain ⟨i, h4, h5, h6, h7⟩ := hp.occ t h1 h2 h3
    exact ⟨i, h4, h5, h6, by rw [hm]; exact h7⟩
  · intro i h0 h1
    rw [hm, hl]
    exact hp.live i h0 h1
  · intro i j h0 h1 h2
    rw [hm, hm]
    exact hp.order i j h0 h1 h2
  · rw [hg.1]
    have hc := hp.cnt
    refine ⟨hc.1, hc.2.1, ?_⟩
    intro i h0 h1
    rw [hm]
    exact hc.2.2 i h0 h1
  · rcases hf with ⟨h0, h1, h2, h3⟩ | ⟨h1, h2⟩
    · left
      have hnp : ¬ decode_processes s := fun h => by
        have := h.1
        omega
      refine ⟨by rw [hfr.2.2.2.2.2.1, h1, h0]; rfl, by rw [hF]; exact h3, ?_⟩
      rw [hd.2.2.2, if_neg (fun h => hnp h.1)]
    · right
      have hpr : decode_processes s := ⟨by rw [h2]; have := hp.dnn; omega, hb.dbusy⟩
      refine ⟨by rw [hfr.2.2.2.2.2.1]; exact h1, by rw [hd.1]; exact h2, ?_⟩
      rw [hd.2.2.2, if_pos ⟨hpr, hn⟩]
      decide

/-- `decode` on a straight-line run when it hands off: the instruction with
index `d` moves into Execute1 with the marker `DRF`. -/
theorem decode_flow_pos_hand_off (s : APEX_CPU) (d : Int)
    (hp : flow_pos s d) (hf : front_start s d)
    (hh : ∀ i, 0 ≤ i → i < d → marker s i ≠ 1) (hy : decode_hands_off s) :
    flow_pos (decode s) (d + 1) ∧ front_mid (decode s) (d + 1)
    ∧ s.stage_DRF.pc = 4000 + 4 * d
    ∧ marker (decode s) d = 1
    ∧ (∀ i, i ≠ d → marker (decode s) i = marker s i) := by
  have e1 : EX1 = 2 := rfl
  have e6 : WB = 6 := rfl
  have hfr := decode_frame s
  have hg := decode_frame_more s
  have hd := decode_stage_DRF s
  have hF := decode_stage_F s
  rw [if_pos hy] at hF
  have hE := decode_stage_EX1_eq s
  rw [if_pos hy] at hE
  have hk := decode_read_keeps s { s.stage_DRF with stalled := 0, is_empty := 0 }
  have hdn := hp.dnn
  have hpc : s.pc = 4000 + 4 * (d + 1) ∧ s.stage_DRF.pc = 4000 + 4 * d := by
    rcases hf with ⟨h0, h1, h2, h3⟩ | h
    · have := hy.1.1
      omega
    · exact h
  have hidx : get_code_index s.stage_DRF.pc = d := by
    rw [hpc.2, get_code_index_pc]
  have hmd : marker (decode s) d = 1 := by
    rw [decode_marker, if_pos ⟨hy, hidx.symm⟩]
  have hm : ∀ i, i ≠ d → marker (decode s) i = marker s i := by
    intro i hi
    rw [decode_marker, if_neg]
    intro h
    rw [hidx] at h
    exact hi h.2
  have hl : ∀ u, u ≠ EX1 → latch (decode s) u = latch s u := decode_latch s
  have hl1 : (latch (decode s) EX1).pc = 4000 + 4 * d := by
    show (decode s).stage_EX1.pc = _
    rw [hE, hk.1]
    exact hpc.2
  refine ⟨⟨by omega, ?_, ?_, ?_, ?_⟩, ?_, hpc.2, hmd, hm⟩
  · intro t h1 h2 h3
    by_cases ht : t = EX1
    · rw [ht]
      exact ⟨d, hdn, by omega, hl1, by rw [hmd]; omega⟩
    · rw [hl t ht] at h3 ⊢
      obtain ⟨i, h4, h5, h6, h7⟩ := hp.occ t h1 h2 h3
      exact ⟨i, h4, by omega, h6, by rw [hm i (by omega)]; exact h7⟩
  · intro i h0 h1
    by_cases hi : i = d
    · rw [hi, hmd]
      refine ⟨by omega, by omega, ?_⟩
      intro _
      exact hl1
    · have h2 := hp.live i h0 (by omega)
      have h3 := hh i h0 (by omega)
      rw [hm i hi]
      refine ⟨h2.1, h2.2.1, ?_⟩
      intro h5
      rw [hl _ (by omega)]
      exact h2.2.2 h5
  · intro i j h0 h1 h2
    by_cases hj : j = d
    · have h3 := hp.live i h0 (by omega)
      have h4 := hh i h0 (by omega)
      rw [hj, hmd, hm i (by omega)]
      omega
    · rw [hm i (by omega), hm j hj]
      exact hp.order i j h0 h1 (by omega)
  · rw [hg.1]
    have hc := hp.cnt
    refine ⟨hc.1, by omega, ?_⟩
    intro i h0 h1
    by_cases hi : i = d
    · rw [hi, hmd]
      constructor
      · intro h
        omega
      · intro h
        omega
    · rw [hm i hi]
      exact hc.2.2 i h0 (by omega)
  · left
    refine ⟨by rw [hfr.2.2.2.2.2.1]; exact hpc.1, by rw [hF], ?_⟩
    rw [hd.2.2.2, if_neg (fun h => h.2 hy)]

/-- `fetch` on a straight-line run: it hands the instruction with index `d` to a
free Decode and does nothing when Decode holds an instruction back. -/
theorem fetch_flow_pos (cm0 : Int → APEX_Instruction) (s : APEX_CPU) (d : Int)
    (hb : flow_base cm0 s) (hp : flow_pos s d) (hf : front_mid s d) :
    flow_pos (fetch s) d ∧ front_start (fetch s) d
    ∧ (∀ i, i ≠ d → marker (fetch s) i = marker s i)
    ∧ (fetch_hands_off s ↔ s.pc = 4000 + 4 * d) := by
  have hg := fetch_frame_more s
  have he := fetch_effect s
  have hl : ∀ u, latch (fetch s) u = latch s u := fetch_latch s
  have hiff : fetch_hands_off s ↔ s.pc = 4000 + 4 * d := by
    rcases hf with ⟨h1, h2, h3⟩ | ⟨h1, h2, h3⟩
    · exact ⟨fun _ => h1, fun _ => ⟨hb.fbusy, h2, h3⟩⟩
    · constructor
      · intro h
        exact absurd h.2.2 h3
      · intro h
        omega
  have hm : ∀ i, i ≠ d → marker (fetch s) i = marker s i := by
    intro i hi
    rw [fetch_marker, if_neg]
    intro h
    have h1 := hiff.mp h.1
    rw [h1, get_code_index_pc] at h
    exact hi h.2
  refine ⟨⟨hp.dnn, ?_, ?_, ?_, ?_⟩, ?_, hm, hiff⟩
  · intro t h1 h2 h3
    rw [hl] at h3 ⊢
    obtain ⟨i, h4, h5, h6, h7⟩ := hp.occ t h1 h2 h3
    exact ⟨i, h4, h5, h6, by rw [hm i (by omega)]; exact h7⟩
  · intro i h0 h1
    rw [hm i (by omega), hl]
    exact hp.live i h0 h1
  · intro i j h0 h1 h2
    rw [hm i (by omega), hm j (by omega)]
    exact hp.order i j h0 h1 h2
  · rw [hg.1]
    have hc := hp.cnt
    refine ⟨hc.1, hc.2.1, ?_⟩
    intro i h0 h1
    rw [hm i (by omega)]
    exact hc.2.2 i h0 h1
  · right
    by_cases hh : fetch_hands_off s
    · have h1 := he.2.1 hh
      have h2 := hiff.mp hh
      rw [h1.1, h1.2.1, h2]
      exact ⟨by ring, rfl⟩
    · have h1 := he.2.2 hh
      rw [h1.1, h1.2]
      rcases hf with ⟨h2, h3, h4⟩ | ⟨h2, h3, h4⟩
      · exact absurd ⟨hb.fbusy, h3, h4⟩ hh
      · exact ⟨h2, h3⟩

/-- The invariants of a straight-line run do not depend on `clock`. -/
theorem flow_clock (cm0 : Int → APEX_Instruction) (s : APEX_CPU) (d c : Int)
    (hb : flow_base cm0 s) (hp : flow_pos s d) (hf : front_start s d) :
    flow_base cm0 { s with clock := c } ∧ flow_pos { s with clock := c } d
    ∧ front_start { s with clock := c } d :=
  ⟨⟨hb.flush, hb.halt, hb.fbusy, hb.dbusy, hb.dplain, hb.cEX1, hb.cEX2, hb.cMEM1, hb.cMEM2,
      hb.cWB, hb.code, hb.cplain⟩,
    ⟨hp.dnn, hp.occ, hp.live, hp.order, hp.cnt⟩, hf⟩

/-! ### Straight-line programs: one iteration -/

/-- `writeback` takes the invariant at the start of an iteration to the one
before `memory2`. -/
theorem flow_writeback (cm0 : Int → APEX_Instruction) (s : APEX_CPU) (d : Int)
    (h : flow cm0 s d) : flow_at cm0 (before_memory2 s) d 5 := by
  have hf := writeback_frame s
  have ha := writeback_advances s h.base.cWB.2.2
  have hp := advances_flow_pos WB s (writeback s).1 d (by decide) (by decide)
    ⟨h.base.cWB.1, h.base.cWB.2.1⟩ h.pos (fun h6 => absurd h6 (by decide)) ha
  refine ⟨writeback_flow_base cm0 s h.base, hp.1, ?_, hp.2⟩
  unfold front_start before_memory2
  rw [hf.2.2.2.2.2.2.2.2.1, hf.2.2.2.1, hf.2.2.1]
  exact h.front

/-- `memory2` takes the invariant on. -/
theorem flow_memory2 (cm0 : Int → APEX_Instruction) (s : APEX_CPU) (d : Int)
    (h : flow_at cm0 s d 5) : flow_at cm0 (memory2 s) d 4 := by
  have hf := memory2_frame s
  have ha := memory2_advances s
  have hp := advances_flow_pos MEM2 s (memory2 s) d (by decide) (by decide)
    ⟨h.base.cMEM2.1, h.base.cMEM2.2.1⟩ h.pos (fun _ => h.hole) ha
  refine ⟨memory2_flow_base cm0 s h.base, hp.1, ?_, hp.2⟩
  unfold front_start
  rw [hf.2.2.2.2.2.2.2.1, hf.2.2.2.1, hf.2.2.1]
  exact h.front

/-- `memory1` takes the invariant on. -/
theorem flow_memory1 (cm0 : Int → APEX_Instruction) (s : APEX_CPU) (d : Int)
    (h : flow_at cm0 s d 4) : flow_at cm0 (memory1 s) d 3 := by
  have hf := memory1_frame s
  have ha := memory1_advances s
  have hp := advances_flow_pos MEM1 s (memory1 s) d (by decide) (by decide)
    ⟨h.base.cMEM1.1, h.base.cMEM1.2.1⟩ h.pos (fun _ => h.hole) ha
  refine ⟨memory1_flow_base cm0 s h.base, hp.1, ?_, hp.2⟩
  unfold front_start
  rw [hf.2.2.2.2.2.2.1, hf.2.2.2.1, hf.2.2.1]
  exact h.front

/-- `execute2` takes the invariant on. -/
theorem flow_execute2 (cm0 : Int → APEX_Instruction) (s : APEX_CPU) (d : Int)
    (h : flow_at cm0 s d 3) : flow_at cm0 (execute2 s) d 2 := by
  have hf := execute2_frame s
  have ha := execute2_advances s
  have hp := advances_flow_pos EX2 s (execute2 s) d (by decide) (by decide)
    ⟨h.base.cEX2.1, h.base.cEX2.2.1⟩ h.pos (fun _ => h.hole) ha
  refine ⟨execute2_flow_base cm0 s h.base, hp.1, ?_, hp.2⟩
  unfold front_start
  rw [hf.2.2.2.2.1, hf.2.1, hf.1]
  exact h.front

/-- `execute1` takes the invariant on. -/
theorem flow_execute1 (cm0 : Int → APEX_Instruction) (s : APEX_CPU) (d : Int)
    (h : flow_at cm0 s d 2) : flow_at cm0 (execute1 s) d 1 := by
  have hf := execute1_frame s
  have ha := execute1_advances s
  have hp := advances_flow_pos EX1 s (execute1 s) d (by decide) (by decide)
    ⟨h.base.cEX1.1, h.base.cEX1.2.1⟩ h.pos (fun _ => h.hole) ha
  refine ⟨execute1_flow_base cm0 s h.base, hp.1, ?_, hp.2⟩
  unfold front_start
  rw [hf.2.2.2.2.2.2.2.1, hf.2.2.2.1, hf.2.2.1]
  exact h.front

/-- The invariant at each of the five points of an iteration between
`writeback` and `decode`. -/
theorem flow_before (cm0 : Int → APEX_Instruction) (s : APEX_CPU) (d : Int)
    (h : flow cm0 s d) :
    flow_at cm0 (before_memory2 s) d 5 ∧ flow_at cm0 (before_memory1 s) d 4
    ∧ flow_at cm0 (before_execute2 s) d 3 ∧ flow_at cm0 (before_execute1 s) d 2
    ∧ flow_at cm0 (before_decode s) d 1 := by
  have h5 := flow_writeback cm0 s d h
  have h4 := flow_memory2 cm0 _ d h5
  have h3 := flow_memory1 cm0 _ d h4
  have h2 := flow_execute2 cm0 _ d h3
  have h1 := flow_execute1 cm0 _ d h2
  exact ⟨h5, h4, h3, h2, h1⟩

/-- The markers of the instructions behind Decode when `decode` runs: each
marker below `WB` has gone up by one since the start of the iteration. -/
theorem flow_markers_before_decode (cm0 : Int → APEX_Instruction) (s : APEX_CPU) (d : Int)
    (h : flow cm0 s d) (i : Int) (h0 : 0 ≤ i) (h1 : i < d) :
    marker (before_decode s) i = if marker s i ≤ 5 then marker s i + 1 else marker s i := by
  obtain ⟨h5, h4, h3, h2, -⟩ := flow_before cm0 s d h
  have a6 := (advances_step WB s (writeback s).1 d (by decide) (by decide)
    ⟨h.base.cWB.1, h.base.cWB.2.1⟩ h.pos (writeback_advances s h.base.cWB.2.2)).1 i h0 h1
  have a5 := (advances_step MEM2 _ _ d (by decide) (by decide)
    ⟨h5.base.cMEM2.1, h5.base.cMEM2.2.1⟩ h5.pos (memory2_advances (before_memory2 s))).1 i h0 h1
  have a4 := (advances_step MEM1 _ _ d (by decide) (by decide)
    ⟨h4.base.cMEM1.1, h4.base.cMEM1.2.1⟩ h4.pos (memory1_advances (before_memory1 s))).1 i h0 h1
  have a3 := (advances_step EX2 _ _ d (by decide) (by decide)
    ⟨h3.base.cEX2.1, h3.base.cEX2.2.1⟩ h3.pos (execute2_advances (before_execute2 s))).1 i h0 h1
  have a2 := (advances_step EX1 _ _ d (by decide) (by decide)
    ⟨h2.base.cEX1.1, h2.base.cEX1.2.1⟩ h2.pos (execute1_advances (before_execute1 s))).1 i h0 h1
  have hl := h.pos.live i h0 h1
  have e2 : EX1 = 2 := rfl
  have e3 : EX2 = 3 := rfl
  have e4 : MEM1 = 4 := rfl
  have e5 : MEM2 = 5 := rfl
  have e6 : WB = 6 := rfl
  change marker (memory2 (before_memory2 s)) i = _ at a5
  change marker (memory1 (before_memory1 s)) i = _ at a4
  change marker (execute2 (before_execute2 s)) i = _ at a3
  change marker (execute1 (before_execute1 s)) i = _ at a2
  change marker (execute1 (before_execute1 s)) i = _
  have b6 : marker (before_memory2 s) i = if marker s i = 5 then 6 else marker s i := a6
  have b5 : marker (before_memory1 s) i =
      if marker (before_memory2 s) i = 4 then 5 else marker (before_memory2 s) i := a5
  have b4 : marker (before_execute2 s) i =
      if marker (before_memory1 s) i = 3 then 4 else marker (before_memory1 s) i := a4
  have b3 : marker (before_execute1 s) i =
      if marker (before_execute2 s) i = 2 then 3 else marker (before_execute2 s) i := a3
  have b2 : marker (execute1 (before_execute1 s)) i =
      if marker (before_execute1 s) i = 1 then 2 else marker (before_execute1 s) i := a2
  rw [b2, b3, b4, b5, b6]
  split_ifs <;> omega

/-- The state after the stage calls of an iteration of a straight-line run: the
reconciliation has nothing to do. -/
theorem flow_cycle_state (cm0 : Int → APEX_Instruction) (s : APEX_CPU) (d : Int)
    (h : flow cm0 s d) : (cycle s).1 = fetch (before_fetch s) := by
  obtain ⟨-, -, -, -, h1⟩ := flow_before cm0 s d h
  have hb := fetch_flow_base cm0 _ (decode_flow_base cm0 _ h1.base)
  exact reconcile_idle _ hb.flush hb.halt

/-- The instruction counter after an iteration of a straight-line run. -/
theorem flow_ins_completed (cm0 : Int → APEX_Instruction) (s : APEX_CPU) (d : Int)
    (h : flow cm0 s d) :
    (loop_body s).ins_completed =
      if writeback_processes s then s.ins_completed + 1 else s.ins_completed := by
  have hc : (loop_body s).ins_completed = (cycle s).1.ins_completed := rfl
  rw [hc, flow_cycle_state cm0 s d h]
  unfold before_fetch before_decode before_execute1 before_execute2 before_memory1 before_memory2
  rw [(fetch_frame_more _).1, (decode_frame_more _).1, (execute1_frame_more _).1,
    (execute2_frame_more _).2.2.1, (memory1_frame_more _).2.1, (memory2_frame_more _).1]
  have ha := (writeback_advances s h.base.cWB.2.2).count
  rw [ha]
  by_cases hp : writeback_processes s
  · rw [if_pos hp, if_pos ⟨rfl, hp⟩]
  · rw [if_neg hp, if_neg (fun hh => hp hh.2)]

/-- One iteration of a straight-line run: the invariant holds again at the start
of the next iteration, with one more instruction behind Decode exactly when
`decode` hands off; the markers below `WB` of the instructions behind Decode go
up by one. -/
theorem flow_step (cm0 : Int → APEX_Instruction) (s : APEX_CPU) (d : Int)
    (h : flow cm0 s d) :
    (decode_hands_off (before_decode s) →
        flow cm0 (loop_body s) (d + 1) ∧ marker (loop_body s) d = 1
        ∧ (before_decode s).stage_DRF.pc = 4000 + 4 * d)
    ∧ (¬ decode_hands_off (before_decode s) → flow cm0 (loop_body s) d)
    ∧ (∀ i, 0 ≤ i → i < d →
        marker (loop_body s) i = if marker s i ≤ 5 then marker s i + 1 else marker s i) := by
  obtain ⟨-, -, -, -, h1⟩ := flow_before cm0 s d h
  have hst := flow_cycle_state cm0 s d h
  have hmk : ∀ i, marker (loop_body s) i = marker (fetch (before_fetch s)) i := by
    intro i
    have h0 : marker (loop_body s) i = marker (cycle s).1 i := rfl
    rw [h0, hst]
  have hbase := decode_flow_base cm0 _ h1.base
  refine ⟨?_, ?_, ?_⟩
  · intro hy
    obtain ⟨hp, hf, hpc, hmd, hm⟩ := decode_flow_pos_hand_off _ d h1.pos h1.front h1.hole hy
    obtain ⟨hp2, hf2, hm2, -⟩ := fetch_flow_pos cm0 _ (d + 1) hbase hp hf
    have hfb := fetch_flow_base cm0 _ hbase
    have hcl := flow_clock cm0 (fetch (before_fetch s)) (d + 1)
      ((fetch (before_fetch s)).clock + 1) hfb hp2 hf2
    refine ⟨?_, ?_, hpc⟩
    · unfold loop_body
      rw [hst]
      exact ⟨hcl.1, hcl.2.1, hcl.2.2⟩
    · rw [hmk]
      exact (hm2 d (by omega)).trans hmd
  · intro hn
    obtain ⟨hp, hf, hm⟩ := decode_flow_pos_stall cm0 _ d h1.base h1.pos h1.front hn
    obtain ⟨hp2, hf2, hm2, -⟩ := fetch_flow_pos cm0 _ d hbase hp hf
    have hfb := fetch_flow_base cm0 _ hbase
    have hcl := flow_clock cm0 (fetch (before_fetch s)) d
      ((fetch (before_fetch s)).clock + 1) hfb hp2 hf2
    unfold loop_body
    rw [hst]
    exact ⟨hcl.1, hcl.2.1, hcl.2.2⟩
  · intro i h0 hi
    rw [hmk, ← flow_markers_before_decode cm0 s d h i h0 hi]
    by_cases hy : decode_hands_off (before_decode s)
    · obtain ⟨hp, hf, hpc, hmd, hm⟩ := decode_flow_pos_hand_off _ d h1.pos h1.front h1.hole hy
      obtain ⟨hp2, hf2, hm2, -⟩ := fetch_flow_pos cm0 _ (d + 1) hbase hp hf
      exact (hm2 i (by omega)).trans (hm i (by omega))
    · obtain ⟨hp, hf, hm⟩ := decode_flow_pos_stall cm0 _ d h1.base h1.pos h1.front hy
      obtain ⟨hp2, hf2, hm2, -⟩ := fetch_flow_pos cm0 _ d hbase hp hf
      exact (hm2 i (by omega)).trans (hm i)

/-! ### Straight-line programs: the whole run -/

/-- No iteration changes `code_memory_size`. -/
theorem loop_body_size (s : APEX_CPU) :
    (loop_body s).code_memory_size = s.code_memory_size := by
  have h : (loop_body s).code_memory_size = (cycle s).1.code_memory_size := rfl
  rw [h]
  unfold cycle
  simp only []
  rw [(reconcile_frame _).2.2.2.2.1, (fetch_frame _).2.2.2.2.2.2.2.1,
    (decode_frame _).2.2.2.2.2.2.1, (execute1_frame _).2.2.2.2.2.2.2.2.1,
    (execute2_frame _).2.2.2.2.2.1, (memory1_frame _).2.2.2.2.2.2.2.1,
    (memory2_frame _).2.2.2.2.2.2.2.2.1, (writeback_frame _).2.2.2.2.2.2.2.2.2]

/-- The size of the instruction store at the start of the `k`-th iteration. -/
theorem at_cycle_size (s : APEX_CPU) (k : Nat) :
    (at_cycle s k).code_memory_size = s.code_memory_size := by
  induction k with
  | zero => rfl
  | succ n ih =>
    have h : at_cycle s (n + 1) = loop_body (at_cycle s n) := rfl
    rw [h, loop_body_size, ih]

/-- What `writeback` returns when its latch holds a plain opcode: 1 exactly for
an occupied latch whose index is `code_memory_size`. -/
theorem writeback_result_plain (s : APEX_CPU) (hop : plain s.stage_WB.opcode) :
    (writeback s).2 =
      if s.stage_WB.pc ≥ 4000 ∧ get_code_index s.stage_WB.pc = s.code_memory_size then 1
      else 0 := by
  have hnh : s.stage_WB.opcode ≠ "HALT" := hop.2.2.2
  unfold writeback writeback_exit
  simp only []
  split_ifs <;> simp_all

/-- The initial state satisfies the invariant of straight-line runs, with no
instruction behind Decode. -/
theorem flow_init (cm0 : Int → APEX_Instruction) (n flag : Int)
    (hpl : ∀ i, plain (cm0 i).opcode) :
    flow cm0 (enter_run (APEX_cpu_init cm0 n) flag) 0 := by
  have hc : clean empty_stage := by
    unfold clean
    exact ⟨rfl, rfl, by decide⟩
  have hpe : plain empty_stage.opcode := by decide
  have h0 : (0 : Int) < 4000 := by decide
  refine ⟨⟨rfl, rfl, rfl, rfl, hpe, hc, hc, hc, hc, hc, ?_, hpl⟩,
    ⟨le_refl 0, ?_, ?_, ?_, ?_⟩, ?_⟩
  · intro i
    exact same_instruction_refl _
  · intro t h1 h2 h3
    have h4 : (latch (enter_run (APEX_cpu_init cm0 n) flag) t).pc = 0 := by
      unfold latch
      split_ifs <;> rfl
    omega
  · intro i h0 h1
    omega
  · intro i j h0 h1 h2
    omega
  · refine ⟨le_refl 0, le_refl 0, ?_⟩
    intro i h0 h1
    omega
  · left
    exact ⟨rfl, rfl, h0, rfl⟩

/-- The invariant of straight-line runs holds at the start of every iteration,
and the number of instructions behind Decode does not go down. -/
theorem flow_at_cycle (cm0 : Int → APEX_Instruction) (s : APEX_CPU) (d : Int)
    (h : flow cm0 s d) (k : Nat) : ∃ d', d ≤ d' ∧ flow cm0 (at_cycle s k) d' := by
  induction k with
  | zero => exact ⟨d, le_refl d, h⟩
  | succ n ih =>
    obtain ⟨d1, h1, h2⟩ := ih
    have hs := flow_step cm0 (at_cycle s n) d1 h2
    by_cases hy : decode_hands_off (before_decode (at_cycle s n))
    · exact ⟨d1 + 1, by omega, (hs.1 hy).1⟩
    · exact ⟨d1, h1, hs.2.1 hy⟩

/-- In a straight-line run the instruction that `writeback` processes is the
oldest one that has not finished Writeback: its index is `ins_completed`. -/
theorem flow_writeback_index (cm0 : Int → APEX_Instruction) (s : APEX_CPU) (d : Int)
    (h : flow cm0 s d) (hw : writeback_processes s) :
    s.stage_WB.pc = 4000 + 4 * s.ins_completed ∧ s.ins_completed < d
    ∧ marker s s.ins_completed = 5 := by
  have hst := advances_step WB s (writeback s).1 d (by decide) (by decide)
    ⟨h.base.cWB.1, h.base.cWB.2.1⟩ h.pos (writeback_advances s h.base.cWB.2.2)
  obtain ⟨i0, h0, h1, h2, h3⟩ := hst.2.2.1 hw
  have e6 : WB = 6 := rfl
  have hcn := h.pos.cnt
  have hge : s.ins_completed ≤ i0 := by
    by_contra hlt
    have := (hcn.2.2 i0 h0 h1).mpr (by omega)
    omega
  have hle : i0 ≤ s.ins_completed := by
    by_contra hlt
    have hic : marker s s.ins_completed ≠ 6 := by
      intro h
      have := (hcn.2.2 s.ins_completed hcn.1 (by omega)).mp h
      omega
    have ho := h.pos.order s.ins_completed i0 hcn.1 (by omega) h1
    have hl := h.pos.live s.ins_completed hcn.1 (by omega)
    omega
  have hi : i0 = s.ins_completed := by omega
  rw [← hi]
  exact ⟨h2, h1, by omega⟩

/-- In a straight-line run, as long as `writeback` has not returned the stop
signal, no more instructions have finished Writeback than the store holds. -/
theorem flow_count_bounded (cm0 : Int → APEX_Instruction) (s : APEX_CPU)
    (h : flow cm0 s 0) (hic : s.ins_completed ≤ s.code_memory_size) (T : Nat)
    (hrun : ∀ j : Nat, j < T → (cycle (at_cycle s j)).2 = 0) (k : Nat) (hk : k ≤ T) :
    (at_cycle s k).ins_completed ≤ s.code_memory_size := by
  induction k with
  | zero => exact hic
  | succ m ih =>
    have ih1 := ih (by omega)
    obtain ⟨d, -, hf⟩ := flow_at_cycle cm0 s 0 h m
    have hst : at_cycle s (m + 1) = loop_body (at_cycle s m) := rfl
    rw [hst, flow_ins_completed cm0 _ d hf]
    split_ifs with hw
    · have hi := flow_writeback_index cm0 _ d hf hw
      have hr := hrun m (by omega)
      have hr2 : (writeback (at_cycle s m)).2 = 0 := hr
      rw [writeback_result_plain _ hf.base.cWB.2.2] at hr2
      have hnot : ¬ ((at_cycle s m).stage_WB.pc ≥ 4000
          ∧ get_code_index (at_cycle s m).stage_WB.pc = (at_cycle s m).code_memory_size) := by
        intro hc
        rw [if_pos hc] at hr2
        exact absurd hr2 (by decide)
      rw [hi.1, get_code_index_pc, at_cycle_size] at hnot
      have h0 := hf.pos.cnt.1
      have hne : (at_cycle s m).ins_completed ≠ s.code_memory_size := by
        intro hc
        exact hnot ⟨by omega, hc⟩
      omega
    · exact ih1

/-- Iterating from the state at the start of the `j`-th iteration. -/
theorem at_cycle_add (s : APEX_CPU) (j m : Nat) :
    at_cycle (at_cycle s j) m = at_cycle s (j + m) := by
  induction m with
  | zero => rfl
  | succ n ih =>
    have h1 : at_cycle (at_cycle s j) (n + 1) = loop_body (at_cycle (at_cycle s j) n) := rfl
    have h2 : at_cycle s (j + (n + 1)) = loop_body (at_cycle s (j + n)) := rfl
    rw [h1, h2, ih]

/-- In a straight-line run `writeback` processes the instruction behind Decode
whose marker is `MEM2`. -/
theorem flow_writeback_processes (cm0 : Int → APEX_Instruction) (s : APEX_CPU) (d i : Int)
    (h : flow cm0 s d) (h0 : 0 ≤ i) (h1 : i < d) (hm : marker s i = 5) :
    writeback_processes s ∧ s.stage_WB.pc = 4000 + 4 * i := by
  have hl := (h.pos.live i h0 h1).2.2 (by omega)
  rw [hm] at hl
  have hpc : s.stage_WB.pc = 4000 + 4 * i := hl
  refine ⟨⟨by omega, h.base.cWB.1, h.base.cWB.2.1, ?_⟩, hpc⟩
  rw [hpc, get_code_index_pc]
  have h5 : marker s i < 6 := by omega
  exact h5

/-- In a straight-line run, if `writeback` returns the stop signal then the
instruction with index `code_memory_size` is behind Decode and has finished
Memory2. -/
theorem flow_stop (cm0 : Int → APEX_Instruction) (s : APEX_CPU) (d : Int)
    (h : flow cm0 s d) (hs : (cycle s).2 ≠ 0) :
    0 ≤ s.code_memory_size ∧ s.code_memory_size < d ∧ 5 ≤ marker s s.code_memory_size := by
  have hr : (writeback s).2 ≠ 0 := hs
  rw [writeback_result_plain _ h.base.cWB.2.2] at hr
  have hc : s.stage_WB.pc ≥ 4000 ∧ get_code_index s.stage_WB.pc = s.code_memory_size := by
    by_contra hn
    rw [if_neg hn] at hr
    exact hr rfl
  obtain ⟨i, h0, h1, h2, h3⟩ := h.pos.occ WB (by decide) (by decide) hc.1
  have hi := hc.2
  rw [show s.stage_WB.pc = 4000 + 4 * i from h2, get_code_index_pc] at hi
  rw [← hi]
  have e6 : WB = 6 := rfl
  exact ⟨h0, h1, by omega⟩

/-! ### C14: latency of an instruction -/

/-- The architectural state behind the entry with index `i`. -/
theorem arch_at_succ (cm : Int → APEX_Instruction) (i : Int) (h : 0 ≤ i) :
    arch_at cm (i + 1) = sequential_step (cm i) (arch_at cm i) := by
  unfold arch_at
  have h1 : (i + 1).toNat = i.toNat + 1 := by omega
  rw [h1]
  show sequential_step (cm (i.toNat : Int)) (arch_after cm i.toNat) = _
  rw [Int.toNat_of_nonneg h]

/-- The architectural state before the first entry. -/
theorem arch_at_zero (cm : Int → APEX_Instruction) : arch_at cm 0 = arch_init := rfl

/-- An instruction changes at most its destination register and the condition
code. -/
theorem sequential_step_regs (x : APEX_Instruction) (a : Arch) (r : Int) (h1 : r ≠ x.rd)
    (h2 : r ≠ CC) : (sequential_step x a).regs r = a.regs r := by
  unfold sequential_step
  split_ifs <;> simp [store, h1, h2]

/-- A record with the empty opcode has no effect. -/
theorem sequential_step_blank (x : APEX_Instruction) (a : Arch) (h : x.opcode = "") :
    sequential_step x a = a := by
  unfold sequential_step
  rw [h]
  simp [is_arith]

/-- A register keeps its value over a stretch of the store in which no entry
has it as destination. -/
theorem arch_at_regs_stable (cm : Int → APEX_Instruction) (r : Int) (hr : r ≠ CC) (lo : Int)
    (hlo : 0 ≤ lo) (k : Nat) (h : ∀ j, lo ≤ j → j < lo + k → (cm j).rd ≠ r) :
    (arch_at cm (lo + k)).regs r = (arch_at cm lo).regs r := by
  induction k with
  | zero => simp
  | succ n ih =>
    have h1 : lo + ((n + 1 : Nat) : Int) = (lo + n) + 1 := by push_cast; ring
    rw [h1, arch_at_succ cm (lo + n) (by omega),
      sequential_step_regs _ _ r (fun hc => h (lo + n) (by omega) (by push_cast; omega) hc.symm) hr]
    exact ih (fun j hj1 hj2 => h j hj1 (by push_cast; omega))

/-- The reference execution of a loaded program, entry by entry, is the
reference execution of the program. -/
theorem arch_after_load (rest : List APEX_Instruction) (a : Arch) (k : Nat)
    (cm : Int → APEX_Instruction)
    (hcm : ∀ j : Nat, j < rest.length → cm ((k + j : Nat) : Int) = rest.getD j blank)
    (ha : arch_after cm k = a) :
    arch_after cm (k + rest.length) = sequential_run rest a := by
  induction rest generalizing k a with
  | nil => simpa [sequential_run] using ha
  | cons x xs ih =>
    have h0 := hcm 0 (by simp)
    simp only [Nat.add_zero, List.getD_cons_zero] at h0
    have hstep : arch_after cm (k + 1) = sequential_step x a := by
      show sequential_step (cm k) (arch_after cm k) = _
      rw [h0, ha]
    have h2 := ih (sequential_step x a) (k + 1) (fun j hj => by
      have h3 := hcm (j + 1) (by simp; omega)
      simp only [List.getD_cons_succ] at h3
      rw [← h3]
      congr 2
      omega) hstep
    have hl : k + (x :: xs).length = k + 1 + xs.length := by simp; omega
    rw [hl, h2]
    rfl

/-! ### Straight-line programs: the data in the latches -/

/-- The computation of `execute1` keeps the immediate and the operand values. -/
theorem execute1_compute_operands (l : CPU_Stage) :
    (execute1_compute l).imm = l.imm ∧ (execute1_compute l).rs1_value = l.rs1_value
    ∧ (execute1_compute l).rs2_value = l.rs2_value := by
  have hd : (execute1_dispatch l).imm = l.imm ∧ (execute1_dispatch l).rs1_value = l.rs1_value
      ∧ (execute1_dispatch l).rs2_value = l.rs2_value := by
    unfold execute1_dispatch
    simp only [apply_ite CPU_Stage.imm, apply_ite CPU_Stage.rs1_value,
      apply_ite CPU_Stage.rs2_value, ite_self, and_self]
  unfold execute1_compute
  split_ifs <;> simp [hd.1, hd.2.1, hd.2.2]

/-- What `execute1` computes for the opcodes of `regular` records. -/
theorem execute1_compute_regular (l : CPU_Stage) :
    (l.opcode = "MOVC" → (execute1_compute l).buffer = wrap32 l.imm)
    ∧ (l.opcode = "ADD" → (execute1_compute l).buffer = wrap32 (l.rs1_value + l.rs2_value))
    ∧ (l.opcode = "SUB" → (execute1_compute l).buffer = wrap32 (l.rs1_value - l.rs2_value))
    ∧ (l.opcode = "MUL" → (execute1_compute l).buffer = wrap32 (l.rs1_value * l.rs2_value))
    ∧ (l.opcode = "ADDL" → (execute1_compute l).buffer = wrap32 (l.rs1_value + l.imm))
    ∧ (l.opcode = "SUBL" → (execute1_compute l).buffer = wrap32 (l.rs1_value - l.imm))
    ∧ (l.opcode = "AND" → (execute1_compute l).buffer = Int.land l.rs1_value l.rs2_value)
    ∧ (l.opcode = "OR" → (execute1_compute l).buffer = Int.lor l.rs1_value l.rs2_value)
    ∧ (l.opcode = "EX-OR" → (execute1_compute l).buffer = Int.xor l.rs1_value l.rs2_value)
    ∧ (l.opcode = "LOAD" → (execute1_compute l).mem_address = wrap32 (l.rs1_value + l.imm))
    ∧ (l.opcode = "STORE" → (execute1_compute l).mem_address = wrap32 (l.rs2_value + l.imm)) := by
  refine ⟨?_, ?_, ?_, ?_, ?_, ?_, ?_, ?_, ?_, ?_, ?_⟩ <;> intro hop <;>
    simp [execute1_compute, execute1_dispatch, hop]

/-- `execute1` turns a latch that carries a decoded instruction into one that
carries the executed instruction. -/
theorem carries_execute1 (cm0 : Int → APEX_Instruction) (l : CPU_Stage) (i : Int)
    (h : carries cm0 l i 1) :
    carries cm0 (execute1_compute { l with is_empty := 0 }) i 2 := by
  have hk := execute1_compute_keeps { l with is_empty := 0 }
  have ho := execute1_compute_operands { l with is_empty := 0 }
  have hc := execute1_compute_regular { l with is_empty := 0 }
  obtain ⟨h1, h2, h3, h4, h5, -, -, -⟩ := h
  have hop : ({ l with is_empty := 0 } : CPU_Stage).opcode = (cm0 i).opcode := h1
  refine ⟨by rw [hk.2.1]; exact h1, by rw [hk.2.2.1]; exact h2, by rw [ho.1]; exact h3,
    fun hr => by rw [ho.2.1]; exact h4 hr, fun hr => by rw [ho.2.2]; exact h5 hr, ?_, ?_, ?_⟩
  · intro _ hcomp
    unfold sequential_value
    rcases hcomp with hm | ht | ht
    · rw [hc.1 (hop.trans hm), if_pos hm]
      exact congrArg wrap32 h3
    · have hr1 := h4 (Or.inl ht)
      have hr2 := h5 (Or.inl ht)
      rcases ht with hx | hx | hx | hx | hx | hx
      · rw [hc.2.1 (hop.trans hx)]
        simp [hx, ← hr1, ← hr2]
      · rw [hc.2.2.1 (hop.trans hx)]
        simp [hx, ← hr1, ← hr2]
      · rw [hc.2.2.2.1 (hop.trans hx)]
        simp [hx, ← hr1, ← hr2]
      · rw [hc.2.2.2.2.2.2.1 (hop.trans hx)]
        simp [hx, ← hr1, ← hr2]
      · rw [hc.2.2.2.2.2.2.2.1 (hop.trans hx)]
        simp [hx, ← hr1, ← hr2]
      · rw [hc.2.2.2.2.2.2.2.2.1 (hop.trans hx)]
        simp [hx, ← hr1, ← hr2]
    · have hr1 := h4 (Or.inr (Or.inl ht))
      rcases ht with hx | hx
      · rw [hc.2.2.2.2.1 (hop.trans hx)]
        simp [hx, ← hr1, ← h3]
      · rw [hc.2.2.2.2.2.1 (hop.trans hx)]
        simp [hx, ← hr1, ← h3]
  · intro _ hmem
    unfold sequential_address
    rcases hmem with hx | hx
    · have hr1 := h4 (Or.inr (Or.inr (Or.inl hx)))
      rw [hc.2.2.2.2.2.2.2.2.2.1 (hop.trans hx), if_pos hx]
      simp [← hr1, ← h3]
    · have hr2 := h5 (Or.inr hx)
      rw [hc.2.2.2.2.2.2.2.2.2.2 (hop.trans hx), if_neg (by rw [hx]; decide)]
      simp [← hr2, ← h3]
  · intro h5
    omega

/-- The opcode chain of `decode` for the opcodes of `regular` records. -/
theorem decode_read_regular (s : APEX_CPU) (l : CPU_Stage) :
    (two_source l.opcode ∨ l.opcode = "STORE" →
        ((decode_read s l).is_stage_stalled = 0 ↔
          (s.regs_valid l.rs1 ≠ 0 ∧ s.regs_valid l.rs2 ≠ 0))
        ∧ ((decode_read s l).is_stage_stalled = 0 →
            (decode_read s l).stage =
              { l with rs1_value := s.regs l.rs1, rs2_value := s.regs l.rs2 }))
    ∧ (one_source l.opcode ∨ l.opcode = "LOAD" →
        ((decode_read s l).is_stage_stalled = 0 ↔ s.regs_valid l.rs1 ≠ 0)
        ∧ ((decode_read s l).is_stage_stalled = 0 →
            (decode_read s l).stage = { l with rs1_value := s.regs l.rs1 }))
    ∧ (l.opcode = "MOVC" ∨ l.opcode = "" →
        (decode_read s l).is_stage_stalled = 0 ∧ (decode_read s l).stage = l) := by
  refine ⟨?_, ?_, ?_⟩
  · intro hop
    have h2 : l.opcode = "ADD" ∨ l.opcode = "SUB" ∨ l.opcode = "MUL" ∨ l.opcode = "AND"
        ∨ l.opcode = "OR" ∨ l.opcode = "EX-OR" ∨ l.opcode = "LDR" ∨ l.opcode = "STORE" := by
      rcases hop with (h | h | h | h | h | h) | h <;> simp [h]
    have h1 : l.opcode ≠ "STR" := by
      rcases hop with (h | h | h | h | h | h) | h <;> rw [h] <;> decide
    unfold decode_read
    simp only []
    rw [if_neg h1, if_pos h2]
    split_ifs with hv
    · exact ⟨⟨fun _ => hv, fun _ => rfl⟩, fun _ => rfl⟩
    · have hne : ¬ ((1 : Int) = 0) := by decide
      exact ⟨⟨fun h => absurd h hne, fun h => absurd h hv⟩, fun h => absurd h hne⟩
  · intro hop
    have h3 : l.opcode = "ADDL" ∨ l.opcode = "SUBL" ∨ l.opcode = "LOAD" ∨ l.opcode = "JUMP" := by
      rcases hop with (h | h) | h <;> simp [h]
    have h1 : l.opcode ≠ "STR" := by
      rcases hop with (h | h) | h <;> rw [h] <;> decide
    have h2 : ¬ (l.opcode = "ADD" ∨ l.opcode = "SUB" ∨ l.opcode = "MUL" ∨ l.opcode = "AND"
        ∨ l.opcode = "OR" ∨ l.opcode = "EX-OR" ∨ l.opcode = "LDR" ∨ l.opcode = "STORE") := by
      rcases hop with (h | h) | h <;> rw [h] <;> decide
    unfold decode_read
    simp only []
    rw [if_neg h1, if_neg h2, if_pos h3]
    split_ifs with hv
    · exact ⟨⟨fun _ => hv, fun _ => rfl⟩, fun _ => rfl⟩
    · have hne : ¬ ((1 : Int) = 0) := by decide
      exact ⟨⟨fun h => absurd h hne, fun h => absurd h hv⟩, fun h => absurd h hne⟩
  · intro hop
    have h1 : l.opcode ≠ "STR" := by
      rcases hop with h | h <;> rw [h] <;> decide
    have h2 : ¬ (l.opcode = "ADD" ∨ l.opcode = "SUB" ∨ l.opcode = "MUL" ∨ l.opcode = "AND"
        ∨ l.opcode = "OR" ∨ l.opcode = "EX-OR" ∨ l.opcode = "LDR" ∨ l.opcode = "STORE") := by
      rcases hop with h | h <;> rw [h] <;> decide
    have h3 : ¬ (l.opcode = "ADDL" ∨ l.opcode = "SUBL" ∨ l.opcode = "LOAD"
        ∨ l.opcode = "JUMP") := by
      rcases hop with h | h <;> rw [h] <;> decide
    have h4 : ¬ (l.opcode = "BZ" ∨ l.opcode = "BNZ") := by
      rcases hop with h | h <;> rw [h] <;> decide
    have h5 : l.opcode ≠ "HALT" := by
      rcases hop with h | h <;> rw [h] <;> decide
    unfold decode_read
    simp only []
    rw [if_neg h1, if_neg h2, if_neg h3, if_neg h4, if_neg h5]
    exact ⟨rfl, rfl⟩

/-- A latch keeps carrying its instruction when it is copied to the next stage,
between Execute1 and Memory2. -/
theorem carries_copy (cm0 : Int → APEX_Instruction) (l : CPU_Stage) (i m m' : Int)
    (h : carries cm0 l i m) (h2 : 2 ≤ m) (h4 : m' ≤ 4) :
    carries cm0 { l with is_empty := 0 } i m' := by
  obtain ⟨h1, h2', h3, h4', h5, h6, h7, -⟩ := h
  exact ⟨h1, h2', h3, h4', h5, fun _ hc => h6 h2 hc, fun _ hc => h7 h2 hc,
    fun h5' => absurd h5' (by omega)⟩

/-- The Memory2 latch after `memory1`. -/
theorem memory1_stage_MEM2 (s : APEX_CPU) :
    (memory1 s).stage_MEM2 =
      if memory1_processes s then { s.stage_MEM1 with is_empty := 0 } else s.stage_MEM2 := by
  unfold memory1_processes memory1
  simp only []
  split_ifs <;> simp_all

/-- The Writeback latch and the data memory after `memory2`. -/
theorem memory2_effect (s : APEX_CPU) :
    (memory2 s).stage_WB =
      (if memory2_processes s then
        (if s.stage_MEM2.opcode = "STORE" ∨ s.stage_MEM2.opcode = "STR" then
          { s.stage_MEM2 with is_empty := 0 }
        else if s.stage_MEM2.opcode = "LOAD" ∨ s.stage_MEM2.opcode = "LDR" then
          { s.stage_MEM2 with
            is_empty := 0, buffer := s.data_memory s.stage_MEM2.mem_address }
        else { s.stage_MEM2 with is_empty := 0 })
      else s.stage_WB)
    ∧ (memory2 s).data_memory =
      (if memory2_processes s
          ∧ (s.stage_MEM2.opcode = "STORE" ∨ s.stage_MEM2.opcode = "STR") then
        store s.data_memory s.stage_MEM2.mem_address s.stage_MEM2.rs1_value
      else s.data_memory) := by
  unfold memory2_processes memory2
  simp only []
  constructor
  · split_ifs <;> simp_all
  · split_ifs <;> simp_all

/-- `memory2` turns a latch that carries an instruction into one that carries
it with the value of a `LOAD` read, provided the data memory is that of the
reference execution before the instruction. -/
theorem carries_memory2 (cm0 : Int → APEX_Instruction) (l : CPU_Stage) (i : Int)
    (dm : Int → Int) (h : carries cm0 l i 4) (hreg : regular (cm0 i))
    (hdm : dm = (arch_at cm0 i).mem) :
    carries cm0
      (if l.opcode = "STORE" ∨ l.opcode = "STR" then { l with is_empty := 0 }
       else if l.opcode = "LOAD" ∨ l.opcode = "LDR" then
        { l with is_empty := 0, buffer := dm l.mem_address }
      else { l with is_empty := 0 }) i 5 := by
  obtain ⟨h1, h2, h3, h4, h5, h6, h7, -⟩ := h
  have h24 : (2 : Int) ≤ 4 := by decide
  by_cases hl : (cm0 i).opcode = "LOAD"
  · have hl' : l.opcode = "LOAD" := h1.trans hl
    have hns : ¬ (l.opcode = "STORE" ∨ l.opcode = "STR") := by
      rw [hl']
      decide
    rw [if_neg hns, if_pos (Or.inl hl')]
    have hnc : ¬ computes (cm0 i).opcode := by
      rw [hl]
      unfold computes two_source one_source
      decide
    have ha := h7 h24 (Or.inl hl)
    have hr1 := h4 (Or.inr (Or.inr (Or.inl hl)))
    refine ⟨h1, h2, h3, h4, h5, fun _ hc => absurd hc hnc, fun _ hc => h7 h24 hc, ?_⟩
    intro _ _
    show dm l.mem_address = _
    rw [ha, hdm]
    unfold sequential_address sequential_value
    simp [hl]
  · have hkeep : carries cm0 { l with is_empty := 0 } i 5 :=
      ⟨h1, h2, h3, h4, h5, fun _ hc => h6 h24 hc, fun _ hc => h7 h24 hc,
        fun _ hc => absurd hc hl⟩
    have hl' : ¬ (l.opcode = "LOAD" ∨ l.opcode = "LDR") := by
      rw [h1]
      intro hc
      rcases hc with hc | hc
      · exact hl hc
      · unfold regular two_source one_source at hreg
        rw [hc] at hreg
        simp at hreg
    rw [if_neg hl']
    split_ifs
    · exact hkeep
    · exact hkeep

/-- A `regular` record holds a plain opcode. -/
theorem regular_plain (x : APEX_Instruction) (h : regular x) : plain x.opcode := by
  unfold regular two_source one_source at h
  unfold plain
  rcases h with ⟨h, -⟩ | ⟨h | h | h | h | h | h, -⟩ | ⟨h | h, -⟩ | ⟨h, -⟩ | ⟨h, -⟩ | ⟨h, -⟩ <;>
    rw [h] <;> decide

/-- The data invariant along `execute2` and `memory1`, the two stages that only
copy their latch to the next one. -/
theorem flow_data_copy (cm0 : Int → APEX_Instruction) (t : Int) (s s' : APEX_CPU) (d : Int)
    (ht : t = EX2 ∨ t = MEM1) (hfa : flow_at cm0 s d t) (hd : flow_data cm0 s d)
    (hcl : (latch s t).busy = 0 ∧ (latch s t).stalled = 0)
    (ha : advances t s s') (hregs : s'.regs = s.regs) (hrv : s'.regs_valid = s.regs_valid)
    (hdm : s'.data_memory = s.data_memory) (hdrf : s'.stage_DRF = s.stage_DRF)
    (hnext : stage_processes t s → latch s' (t + 1) = { latch s t with is_empty := 0 }) :
    flow_data cm0 s' d := by
  have e1 : EX1 = 2 := rfl
  have e3 : EX2 = 3 := rfl
  have e4 : MEM1 = 4 := rfl
  have e6 : WB = 6 := rfl
  have ht1 : EX1 ≤ t := by omega
  have ht2 : t ≤ WB := by omega
  obtain ⟨hstep, -, hproc, hconv⟩ := advances_step t s s' d ht1 ht2 hcl hfa.pos ha
  have hic : s'.ins_completed = s.ins_completed := by
    rw [ha.count, if_neg (fun h => by omega)]
  have hcn := hfa.pos.cnt
  refine ⟨?_, ?_, ?_, ?_, ?_, ?_⟩
  · rw [hregs, hic]
    exact hd.regs
  · rw [hdm]
    have hmd : mem_done s' d = mem_done s d := by
      unfold mem_done
      rw [hic]
      by_cases hlt : s.ins_completed < d
      · have h1 := hstep s.ins_completed hcn.1 hlt
        have h2 : marker s' s.ins_completed = 5 ↔ marker s s.ins_completed = 5 := by
          rw [h1]
          split_ifs with h3 <;> omega
        simp only [h2]
      · rw [if_neg (fun h => hlt h.1), if_neg (fun h => hlt h.1)]
    rw [hmd]
    exact hd.mem
  · rw [hdrf]
    exact hd.drf
  · intro i h0 h1 h5
    have hs := hstep i h0 h1
    have hli := hfa.pos.live i h0 h1
    by_cases hm : marker s i = t - 1
    · rw [if_pos hm] at hs
      have hpr := hconv ⟨i, h0, h1, hm⟩
      have hc := hd.lat i h0 h1 (by omega)
      rw [hm, sub_add_cancel] at hc
      rw [hs, hnext hpr]
      exact carries_copy cm0 _ i (t - 1) t hc (by omega) (by omega)
    · rw [if_neg hm] at hs
      have hh := hfa.hole i h0 h1
      have hc := hd.lat i h0 h1 (by omega)
      rw [hs, ha.other (marker s i + 1) (by omega) (by omega) (by omega) (by omega)]
      exact hc
  · intro i h0 h1 h2 h5 hrd
    have hs := hstep i h0 h1
    rw [hrv]
    refine hd.valid i h0 h1 ?_ ?_ hrd
    · rw [hs] at h2
      split_ifs at h2 with h3 <;> omega
    · rw [hs] at h5
      split_ifs at h5 with h3 <;> omega
  · intro r hr
    rw [hrv] at hr
    obtain ⟨i, h0, h1, h2, h5, hrd⟩ := hd.claimed r hr
    have hs := hstep i h0 h1
    refine ⟨i, h0, h1, ?_, ?_, hrd⟩
    · rw [hs]
      split_ifs with h3 <;> omega
    · rw [hs]
      split_ifs with h3 <;> omega

/-- The data invariant along `execute2`. -/
theorem flow_data_execute2 (cm0 : Int → APEX_Instruction) (s : APEX_CPU) (d : Int)
    (hfa : flow_at cm0 s d 3) (hd : flow_data cm0 s d) : flow_data cm0 (execute2 s) d := by
  have hf := execute2_frame s
  have hg := execute2_frame_more s
  refine flow_data_copy cm0 EX2 s (execute2 s) d (Or.inl rfl) hfa hd
    ⟨hfa.base.cEX2.1, hfa.base.cEX2.2.1⟩ (execute2_advances s) hf.2.2.2.2.2.2.1
    hf.2.2.2.2.2.2.2 hg.2.2.2.1 hf.2.1 ?_
  intro hp
  have hp' : execute2_processes s := hp
  show (execute2 s).stage_MEM1 = _
  rw [execute2_stage_MEM1, if_pos hp']
  rfl

/-- The data invariant along `memory1`. -/
theorem flow_data_memory1 (cm0 : Int → APEX_Instruction) (s : APEX_CPU) (d : Int)
    (hfa : flow_at cm0 s d 4) (hd : flow_data cm0 s d) : flow_data cm0 (memory1 s) d := by
  have hf := memory1_frame s
  have hg := memory1_frame_more s
  refine flow_data_copy cm0 MEM1 s (memory1 s) d (Or.inr rfl) hfa hd
    ⟨hfa.base.cMEM1.1, hfa.base.cMEM1.2.1⟩ (memory1_advances s) hf.2.2.2.2.2.2.2.2.1
    hf.2.2.2.2.2.2.2.2.2 hg.2.2.1 hf.2.2.2.1 ?_
  intro hp
  have hp' : memory1_processes s := hp
  show (memory1 s).stage_MEM2 = _
  rw [memory1_stage_MEM2, if_pos hp']
  rfl

/-- The destination field of a `regular` record is 0 or a register index from 1
to 15. -/
theorem regular_rd (x : APEX_Instruction) (h : regular x) : x.rd = 0 ∨ reg_index x.rd := by
  unfold regular at h
  rcases h with ⟨-, h⟩ | ⟨-, h, -⟩ | ⟨-, h, -⟩ | ⟨-, h, -⟩ | ⟨-, h, -⟩ | ⟨-, h⟩
  · exact Or.inr h
  · exact Or.inr h
  · exact Or.inr h
  · exact Or.inr h
  · exact Or.inl h
  · exact Or.inl h

/-- The data invariant along `execute1`. -/
theorem flow_data_execute1 (cm0 : Int → APEX_Instruction) (s : APEX_CPU) (d : Int)
    (hok : program_ok cm0) (hfa : flow_at cm0 s d 2) (hd : flow_data cm0 s d) :
    flow_data cm0 (execute1 s) d := by
  have e1 : EX1 = 2 := rfl
  have e6 : WB = 6 := rfl
  have hf := execute1_frame s
  have hg := execute1_frame_more s
  have ha := execute1_advances s
  have hcl : (latch s EX1).busy = 0 ∧ (latch s EX1).stalled = 0 :=
    ⟨hfa.base.cEX1.1, hfa.base.cEX1.2.1⟩
  obtain ⟨hstep, -, hproc, hconv⟩ :=
    advances_step EX1 s (execute1 s) d (by decide) (by decide) hcl hfa.pos ha
  have hic : (execute1 s).ins_completed = s.ins_completed := hg.1
  have hcn := hfa.pos.cnt
  have hrv := execute1_regs_valid s
  -- the instruction processed, if any, is the one carried by the Execute1 latch
  have hcar : ∀ i, 0 ≤ i → i < d → marker s i = 1 →
      execute1_processes s ∧ carries cm0 s.stage_EX1 i 1 := by
    intro i h0 h1 hm
    have hpr := hconv ⟨i, h0, h1, by omega⟩
    have hc := hd.lat i h0 h1 (by omega)
    rw [hm] at hc
    exact ⟨hpr, hc⟩
  refine ⟨?_, ?_, ?_, ?_, ?_, ?_⟩
  · rw [hf.2.2.2.2.2.2.2.2.2, hic]
    exact hd.regs
  · rw [hg.2.1]
    have hmd : mem_done (execute1 s) d = mem_done s d := by
      unfold mem_done
      rw [hic]
      by_cases hlt : s.ins_completed < d
      · have h1 := hstep s.ins_completed hcn.1 hlt
        have h2 : marker (execute1 s) s.ins_completed = 5 ↔ marker s s.ins_completed = 5 := by
          rw [h1]
          split_ifs with h3 <;> omega
        simp only [h2]
      · rw [if_neg (fun h => hlt h.1), if_neg (fun h => hlt h.1)]
    rw [hmd]
    exact hd.mem
  · rw [hf.2.2.2.1]
    exact hd.drf
  · intro i h0 h1 h5
    have hs := hstep i h0 h1
    by_cases hm : marker s i = EX1 - 1
    · rw [if_pos hm] at hs
      obtain ⟨hpr, hc⟩ := hcar i h0 h1 (by omega)
      rw [hs]
      show carries cm0 (execute1 s).stage_EX2 i 2
      rw [execute1_stage_EX2, if_pos hpr]
      exact carries_execute1 cm0 _ i hc
    · rw [if_neg hm] at hs
      have hh := hfa.hole i h0 h1
      have hli := hfa.pos.live i h0 h1
      have hc := hd.lat i h0 h1 (by omega)
      rw [hs, ha.other (marker s i + 1) (by omega) (by omega) (by omega) (by omega)]
      exact hc
  · intro i h0 h1 h2 h5 hrd
    have hs := hstep i h0 h1
    by_cases hm : marker s i = EX1 - 1
    · obtain ⟨hpr, hc⟩ := hcar i h0 h1 (by omega)
      have hrd2 : s.stage_EX1.rd = (cm0 i).rd := hc.2.1
      have hri : reg_index (cm0 i).rd := by
        rcases regular_rd _ (hok.reg i) with h | h
        · exact absurd h hrd
        · exact h
      rw [hrv, if_pos ⟨hpr, by rw [hrd2]; exact hrd, by rw [hrd2]; have := hri.2; omega,
        by rw [hrd2]; have := hri.1; omega⟩, hrd2]
      simp [store]
    · rw [if_neg hm] at hs
      rw [hs] at h2 h5
      have hv := hd.valid i h0 h1 h2 h5 hrd
      rw [hrv]
      split_ifs
      · unfold store
        split_ifs
        · rfl
        · exact hv
      · exact hv
  · intro r hr
    rw [hrv] at hr
    have hold : s.regs_valid r = 0 →
        ∃ i, 0 ≤ i ∧ i < d ∧ 2 ≤ marker (execute1 s) i ∧ marker (execute1 s) i ≤ 5
          ∧ (cm0 i).rd = r ∧ r ≠ 0 := by
      intro hr0
      obtain ⟨i, h0, h1, h2, h5, hrd⟩ := hd.claimed r hr0
      have hs := hstep i h0 h1
      rw [if_neg (by omega)] at hs
      exact ⟨i, h0, h1, by omega, by omega, hrd⟩
    split_ifs at hr with hc
    · by_cases hrr : r = s.stage_EX1.rd
      · obtain ⟨i, h0, h1, h2, h3⟩ := hproc hc.1
        obtain ⟨-, hcr⟩ := hcar i h0 h1 (by omega)
        have hs := hstep i h0 h1
        rw [if_pos (by omega)] at hs
        exact ⟨i, h0, h1, by omega, by omega, by rw [hrr]; exact hcr.2.1.symm,
          by rw [hrr]; exact hc.2.1⟩
      · unfold store at hr
        rw [if_neg hrr] at hr
        exact hold hr
    · exact hold hr

/-- An instruction other than `STORE` leaves the memory of the reference
execution alone. -/
theorem sequential_step_mem (x : APEX_Instruction) (a : Arch) (h : x.opcode ≠ "STORE") :
    (sequential_step x a).mem = a.mem := by
  unfold sequential_step
  rw [if_neg h]
  split_ifs <;> rfl

/-- A `STORE` in the reference execution. -/
theorem sequential_step_store (x : APEX_Instruction) (a : Arch) (h : x.opcode = "STORE") :
    (sequential_step x a).mem = store a.mem (sequential_address x a) (a.regs x.rs1)
    ∧ (sequential_step x a).regs = a.regs := by
  unfold sequential_step sequential_address
  rw [if_pos h, if_neg (by rw [h]; decide)]
  exact ⟨rfl, rfl⟩

/-- In a straight-line run, once `writeback` has run, the instruction that
`memory2` processes is the oldest one that has not finished Writeback. -/
theorem flow_memory2_index (cm0 : Int → APEX_Instruction) (s : APEX_CPU) (d i : Int)
    (hfa : flow_at cm0 s d 5) (h0 : 0 ≤ i) (h1 : i < d) (hm : marker s i = 4) :
    i = s.ins_completed := by
  have hcn := hfa.pos.cnt
  have hge : s.ins_completed ≤ i := by
    by_contra hlt
    have := (hcn.2.2 i h0 h1).mpr (by omega)
    omega
  have hle : i ≤ s.ins_completed := by
    by_contra hlt
    have hic : marker s s.ins_completed ≠ 6 := by
      intro h
      have := (hcn.2.2 s.ins_completed hcn.1 (by omega)).mp h
      omega
    have ho := hfa.pos.order s.ins_completed i hcn.1 (by omega) h1
    have hl := hfa.pos.live s.ins_completed hcn.1 (by omega)
    have hh := hfa.hole s.ins_completed hcn.1 (by omega)
    omega
  omega

/-- The data invariant along `memory2`. -/
theorem flow_data_memory2 (cm0 : Int → APEX_Instruction) (s : APEX_CPU) (d : Int)
    (hok : program_ok cm0) (hfa : flow_at cm0 s d 5) (hd : flow_data cm0 s d) :
    flow_data cm0 (memory2 s) d := by
  have e1 : EX1 = 2 := rfl
  have e5 : MEM2 = 5 := rfl
  have e6 : WB = 6 := rfl
  have hf := memory2_frame s
  have hg := memory2_frame_more s
  have ha := memory2_advances s
  have he := memory2_effect s
  have hcl : (latch s MEM2).busy = 0 ∧ (latch s MEM2).stalled = 0 :=
    ⟨hfa.base.cMEM2.1, hfa.base.cMEM2.2.1⟩
  obtain ⟨hstep, -, hproc, hconv⟩ :=
    advances_step MEM2 s (memory2 s) d (by decide) (by decide) hcl hfa.pos ha
  have hic : (memory2 s).ins_completed = s.ins_completed := hg.1
  have hcn := hfa.pos.cnt
  -- before `memory2` runs no instruction is in the Writeback latch
  have hmd0 : mem_done s d = s.ins_completed := by
    unfold mem_done
    rw [if_neg]
    intro h
    exact hfa.hole s.ins_completed hcn.1 h.1 h.2
  have hdm0 : s.data_memory = (arch_at cm0 s.ins_completed).mem := by
    rw [← hmd0]
    exact hd.mem
  have hcar : ∀ i, 0 ≤ i → i < d → marker s i = 4 →
      memory2_processes s ∧ carries cm0 s.stage_MEM2 i 4 ∧ i = s.ins_completed := by
    intro i h0 h1 hm
    have hpr := hconv ⟨i, h0, h1, by omega⟩
    have hc := hd.lat i h0 h1 (by omega)
    rw [hm] at hc
    exact ⟨hpr, hc, flow_memory2_index cm0 s d i hfa h0 h1 hm⟩
  refine ⟨?_, ?_, ?_, ?_, ?_, ?_⟩
  · rw [hf.2.2.2.2.2.2.2.2.2.1, hic]
    exact hd.regs
  · rw [he.2]
    by_cases hpr : memory2_processes s
    · obtain ⟨i, h0, h1, h2, h3⟩ := hproc hpr
      obtain ⟨-, hc, hi⟩ := hcar i h0 h1 (by omega)
      have hs := hstep i h0 h1
      rw [if_pos (by omega)] at hs
      have hmd : mem_done (memory2 s) d = s.ins_completed + 1 := by
        unfold mem_done
        rw [hic, if_pos ⟨by omega, by rw [← hi, hs]⟩]
      rw [hmd, arch_at_succ cm0 _ hcn.1, ← hi]
      by_cases hst : (cm0 i).opcode = "STORE"
      · have hst' : s.stage_MEM2.opcode = "STORE" := hc.1.trans hst
        rw [if_pos ⟨hpr, Or.inl hst'⟩, (sequential_step_store _ _ hst).1,
          hc.2.2.2.2.2.2.1 (by decide) (Or.inr hst),
          hc.2.2.2.1 (Or.inr (Or.inr (Or.inr hst))), hdm0, hi]
      · have hst' : ¬ (s.stage_MEM2.opcode = "STORE" ∨ s.stage_MEM2.opcode = "STR") := by
          rw [hc.1]
          intro hcc
          rcases hcc with hcc | hcc
          · exact hst hcc
          · have hreg := hok.reg i
            unfold regular two_source one_source at hreg
            rw [hcc] at hreg
            simp at hreg
        rw [if_neg (fun h => hst' h.2), sequential_step_mem _ _ hst, hdm0, hi]
    · rw [if_neg (fun h => hpr h.1)]
      have hmd : mem_done (memory2 s) d = mem_done s d := by
        unfold mem_done
        rw [hic]
        by_cases hlt : s.ins_completed < d
        · have h1 := hstep s.ins_completed hcn.1 hlt
          have hne : marker s s.ins_completed ≠ 4 := by
            intro h4
            exact hpr (hconv ⟨_, hcn.1, hlt, by omega⟩)
          rw [if_neg (by omega)] at h1
          rw [h1]
        · rw [if_neg (fun h => hlt h.1), if_neg (fun h => hlt h.1)]
      rw [hmd]
      exact hd.mem
  · rw [hf.2.2.2.1]
    exact hd.drf
  · intro i h0 h1 h5
    have hs := hstep i h0 h1
    by_cases hm : marker s i = MEM2 - 1
    · rw [if_pos hm] at hs
      obtain ⟨hpr, hc, hi⟩ := hcar i h0 h1 (by omega)
      rw [hs]
      show carries cm0 (memory2 s).stage_WB i 5
      rw [he.1, if_pos hpr]
      exact carries_memory2 cm0 _ i s.data_memory hc (hok.reg i) (by rw [hdm0, hi])
    · rw [if_neg hm] at hs
      have hh := hfa.hole i h0 h1
      have hli := hfa.pos.live i h0 h1
      have hc := hd.lat i h0 h1 (by omega)
      rw [hs, ha.other (marker s i + 1) (by omega) (by omega) (by omega) (by omega)]
      exact hc
  · intro i h0 h1 h2 h5 hrd
    have hs := hstep i h0 h1
    rw [hf.2.2.2.2.2.2.2.2.2.2]
    refine hd.valid i h0 h1 ?_ ?_ hrd
    · rw [hs] at h2
      split_ifs at h2 with h3 <;> omega
    · rw [hs] at h5
      split_ifs at h5 with h3 <;> omega
  · intro r hr
    rw [hf.2.2.2.2.2.2.2.2.2.2] at hr
    obtain ⟨i, h0, h1, h2, h5, hrd⟩ := hd.claimed r hr
    have hs := hstep i h0 h1
    refine ⟨i, h0, h1, ?_, ?_, hrd⟩
    · rw [hs]
      split_ifs with h3 <;> omega
    · rw [hs]
      split_ifs with h3 <;> omega

/-- The register file after `writeback` has processed a latch that carries an
instruction through Memory2 is the register file of the reference execution
after that instruction. -/
theorem writeback_regs_step (cm0 : Int → APEX_Instruction) (s : APEX_CPU) (i : Int)
    (hp : writeback_processes s) (hc : carries cm0 s.stage_WB i 5) (hreg : regular (cm0 i))
    (hr : s.regs = (arch_at cm0 i).regs) :
    (writeback s).1.regs = (sequential_step (cm0 i) (arch_at cm0 i)).regs := by
  obtain ⟨h1, h2, -, -, -, h6, -, h8⟩ := hc
  have h25 : (2 : Int) ≤ 5 := by decide
  have h55 : (5 : Int) ≤ 5 := by decide
  rw [writeback_regs, if_pos hp, h1, h2, hr]
  unfold regular two_source one_source at hreg
  unfold sequential_step
  rcases hreg with ⟨hop, -⟩ | ⟨hop | hop | hop | hop | hop | hop, -⟩ | ⟨hop | hop, -⟩
    | ⟨hop, -⟩ | ⟨hop, -⟩ | ⟨hop, -⟩
  · have hb := h6 h25 (Or.inl hop)
    rw [hb]
    simp [hop, is_arith]
  · have hb := h6 h25 (Or.inr (Or.inl (Or.inl hop)))
    rw [hb]
    simp [hop, is_arith]
  · have hb := h6 h25 (Or.inr (Or.inl (Or.inr (Or.inl hop))))
    rw [hb]
    simp [hop, is_arith]
  · have hb := h6 h25 (Or.inr (Or.inl (Or.inr (Or.inr (Or.inl hop)))))
    rw [hb]
    simp [hop, is_arith]
  · have hb := h6 h25 (Or.inr (Or.inl (Or.inr (Or.inr (Or.inr (Or.inl hop))))))
    rw [hb]
    simp [hop, is_arith]
  · have hb := h6 h25 (Or.inr (Or.inl (Or.inr (Or.inr (Or.inr (Or.inr (Or.inl hop)))))))
    rw [hb]
    simp [hop, is_arith]
  · have hb := h6 h25 (Or.inr (Or.inl (Or.inr (Or.inr (Or.inr (Or.inr (Or.inr hop)))))))
    rw [hb]
    simp [hop, is_arith]
  · have hb := h6 h25 (Or.inr (Or.inr (Or.inl hop)))
    rw [hb]
    simp [hop, is_arith]
  · have hb := h6 h25 (Or.inr (Or.inr (Or.inr hop)))
    rw [hb]
    simp [hop, is_arith]
  · have hb := h8 h55 hop
    rw [hb]
    simp [hop, is_arith]
  · simp [hop, is_arith]
  · simp [hop, is_arith]

/-- The data invariant along `writeback`. -/
theorem flow_data_writeback (cm0 : Int → APEX_Instruction) (s : APEX_CPU) (d : Int)
    (hok : program_ok cm0) (hfl : flow cm0 s d) (hd : flow_data cm0 s d) :
    flow_data cm0 (before_memory2 s) d := by
  have e1 : EX1 = 2 := rfl
  have e6 : WB = 6 := rfl
  have hf := writeback_frame s
  have hg := writeback_frame_more s
  have ha := writeback_advances s hfl.base.cWB.2.2
  have hcl : (latch s WB).busy = 0 ∧ (latch s WB).stalled = 0 :=
    ⟨hfl.base.cWB.1, hfl.base.cWB.2.1⟩
  obtain ⟨hstep, -, hproc, hconv⟩ :=
    advances_step WB s (writeback s).1 d (by decide) (by decide) hcl hfl.pos ha
  have hafter := flow_writeback cm0 s d hfl
  have hcn := hfl.pos.cnt
  have hrv := writeback_regs_valid s
  have hicw : (writeback s).1.ins_completed =
      if writeback_processes s then s.ins_completed + 1 else s.ins_completed := by
    rw [ha.count]
    by_cases hp : writeback_processes s
    · rw [if_pos hp, if_pos ⟨rfl, hp⟩]
    · rw [if_neg hp, if_neg (fun h => hp h.2)]
  have hcar : writeback_processes s →
      s.ins_completed < d ∧ marker s s.ins_completed = 5
      ∧ carries cm0 s.stage_WB s.ins_completed 5 := by
    intro hp
    have hi := flow_writeback_index cm0 s d hfl hp
    have hc := hd.lat s.ins_completed hcn.1 hi.2.1 (by omega)
    rw [hi.2.2] at hc
    exact ⟨hi.2.1, hi.2.2, hc⟩
  unfold before_memory2
  refine ⟨?_, ?_, ?_, ?_, ?_, ?_⟩
  · rw [hicw]
    by_cases hp : writeback_processes s
    · obtain ⟨-, -, hc⟩ := hcar hp
      rw [if_pos hp, arch_at_succ cm0 _ hcn.1]
      exact writeback_regs_step cm0 s _ hp hc (hok.reg _) hd.regs
    · rw [if_neg hp, writeback_regs, if_neg hp]
      exact hd.regs
  · rw [hg.1]
    have hmd : mem_done (writeback s).1 d = mem_done s d := by
      have hnew : mem_done (writeback s).1 d = (writeback s).1.ins_completed := by
        unfold mem_done
        rw [if_neg]
        intro h
        exact hafter.hole _ hafter.pos.cnt.1 h.1 h.2
      rw [hnew, hicw]
      unfold mem_done
      by_cases hp : writeback_processes s
      · obtain ⟨h1, h2, -⟩ := hcar hp
        rw [if_pos hp, if_pos ⟨h1, h2⟩]
      · rw [if_neg hp, if_neg]
        intro h
        exact hp (hconv ⟨_, hcn.1, h.1, by omega⟩)
    rw [hmd]
    exact hd.mem
  · rw [hf.2.2.2.1]
    exact hd.drf
  · intro i h0 h1 h5
    have hs := hstep i h0 h1
    have hh := hafter.hole i h0 h1
    have hm : marker s i ≠ WB - 1 := by
      intro hm
      rw [if_pos hm] at hs
      change marker (writeback s).1 i ≤ 5 at h5
      omega
    rw [if_neg hm] at hs
    have hli := hfl.pos.live i h0 h1
    have hc := hd.lat i h0 h1 (by omega)
    rw [hs, ha.other (marker s i + 1) (by omega) (by omega) (by omega) (by omega)]
    exact hc
  · intro i h0 h1 h2 h5 hrd
    have hs := hstep i h0 h1
    have hm : marker s i ≠ WB - 1 := by
      intro hm
      rw [if_pos hm] at hs
      omega
    rw [if_neg hm] at hs
    rw [hs] at h2 h5
    have hv := hd.valid i h0 h1 h2 h5 hrd
    rw [hrv]
    split_ifs with hc
    · obtain ⟨hlt, hm5, hcr⟩ := hcar hc.1
      have hne : i ≠ s.ins_completed := by
        intro h
        rw [h] at hm
        omega
      have hu := hok.uniq i s.ins_completed hne hrd
      unfold store
      rw [if_neg (by rw [hcr.2.1]; exact hu)]
      exact hv
    · exact hv
  · intro r hr
    rw [hrv] at hr
    have hold : s.regs_valid r = 0 → r ≠ (cm0 s.ins_completed).rd ∨ ¬ writeback_processes s →
        ∃ i, 0 ≤ i ∧ i < d ∧ 2 ≤ marker (writeback s).1 i ∧ marker (writeback s).1 i ≤ 5
          ∧ (cm0 i).rd = r ∧ r ≠ 0 := by
      intro hr0 hne
      obtain ⟨i, h0, h1, h2, h5, hrd, hr1⟩ := hd.claimed r hr0
      have hs := hstep i h0 h1
      have hm : marker s i ≠ WB - 1 := by
        intro hm
        rcases hne with hne | hne
        · have hp := hconv ⟨i, h0, h1, hm⟩
          obtain ⟨hlt, hm5, -⟩ := hcar hp
          have hli := (hfl.pos.live i h0 h1).2.2 (by omega)
          have hlc := (hfl.pos.live _ hcn.1 hlt).2.2 (by omega)
          rw [show marker s i = 5 by omega] at hli
          rw [hm5] at hlc
          have : i = s.ins_completed := by omega
          rw [this] at hrd
          exact hne hrd.symm
        · exact hne (hconv ⟨i, h0, h1, hm⟩)
      rw [if_neg hm] at hs
      exact ⟨i, h0, h1, by omega, by omega, hrd, hr1⟩
    split_ifs at hr with hc
    · obtain ⟨hlt, hm5, hcr⟩ := hcar hc.1
      by_cases hrr : r = s.stage_WB.rd
      · unfold store at hr
        rw [if_pos hrr] at hr
        exact absurd hr (by decide)
      · unfold store at hr
        rw [if_neg hrr] at hr
        exact hold hr (Or.inl (by rw [← hcr.2.1]; exact hrr))
    · by_cases hp : writeback_processes s
      · obtain ⟨hlt, hm5, hcr⟩ := hcar hp
        have hrd0 : (cm0 s.ins_completed).rd = 0 := by
          by_contra hne
          exact hc ⟨hp, by rw [hcr.2.1]; exact hne⟩
        obtain ⟨i, h0, h1, h2, h5, hrd, hr1⟩ := hd.claimed r hr
        exact hold hr (Or.inl (by rw [hrd0]; exact hr1))
      · exact hold hr (Or.inr hp)

/-- The instruction fields of the Decode latch are kept by `decode`. -/
theorem decode_stage_DRF_fields (s : APEX_CPU) :
    (decode s).stage_DRF.rd = s.stage_DRF.rd ∧ (decode s).stage_DRF.rs1 = s.stage_DRF.rs1
    ∧ (decode s).stage_DRF.rs2 = s.stage_DRF.rs2
    ∧ (decode s).stage_DRF.imm = s.stage_DRF.imm := by
  have hfl := decode_read_fields s { s.stage_DRF with stalled := 0, is_empty := 0 }
  by_cases hp : s.stage_DRF.pc ≥ 4000
  · by_cases hb : s.stage_DRF.busy = 0
    · by_cases hs : (decode_read s
          { s.stage_DRF with stalled := 0, is_empty := 0 }).is_stage_stalled = 0
      · unfold decode
        simp only []
        rw [if_pos hp, if_pos ⟨hb, trivial⟩, if_neg (not_not.mpr hs)]
        exact ⟨hfl.2.2.1, hfl.2.2.2.1, hfl.2.2.2.2.1, hfl.2.2.2.2.2.1⟩
      · unfold decode
        simp only []
        rw [if_pos hp, if_pos ⟨hb, trivial⟩, if_pos hs]
        exact ⟨hfl.2.2.1, hfl.2.2.2.1, hfl.2.2.2.2.1, hfl.2.2.2.2.2.1⟩
    · unfold decode
      simp only []
      rw [if_pos hp, if_neg (fun h => hb h.1)]
      exact ⟨rfl, rfl, rfl, rfl⟩
  · unfold decode
    simp only []
    rw [if_neg hp]
    exact ⟨rfl, rfl, rfl, rfl⟩

/-- When `decode` runs, a valid register holds the value it has in the
reference execution before the instruction in the Decode latch: the
instructions between the last one that finished Writeback and that one do not
have it as destination. -/
theorem flow_data_source (cm0 : Int → APEX_Instruction) (s : APEX_CPU) (d : Int)
    (hfa : flow_at cm0 s d 1) (hd : flow_data cm0 s d) (r : Int) (hr : reg_index r)
    (hv : s.regs_valid r ≠ 0) : s.regs r = (arch_at cm0 d).regs r := by
  have hcn := hfa.pos.cnt
  have e16 : CC = 16 := rfl
  unfold reg_index at hr
  rw [hd.regs]
  obtain ⟨k, hk⟩ : ∃ k : Nat, d = s.ins_completed + (k : Int) :=
    ⟨(d - s.ins_completed).toNat, by omega⟩
  rw [hk]
  symm
  apply arch_at_regs_stable cm0 r (by omega) _ hcn.1
  intro j hj1 hj2 hc
  have hj : j < d := by omega
  have h0 : 0 ≤ j := by omega
  have hl := hfa.pos.live j h0 hj
  have hh := hfa.hole j h0 hj
  have h6 : marker s j ≠ 6 := by
    intro h
    have := (hcn.2.2 j h0 hj).mp h
    omega
  have hval := hd.valid j h0 hj (by omega) (by omega) (by rw [hc]; omega)
  rw [hc] at hval
  exact hv hval

/-- The latch that `decode` hands to Execute1 carries the instruction whose
fields the Decode latch held. -/
theorem decode_read_carries (cm0 : Int → APEX_Instruction) (s : APEX_CPU) (l : CPU_Stage)
    (d : Int) (hreg : regular (cm0 d)) (hop : l.opcode = (cm0 d).opcode)
    (hrd : l.rd = (cm0 d).rd) (hrs1 : l.rs1 = (cm0 d).rs1) (hrs2 : l.rs2 = (cm0 d).rs2)
    (himm : l.imm = (cm0 d).imm) (hs : (decode_read s l).is_stage_stalled = 0)
    (hsrc : ∀ r, reg_index r → s.regs_valid r ≠ 0 → s.regs r = (arch_at cm0 d).regs r) :
    carries cm0 (decode_read s l).stage d 1 := by
  obtain ⟨c1, c2, c3⟩ := decode_read_regular s l
  have h21 : ¬ ((2 : Int) ≤ 1) := by decide
  have h51 : ¬ ((5 : Int) ≤ 1) := by decide
  have hk := decode_read_keeps s l
  have hfl := decode_read_fields s l
  refine ⟨hk.2.trans hop, hfl.2.2.1.trans hrd, hfl.2.2.2.2.2.1.trans himm, ?_, ?_,
    fun h => absurd h h21, fun h => absurd h h21, fun h => absurd h h51⟩
  · intro hr
    rcases hreg with ⟨hx, -⟩ | ⟨hx, -, hr1, -⟩ | ⟨hx, -, hr1⟩ | ⟨hx, -, hr1⟩ | ⟨hx, -, hr1, -⟩
      | ⟨hx, -⟩
    · exact absurd hr (by rw [hx]; unfold reads1 two_source one_source; decide)
    · have hc := c1 (Or.inl (by rw [hop]; exact hx))
      rw [hc.2 hs]
      show s.regs l.rs1 = _
      rw [hrs1]
      exact hsrc _ hr1 (by rw [← hrs1]; exact (hc.1.mp hs).1)
    · have hc := c2 (Or.inl (by rw [hop]; exact hx))
      rw [hc.2 hs]
      show s.regs l.rs1 = _
      rw [hrs1]
      exact hsrc _ hr1 (by rw [← hrs1]; exact hc.1.mp hs)
    · have hc := c2 (Or.inr (by rw [hop]; exact hx))
      rw [hc.2 hs]
      show s.regs l.rs1 = _
      rw [hrs1]
      exact hsrc _ hr1 (by rw [← hrs1]; exact hc.1.mp hs)
    · have hc := c1 (Or.inr (by rw [hop]; exact hx))
      rw [hc.2 hs]
      show s.regs l.rs1 = _
      rw [hrs1]
      exact hsrc _ hr1 (by rw [← hrs1]; exact (hc.1.mp hs).1)
    · exact absurd hr (by rw [hx]; unfold reads1 two_source one_source; decide)
  · intro hr
    rcases hreg with ⟨hx, -⟩ | ⟨hx, -, -, hr2⟩ | ⟨hx, -, -⟩ | ⟨hx, -, -⟩ | ⟨hx, -, -, hr2⟩
      | ⟨hx, -⟩
    · exact absurd hr (by rw [hx]; unfold reads2 two_source; decide)
    · have hc := c1 (Or.inl (by rw [hop]; exact hx))
      rw [hc.2 hs]
      show s.regs l.rs2 = _
      rw [hrs2]
      exact hsrc _ hr2 (by rw [← hrs2]; exact (hc.1.mp hs).2)
    · exact absurd hr (by
        rcases hx with hx | hx <;> rw [hx] <;> unfold reads2 two_source <;> decide)
    · exact absurd hr (by rw [hx]; unfold reads2 two_source; decide)
    · have hc := c1 (Or.inr (by rw [hop]; exact hx))
      rw [hc.2 hs]
      show s.regs l.rs2 = _
      rw [hrs2]
      exact hsrc _ hr2 (by rw [← hrs2]; exact (hc.1.mp hs).2)
    · exact absurd hr (by rw [hx]; unfold reads2 two_source; decide)

/-- The data invariant along `decode`. -/
theorem flow_data_decode (cm0 : Int → APEX_Instruction) (s : APEX_CPU) (d : Int)
    (hok : program_ok cm0) (hfa : flow_at cm0 s d 1) (hd : flow_data cm0 s d) :
    (decode_hands_off s → flow_data cm0 (decode s) (d + 1))
    ∧ (¬ decode_hands_off s → flow_data cm0 (decode s) d) := by
  have hf := decode_frame s
  have hg := decode_frame_more s
  have hD := decode_stage_DRF s
  have hDf := decode_stage_DRF_fields s
  have hcn := hfa.pos.cnt
  have hregs : (decode s).regs = s.regs := hf.2.2.2.2.2.2.2.1
  have hrv : (decode s).regs_valid = s.regs_valid := hf.2.2.2.2.2.2.2.2
  have e1 : EX1 = 2 := rfl
  constructor
  · intro hy
    obtain ⟨hp, hfm, hpc, hmd, hm⟩ :=
      decode_flow_pos_hand_off s d hfa.pos hfa.front hfa.hole hy
    have hdr := hd.drf hpc
    have hE := decode_stage_EX1_eq s
    rw [if_pos hy] at hE
    refine ⟨?_, ?_, ?_, ?_, ?_, ?_⟩
    · rw [hregs, hg.1]
      exact hd.regs
    · rw [hg.2.1]
      have hmdn : mem_done (decode s) (d + 1) = mem_done s d := by
        unfold mem_done
        rw [hg.1]
        by_cases hlt : s.ins_completed < d
        · rw [hm _ (by omega)]
          by_cases h5 : marker s s.ins_completed = 5
          · rw [if_pos ⟨by omega, h5⟩, if_pos ⟨hlt, h5⟩]
          · rw [if_neg (fun h => h5 h.2), if_neg (fun h => h5 h.2)]
        · have hic : s.ins_completed = d := by omega
          rw [hic, hmd, if_neg (fun h => absurd h.2 (by decide)),
            if_neg (fun h => absurd h.1 (by omega))]
      rw [hmdn]
      exact hd.mem
    · intro h
      rw [hD.1] at h
      omega
    · intro i h0 h1 h5
      by_cases hi : i = d
      · rw [hi, hmd]
        have hl : latch (decode s) (1 + 1) = (decode s).stage_EX1 := rfl
        rw [hl, hE]
        exact decode_read_carries cm0 s _ d (hok.reg d) hdr.1 hdr.2.1 hdr.2.2.1 hdr.2.2.2.1
          hdr.2.2.2.2 hy.2 (fun r hr hv => flow_data_source cm0 s d hfa hd r hr hv)
      · have hl := hfa.pos.live i h0 (by omega)
        have hh := hfa.hole i h0 (by omega)
        rw [hm i hi] at h5 ⊢
        rw [decode_latch s _ (by omega)]
        exact hd.lat i h0 (by omega) h5
    · intro i h0 h1 h2 h5 hrd
      by_cases hi : i = d
      · rw [hi, hmd] at h2
        exact absurd h2 (by decide)
      · rw [hm i hi] at h2 h5
        rw [hrv]
        exact hd.valid i h0 (by omega) h2 h5 hrd
    · intro r hr
      rw [hrv] at hr
      obtain ⟨i, h0, h1, h2, h5, hrd, hr1⟩ := hd.claimed r hr
      refine ⟨i, h0, by omega, ?_, ?_, hrd, hr1⟩
      · rw [hm i (by omega)]
        exact h2
      · rw [hm i (by omega)]
        exact h5
  · intro hn
    obtain ⟨hp, hfm, hm⟩ := decode_flow_pos_stall cm0 s d hfa.base hfa.pos hfa.front hn
    refine ⟨?_, ?_, ?_, ?_, ?_, ?_⟩
    · rw [hregs, hg.1]
      exact hd.regs
    · rw [hg.2.1]
      have hmdn : mem_done (decode s) d = mem_done s d := by
        unfold mem_done
        rw [hg.1, hm]
      rw [hmdn]
      exact hd.mem
    · intro h
      rw [hD.1] at h
      have hdr := hd.drf h
      rw [hD.2.2.1, hDf.1, hDf.2.1, hDf.2.2.1, hDf.2.2.2]
      exact hdr
    · intro i h0 h1 h5
      have hl := hfa.pos.live i h0 h1
      have hh := hfa.hole i h0 h1
      rw [hm i] at h5 ⊢
      rw [decode_latch s _ (by omega)]
      exact hd.lat i h0 h1 h5
    · intro i h0 h1 h2 h5 hrd
      rw [hm i] at h2 h5
      rw [hrv]
      exact hd.valid i h0 h1 h2 h5 hrd
    · intro r hr
      rw [hrv] at hr
      obtain ⟨i, h0, h1, h2, h5, hrd, hr1⟩ := hd.claimed r hr
      refine ⟨i, h0, h1, ?_, ?_, hrd, hr1⟩
      · rw [hm i]
        exact h2
      · rw [hm i]
        exact h5

/-- The data invariant along `fetch`. -/
theorem flow_data_fetch (cm0 : Int → APEX_Instruction) (s : APEX_CPU) (d : Int)
    (hb : flow_base cm0 s) (hp : flow_pos s d) (hf : front_mid s d)
    (hd : flow_data cm0 s d) : flow_data cm0 (fetch s) d := by
  have hfr := fetch_frame s
  have hg := fetch_frame_more s
  have he := fetch_effect s
  obtain ⟨-, -, hm, hiff⟩ := fetch_flow_pos cm0 s d hb hp hf
  have hcn := hp.cnt
  have hregs : (fetch s).regs = s.regs := hfr.2.2.2.2.2.2.2.2.1
  have hrv : (fetch s).regs_valid = s.regs_valid := hfr.2.2.2.2.2.2.2.2.2
  refine ⟨?_, ?_, ?_, ?_, ?_, ?_⟩
  · rw [hregs, hg.1]
    exact hd.regs
  · rw [hg.2.1]
    have hmdn : mem_done (fetch s) d = mem_done s d := by
      unfold mem_done
      rw [hg.1]
      by_cases hlt : s.ins_completed < d
      · rw [hm _ (by omega)]
      · rw [if_neg (fun h => hlt h.1), if_neg (fun h => hlt h.1)]
    rw [hmdn]
    exact hd.mem
  · intro h
    by_cases hh : fetch_hands_off s
    · have hpc := hiff.mp hh
      obtain ⟨-, -, -, -, h5, h6, h7, h8, h9, -⟩ := he.2.1 hh
      rw [hpc, get_code_index_pc] at h5 h6 h7 h8 h9
      obtain ⟨c1, c2, c3, c4, -, c6⟩ := hb.code d
      exact ⟨h5.trans c1, h6.trans c2, h7.trans c3, h8.trans c4, h9.trans c6⟩
    · have hsame := (he.2.2 hh).2
      rw [hsame] at h ⊢
      exact hd.drf h
  · intro i h0 h1 h5
    rw [hm i (by omega)] at h5 ⊢
    rw [fetch_latch]
    exact hd.lat i h0 h1 h5
  · intro i h0 h1 h2 h5 hrd
    rw [hm i (by omega)] at h2 h5
    rw [hrv]
    exact hd.valid i h0 h1 h2 h5 hrd
  · intro r hr
    rw [hrv] at hr
    obtain ⟨i, h0, h1, h2, h5, hrd, hr1⟩ := hd.claimed r hr
    refine ⟨i, h0, h1, ?_, ?_, hrd, hr1⟩
    · rw [hm i (by omega)]
      exact h2
    · rw [hm i (by omega)]
      exact h5

/-- The data invariant does not depend on the clock. -/
theorem flow_data_clock (cm0 : Int → APEX_Instruction) (s : APEX_CPU) (d c : Int)
    (hd : flow_data cm0 s d) : flow_data cm0 { s with clock := c } d :=
  ⟨hd.regs, hd.mem, hd.drf, hd.lat, hd.valid, hd.claimed⟩

/-- One iteration of a straight-line run of `regular` instructions with distinct
destinations: the data invariant holds again at the start of the next
iteration. -/
theorem flow_data_step (cm0 : Int → APEX_Instruction) (s : APEX_CPU) (d : Int)
    (hok : program_ok cm0) (h : flow cm0 s d) (hd : flow_data cm0 s d) :
    (decode_hands_off (before_decode s) → flow_data cm0 (loop_body s) (d + 1))
    ∧ (¬ decode_hands_off (before_decode s) → flow_data cm0 (loop_body s) d) := by
  obtain ⟨h5, h4, h3, h2, h1⟩ := flow_before cm0 s d h
  have d5 := flow_data_writeback cm0 s d hok h hd
  have d4 : flow_data cm0 (before_memory1 s) d := flow_data_memory2 cm0 _ d hok h5 d5
  have d3 : flow_data cm0 (before_execute2 s) d := flow_data_memory1 cm0 _ d h4 d4
  have d2 : flow_data cm0 (before_execute1 s) d := flow_data_execute2 cm0 _ d h3 d3
  have d1 : flow_data cm0 (before_decode s) d := flow_data_execute1 cm0 _ d hok h2 d2
  have hst := flow_cycle_state cm0 s d h
  have hbase := decode_flow_base cm0 _ h1.base
  have hdd := flow_data_decode cm0 _ d hok h1 d1
  constructor
  · intro hy
    obtain ⟨hp, hf, -, -, -⟩ := decode_flow_pos_hand_off _ d h1.pos h1.front h1.hole hy
    have hfd := flow_data_fetch cm0 _ (d + 1) hbase hp hf (hdd.1 hy)
    unfold loop_body
    rw [hst]
    exact flow_data_clock cm0 _ _ _ hfd
  · intro hn
    obtain ⟨hp, hf, -⟩ := decode_flow_pos_stall cm0 _ d h1.base h1.pos h1.front hn
    have hfd := flow_data_fetch cm0 _ d hbase hp hf (hdd.2 hn)
    unfold loop_body
    rw [hst]
    exact flow_data_clock cm0 _ _ _ hfd

/-! ### Straight-line programs: progress -/

/-- After `fetch` the Decode latch holds the instruction that Decode hands on
next. -/
theorem fetch_occupies (cm0 : Int → APEX_Instruction) (s : APEX_CPU) (d : Int)
    (hb : flow_base cm0 s) (hf : front_mid s d) :
    (fetch s).stage_DRF.pc = 4000 + 4 * d := by
  have he := fetch_effect s
  rcases hf with ⟨h1, h2, h3⟩ | ⟨h1, h2, h3⟩
  · have hh : fetch_hands_off s := ⟨hb.fbusy, h2, h3⟩
    rw [(he.2.1 hh).2.1]
    exact h1
  · have hh : ¬ fetch_hands_off s := fun h => h3 h.2.2
    rw [(he.2.2 hh).2]
    exact h2

/-- The stages behind Decode leave the Decode latch alone. -/
theorem before_decode_stage_DRF (s : APEX_CPU) :
    (before_decode s).stage_DRF = s.stage_DRF := by
  unfold before_decode before_execute1 before_execute2 before_memory1 before_memory2
  rw [(execute1_frame _).2.2.2.1, (execute2_frame _).2.1, (memory1_frame _).2.2.2.1,
    (memory2_frame _).2.2.2.1, (writeback_frame _).2.2.2.1]

/-- The initial state satisfies the data invariant. -/
theorem flow_data_init (cm0 : Int → APEX_Instruction) (n flag : Int) :
    flow_data cm0 (enter_run (APEX_cpu_init cm0 n) flag) 0 := by
  refine ⟨rfl, ?_, ?_, ?_, ?_, ?_⟩
  · have hm : mem_done (enter_run (APEX_cpu_init cm0 n) flag) 0 = 0 := by
      unfold mem_done
      rw [if_neg]
      · rfl
      · intro h
        have h1 : (enter_run (APEX_cpu_init cm0 n) flag).ins_completed = 0 := rfl
        rw [h1] at h
        exact absurd h.1 (by decide)
    rw [hm]
    rfl
  · intro h
    have h1 : (enter_run (APEX_cpu_init cm0 n) flag).stage_DRF.pc = 0 := rfl
    rw [h1] at h
    omega
  · intro i h0 h1
    omega
  · intro i h0 h1
    omega
  · intro r hr
    have h1 : (enter_run (APEX_cpu_init cm0 n) flag).regs_valid r = 16843009 := rfl
    rw [h1] at hr
    omega

/-- One iteration of a straight-line run of `regular` instructions with distinct
destinations, positions and data together. -/
theorem flow_full_step (cm0 : Int → APEX_Instruction) (s : APEX_CPU) (d : Int)
    (hok : program_ok cm0) (h : flow cm0 s d) (hd : flow_data cm0 s d) :
    (decode_hands_off (before_decode s) →
        flow_full cm0 (loop_body s) (d + 1) ∧ marker (loop_body s) d = 1)
    ∧ (¬ decode_hands_off (before_decode s) → flow_full cm0 (loop_body s) d)
    ∧ (∀ i, 0 ≤ i → i < d →
        marker (loop_body s) i = if marker s i ≤ 5 then marker s i + 1 else marker s i) := by
  obtain ⟨-, -, -, -, h1⟩ := flow_before cm0 s d h
  have hs := flow_step cm0 s d h
  have hds := flow_data_step cm0 s d hok h hd
  have hst := flow_cycle_state cm0 s d h
  have hbase := decode_flow_base cm0 _ h1.base
  have hdrf : (loop_body s).stage_DRF = (fetch (before_fetch s)).stage_DRF := by
    have h0 : (loop_body s).stage_DRF = (cycle s).1.stage_DRF := rfl
    rw [h0, hst]
  refine ⟨?_, ?_, hs.2.2⟩
  · intro hy
    obtain ⟨-, hf, -, -, -⟩ := decode_flow_pos_hand_off _ d h1.pos h1.front h1.hole hy
    refine ⟨⟨(hs.1 hy).1, hds.1 hy, ?_⟩, (hs.1 hy).2.1⟩
    rw [hdrf]
    exact fetch_occupies cm0 _ (d + 1) hbase hf
  · intro hn
    obtain ⟨-, hf, -⟩ := decode_flow_pos_stall cm0 _ d h1.base h1.pos h1.front hn
    refine ⟨hs.2.1 hn, hds.2 hn, ?_⟩
    rw [hdrf]
    exact fetch_occupies cm0 _ d hbase hf

/-- When every instruction behind Decode has finished Writeback, `decode` hands
the instruction in its latch to Execute1. -/
theorem flow_decode_free (cm0 : Int → APEX_Instruction) (s : APEX_CPU) (d : Int)
    (hok : program_ok cm0) (hfa : flow_at cm0 s d 1) (hd : flow_data cm0 s d)
    (hpc : s.stage_DRF.pc = 4000 + 4 * d)
    (hall : ∀ i, 0 ≤ i → i < d → marker s i = 6) : decode_hands_off s := by
  have hv : ∀ r, s.regs_valid r ≠ 0 := by
    intro r h
    obtain ⟨i, h0, h1, -, h5, -, -⟩ := hd.claimed r h
    have := hall i h0 h1
    omega
  have hdn := hfa.pos.dnn
  refine ⟨⟨by omega, hfa.base.dbusy⟩, ?_⟩
  obtain ⟨c1, c2, c3⟩ := decode_read_regular s { s.stage_DRF with stalled := 0, is_empty := 0 }
  have hdr := (hd.drf hpc).1
  have hop : ({ s.stage_DRF with stalled := 0, is_empty := 0 } : CPU_Stage).opcode
      = (cm0 d).opcode := hdr
  rcases hok.reg d with ⟨hx, -⟩ | ⟨hx, -⟩ | ⟨hx, -⟩ | ⟨hx, -⟩ | ⟨hx, -⟩ | ⟨hx, -⟩
  · exact (c3 (Or.inl (hop.trans hx))).1
  · exact (c1 (Or.inl (by rw [hop]; exact hx))).1.mpr ⟨hv _, hv _⟩
  · exact (c2 (Or.inl (by rw [hop]; exact hx))).1.mpr (hv _)
  · exact (c2 (Or.inr (hop.trans hx))).1.mpr (hv _)
  · exact (c1 (Or.inr (hop.trans hx))).1.mpr ⟨hv _, hv _⟩
  · exact (c3 (Or.inr (hop.trans hx))).1

/-- In a straight-line run of `regular` instructions with distinct destinations
Decode hands on the instruction in its latch after finitely many iterations: at
the latest when every older instruction has finished Writeback. -/
theorem flow_hand_off_soon (cm0 : Int → APEX_Instruction) (hok : program_ok cm0) (q : Nat) :
    ∀ (s : APEX_CPU) (d : Int), flow_full cm0 s d →
      (∀ i, 0 ≤ i → i < d → 5 ≤ marker s i + q) →
      ∃ k : Nat, flow_full cm0 (at_cycle s (k + 1)) (d + 1)
        ∧ marker (at_cycle s (k + 1)) d = 1 := by
  induction q with
  | zero =>
    intro s d hf hq
    obtain ⟨-, -, -, -, h1⟩ := flow_before cm0 s d hf.flow
    have hst := flow_full_step cm0 s d hok hf.flow hf.data
    have hy : decode_hands_off (before_decode s) := by
      obtain ⟨h5, h4, h3, h2, -⟩ := flow_before cm0 s d hf.flow
      have d5 := flow_data_writeback cm0 s d hok hf.flow hf.data
      have d4 : flow_data cm0 (before_memory1 s) d := flow_data_memory2 cm0 _ d hok h5 d5
      have d3 : flow_data cm0 (before_execute2 s) d := flow_data_memory1 cm0 _ d h4 d4
      have d2 : flow_data cm0 (before_execute1 s) d := flow_data_execute2 cm0 _ d h3 d3
      have d1 : flow_data cm0 (before_decode s) d := flow_data_execute1 cm0 _ d hok h2 d2
      apply flow_decode_free cm0 _ d hok h1 d1
      · rw [before_decode_stage_DRF]
        exact hf.drf
      · intro i h0 hi
        rw [flow_markers_before_decode cm0 s d hf.flow i h0 hi]
        have hl := hf.flow.pos.live i h0 hi
        have := hq i h0 hi
        split_ifs <;> omega
    exact ⟨0, hst.1 hy⟩
  | succ n ih =>
    intro s d hf hq
    have hst := flow_full_step cm0 s d hok hf.flow hf.data
    by_cases hy : decode_hands_off (before_decode s)
    · exact ⟨0, hst.1 hy⟩
    · have hnext := hst.2.1 hy
      obtain ⟨k, hk⟩ := ih (loop_body s) d hnext (by
        intro i h0 hi
        rw [hst.2.2 i h0 hi]
        have := hq i h0 hi
        split_ifs <;> push_cast at this ⊢ <;> omega)
      refine ⟨k + 1, ?_⟩
      have he : at_cycle s (k + 1 + 1) = at_cycle (loop_body s) (k + 1) := by
        have := at_cycle_add s 1 (k + 1)
        rw [show 1 + (k + 1) = k + 1 + 1 by omega] at this
        exact this.symm
      rw [he]
      exact hk

/-- In a straight-line run of `regular` instructions with distinct destinations
every instruction is handed from Decode to Execute1 at some point. -/
theorem flow_reaches (cm0 : Int → APEX_Instruction) (hok : program_ok cm0) (s : APEX_CPU)
    (hf : flow_full cm0 s 0) (c : Nat) :
    ∃ k : Nat, flow_full cm0 (at_cycle s k) (c + 1) ∧ marker (at_cycle s k) c = 1 := by
  induction c with
  | zero =>
    obtain ⟨k, hk⟩ := flow_hand_off_soon cm0 hok 5 s 0 hf (by
      intro i h0 hi
      omega)
    exact ⟨k + 1, hk⟩
  | succ n ih =>
    obtain ⟨k, hk, -⟩ := ih
    obtain ⟨j, hj⟩ := flow_hand_off_soon cm0 hok 5 (at_cycle s k) (n + 1) hk (by
      intro i h0 hi
      have := (hk.flow.pos.live i h0 hi).1
      omega)
    rw [at_cycle_add] at hj
    refine ⟨k + (j + 1), ?_⟩
    push_cast
    exact hj

/-- In a straight-line run of `regular` instructions with distinct destinations
an instruction behind Decode that has not reached Writeback gets there one
stage per iteration. -/
theorem flow_marker_reaches (cm0 : Int → APEX_Instruction) (hok : program_ok cm0) (j : Nat) :
    ∀ (s : APEX_CPU) (d i : Int), flow_full cm0 s d → 0 ≤ i → i < d → marker s i + j = 5 →
      ∃ d', flow_full cm0 (at_cycle s j) d' ∧ i < d' ∧ marker (at_cycle s j) i = 5 := by
  induction j with
  | zero =>
    intro s d i hf h0 h1 hm
    exact ⟨d, hf, h1, by simpa using hm⟩
  | succ n ih =>
    intro s d i hf h0 h1 hm
    have hst := flow_full_step cm0 s d hok hf.flow hf.data
    have hmk := hst.2.2 i h0 h1
    rw [if_pos (by push_cast at hm; omega)] at hmk
    have hm' : marker (loop_body s) i + n = 5 := by
      rw [hmk]
      push_cast at hm
      omega
    rw [← at_cycle_loop_body]
    by_cases hy : decode_hands_off (before_decode s)
    · exact ih (loop_body s) (d + 1) i (hst.1 hy).1 h0 (by omega) hm'
    · exact ih (loop_body s) d i (hst.2.1 hy) h0 h1 hm'

/-- The invariants of a straight-line run of `regular` instructions with
distinct destinations hold at the start of every iteration. -/
theorem flow_data_at_cycle (cm0 : Int → APEX_Instruction) (hok : program_ok cm0)
    (s : APEX_CPU) (d : Int) (h : flow cm0 s d) (hd : flow_data cm0 s d) (k : Nat) :
    ∃ d', flow cm0 (at_cycle s k) d' ∧ flow_data cm0 (at_cycle s k) d' := by
  induction k with
  | zero => exact ⟨d, h, hd⟩
  | succ n ih =>
    obtain ⟨d1, h1, h2⟩ := ih
    have hs := flow_full_step cm0 (at_cycle s n) d1 hok h1 h2
    by_cases hy : decode_hands_off (before_decode (at_cycle s n))
    · exact ⟨d1 + 1, (hs.1 hy).1.flow, (hs.1 hy).1.data⟩
    · exact ⟨d1, (hs.2.1 hy).flow, (hs.2.1 hy).data⟩

/-- The value an iteration returns is the one `writeback` returns. -/
theorem cycle_result (s : APEX_CPU) : (cycle s).2 = (writeback s).2 := rfl

/-- The run of a straight-line program of `regular` instructions with distinct
destinations reaches an iteration in which `writeback` returns the stop
signal. -/
theorem flow_stops (cm0 : Int → APEX_Instruction) (hok : program_ok cm0)
    (hpl : ∀ i, plain (cm0 i).opcode) (n : Nat) (flag : Int) :
    ∃ T : Nat, (cycle (at_cycle (enter_run (APEX_cpu_init cm0 n) flag) T)).2 ≠ 0 := by
  have hflow := flow_init cm0 n flag hpl
  have hdata := flow_data_init cm0 n flag
  generalize hs0 : enter_run (APEX_cpu_init cm0 n) flag = s0 at *
  have hsize : s0.code_memory_size = n := by
    rw [← hs0]
    rfl
  have hdrf : s0.stage_DRF.pc = 0 := by
    rw [← hs0]
    rfl
  have hst := flow_full_step cm0 s0 0 hok hflow hdata
  have hn : ¬ decode_hands_off (before_decode s0) := by
    intro hy
    have hp := hy.1.1
    rw [before_decode_stage_DRF, hdrf] at hp
    omega
  have h1 := hst.2.1 hn
  obtain ⟨k, hk, hm⟩ := flow_reaches cm0 hok (loop_body s0) h1 n
  obtain ⟨d', hf, hlt, hm5⟩ := flow_marker_reaches cm0 hok 4 (at_cycle (loop_body s0) k)
    (n + 1) n hk (by omega) (by omega) (by rw [hm]; rfl)
  rw [at_cycle_add, at_cycle_loop_body] at hf hm5
  refine ⟨k + 4 + 1, ?_⟩
  have hwb := flow_writeback_processes cm0 _ d' n hf.flow (by omega) hlt hm5
  rw [cycle_result, writeback_result_plain _ hf.flow.base.cWB.2.2, if_pos]
  · decide
  · rw [hwb.2, get_code_index_pc, at_cycle_size, hsize]
    exact ⟨by omega, rfl⟩

/-- The reference execution does not change behind the last entry with a
non-empty opcode. -/
theorem arch_at_beyond (cm : Int → APEX_Instruction) (n : Int) (h0 : 0 ≤ n)
    (h : ∀ i, n ≤ i → (cm i).opcode = "") (k : Nat) : arch_at cm (n + k) = arch_at cm n := by
  induction k with
  | zero => simp
  | succ m ih =>
    have h1 : n + ((m + 1 : Nat) : Int) = (n + m) + 1 := by push_cast; ring
    rw [h1, arch_at_succ cm (n + m) (by omega), sequential_step_blank _ _ (h _ (by omega)), ih]

/-- The reference execution of the store of a loaded program, up to any index
behind the program, is the reference execution of the program. -/
theorem arch_at_load (prog : List APEX_Instruction) (j : Int) (hj : (prog.length : Int) ≤ j) :
    arch_at (load prog blank) j = sequential_run prog arch_init := by
  obtain ⟨k, hk⟩ : ∃ k : Nat, j = (prog.length : Int) + (k : Int) :=
    ⟨(j - prog.length).toNat, by omega⟩
  rw [hk, arch_at_beyond (load prog blank) prog.length (by omega)]
  · have h := arch_after_load prog arch_init 0 (load prog blank) (by
      intro i hi
      unfold load
      rw [if_pos (by omega)]
      congr 1
      omega) rfl
    unfold arch_at
    rw [Int.toNat_ofNat]
    rw [Nat.zero_add] at h
    exact h
  · intro i hi
    unfold load
    rw [if_pos (by omega), List.getD_eq_default prog blank (by omega)]
    rfl

/-- The state in which the run of a straight-line program of `regular`
instructions with distinct destinations is left through the stop signal: the
register file and the data memory are those of the reference execution of the
whole store. -/
theorem flow_final (cm0 : Int → APEX_Instruction) (hok : program_ok cm0) (s : APEX_CPU)
    (d : Int) (h : flow cm0 s d) (hd : flow_data cm0 s d) (hs : (cycle s).2 ≠ 0) :
    ∃ j j', s.code_memory_size < j ∧ s.code_memory_size < j'
      ∧ (cycle s).1.regs = (arch_at cm0 j).regs
      ∧ (cycle s).1.data_memory = (arch_at cm0 j').mem := by
  obtain ⟨h0, hlt, hm⟩ := flow_stop cm0 s d h hs
  have hst := flow_full_step cm0 s d hok h hd
  have hmk := hst.2.2 _ h0 hlt
  have hl := h.pos.live _ h0 hlt
  have hm6 : marker (loop_body s) s.code_memory_size = 6 := by
    rw [hmk]
    split_ifs <;> omega
  have hregs : (cycle s).1.regs = (loop_body s).regs := rfl
  have hmem : (cycle s).1.data_memory = (loop_body s).data_memory := rfl
  have key : ∀ d', flow_full cm0 (loop_body s) d' → d ≤ d' →
      ∃ j j', s.code_memory_size < j ∧ s.code_memory_size < j'
        ∧ (cycle s).1.regs = (arch_at cm0 j).regs
        ∧ (cycle s).1.data_memory = (arch_at cm0 j').mem := by
    intro d' hf hdd
    have hc := (hf.flow.pos.cnt.2.2 _ h0 (by omega)).mp hm6
    refine ⟨(loop_body s).ins_completed, mem_done (loop_body s) d', hc, ?_, ?_, ?_⟩
    · unfold mem_done
      split_ifs <;> omega
    · rw [hregs]
      exact hf.data.regs
    · rw [hmem]
      exact hf.data.mem
  by_cases hy : decode_hands_off (before_decode s)
  · exact key (d + 1) (hst.1 hy).1 (by omega)
  · exact key d (hst.2.1 hy) (le_refl d)

/-! ### Straight-line programs: the run and the reference execution -/

/-- An entry of the store of a loaded program is an instruction of the program
or the all-zero record. -/
theorem load_entry (prog : List APEX_Instruction) (i : Int) :
    (∃ k : Nat, ∃ hk : k < prog.length, i = (k : Int) ∧ load prog blank i = prog.get ⟨k, hk⟩)
    ∨ load prog blank i = blank := by
  unfold load
  split_ifs with h0
  · by_cases hl : i.toNat < prog.length
    · left
      exact ⟨i.toNat, hl, by omega, List.getD_eq_getElem prog blank hl⟩
    · right
      exact List.getD_eq_default prog blank (by omega)
  · right
    rfl

/-- The store of a loaded program of `regular` instructions with distinct
destinations satisfies `program_ok`. -/
theorem program_ok_load (prog : List APEX_Instruction) (hreg : ∀ x ∈ prog, regular x)
    (hnd : (prog.map APEX_Instruction.rd).Nodup) : program_ok (load prog blank) := by
  have hb : regular blank := by decide
  have hb0 : blank.rd = 0 := rfl
  constructor
  · intro i
    rcases load_entry prog i with ⟨k, hk, -, he⟩ | he
    · rw [he]
      exact hreg _ (List.get_mem prog k hk)
    · rw [he]
      exact hb
  · intro i j hij hrd heq
    rcases load_entry prog i with ⟨k, hk, hik, he⟩ | he
    · rcases load_entry prog j with ⟨m, hm, hjm, he'⟩ | he'
      · rw [he, he'] at heq
        have hk' : k < (prog.map APEX_Instruction.rd).length := by simpa using hk
        have hm' : m < (prog.map APEX_Instruction.rd).length := by simpa using hm
        have h1 : (prog.map APEX_Instruction.rd).get ⟨k, hk'⟩
            = (prog.map APEX_Instruction.rd).get ⟨m, hm'⟩ := by
          simpa using heq
        have h2 := (List.Nodup.get_inj_iff hnd).mp h1
        have h3 : k = m := by simpa using h2
        omega
      · rw [he', hb0] at heq
        exact hrd heq
    · rw [he, hb0] at hrd
      exact hrd rfl

/-- The condition code after one instruction of the reference execution. -/
theorem sequential_step_CC (x : APEX_Instruction) (a : Arch) (h : regular x) :
    (sequential_step x a).regs CC =
      if is_arith x.opcode then (if sequential_value x a = 0 then 1 else 0)
      else a.regs CC := by
  have e16 : CC = 16 := rfl
  unfold regular two_source one_source reg_index at h
  unfold sequential_step
  rcases h with ⟨h, h1⟩ | ⟨h | h | h | h | h | h, h1, -⟩ | ⟨h | h, h1, -⟩ | ⟨h, h1, -⟩ | ⟨h, -⟩
    | ⟨h, -⟩ <;> simp [h, is_arith, store] <;> omega

/-- The condition code after the reference execution of a program of `regular`
instructions is the zero flag of its last arithmetic result. -/
theorem sequential_run_flag (prog : List APEX_Instruction) :
    ∀ a : Arch, (∀ x ∈ prog, regular x) →
      (sequential_run prog a).regs CC = sequential_flag prog a (a.regs CC) := by
  induction prog with
  | nil =>
    intro a _
    rfl
  | cons x xs ih =>
    intro a h
    have h1 : sequential_run (x :: xs) a = sequential_run xs (sequential_step x a) := rfl
    rw [h1, ih _ (fun y hy => h y (List.mem_cons_of_mem x hy)),
      sequential_step_CC x a (h x (List.mem_cons_self x xs))]
    rfl

/-- The run of a straight-line program of `regular` instructions with distinct
destinations: `writeback` returns the stop signal in some iteration `T` for the
first time, and the register file and the data memory after that iteration are
those of the reference execution of the program. -/
theorem flow_run (prog : List APEX_Instruction) (flag : Int)
    (hreg : ∀ x ∈ prog, regular x) (hnd : (prog.map APEX_Instruction.rd).Nodup) :
    ∃ T : Nat,
      (∀ j : Nat, j < T →
        (cycle (at_cycle (enter_run (APEX_cpu_init (load prog blank) prog.length) flag) j)).2
          = 0)
      ∧ (cycle (at_cycle (enter_run (APEX_cpu_init (load prog blank) prog.length) flag) T)).2
          ≠ 0
      ∧ (cycle (at_cycle (enter_run (APEX_cpu_init (load prog blank) prog.length) flag) T)
          ).1.regs = (sequential_run prog arch_init).regs
      ∧ (cycle (at_cycle (enter_run (APEX_cpu_init (load prog blank) prog.length) flag) T)
          ).1.data_memory = (sequential_run prog arch_init).mem := by
  classical
  have hok := program_ok_load prog hreg hnd
  have hpl : ∀ i, plain (load prog blank i).opcode := fun i => regular_plain _ (hok.reg i)
  have hex := flow_stops (load prog blank) hok hpl prog.length flag
  have hflow := flow_init (load prog blank) prog.length flag hpl
  have hdata := flow_data_init (load prog blank) prog.length flag
  generalize hs0 : enter_run (APEX_cpu_init (load prog blank) prog.length) flag = s0 at *
  have hsize : s0.code_memory_size = prog.length := by
    rw [← hs0]
    rfl
  obtain ⟨d, hf, hd⟩ := flow_data_at_cycle (load prog blank) hok s0 0 hflow hdata (Nat.find hex)
  obtain ⟨j, j', hj, hj', hr, hm⟩ := flow_final (load prog blank) hok _ d hf hd (Nat.find_spec hex)
  rw [at_cycle_size, hsize] at hj hj'
  refine ⟨Nat.find hex, ?_, Nat.find_spec hex, ?_, ?_⟩
  · intro i hi
    by_contra hne
    exact Nat.find_min hex hi hne
  · rw [hr, arch_at_load prog j (by omega)]
  · rw [hm, arch_at_load prog j' (by omega)]

/-- A 32-bit value is not changed by the wraparound. -/
theorem wrap32_id (x : Int) (h : -2147483648 ≤ x ∧ x < 2147483648) : wrap32 x = x := by
  unfold wrap32
  omega

/-- The registers at the end of an iteration are those at the start of the
next. -/
theorem cycle_regs (s : APEX_CPU) : (cycle s).1.regs = (loop_body s).regs := rfl

/-- In a straight-line run, after an iteration in which `writeback` returns the
stop signal more instructions have finished Writeback than the store holds. -/
theorem flow_stop_count (cm0 : Int → APEX_Instruction) (s : APEX_CPU) (d : Int)
    (h : flow cm0 s d) (hs : (cycle s).2 ≠ 0) :
    s.code_memory_size < (loop_body s).ins_completed := by
  obtain ⟨h0, hlt, hm⟩ := flow_stop cm0 s d h hs
  have hst := flow_step cm0 s d h
  have hmk := hst.2.2 _ h0 hlt
  have hl := h.pos.live _ h0 hlt
  have hm6 : marker (loop_body s) s.code_memory_size = 6 := by
    rw [hmk]
    split_ifs <;> omega
  by_cases hy : decode_hands_off (before_decode s)
  · exact ((hst.1 hy).1.pos.cnt.2.2 _ h0 (by omega)).mp hm6
  · exact ((hst.2.1 hy).pos.cnt.2.2 _ h0 hlt).mp hm6

/-- In a straight-line run, as long as `writeback` has not processed the
instruction with index `i`, at most `i` instructions have finished Writeback. -/
theorem flow_count_below (cm0 : Int → APEX_Instruction) (s : APEX_CPU)
    (h : flow cm0 s 0) (i : Int) (hic : s.ins_completed ≤ i) (k : Nat)
    (hno : ∀ j : Nat, j < k →
      ¬ (writeback_processes (at_cycle s j) ∧ (at_cycle s j).stage_WB.pc = 4000 + 4 * i)) :
    (at_cycle s k).ins_completed ≤ i := by
  induction k with
  | zero => exact hic
  | succ m ih =>
    have ih1 := ih (fun j hj => hno j (by omega))
    obtain ⟨d, -, hf⟩ := flow_at_cycle cm0 s 0 h m
    have hst : at_cycle s (m + 1) = loop_body (at_cycle s m) := rfl
    rw [hst, flow_ins_completed cm0 _ d hf]
    split_ifs with hw
    · have hi := flow_writeback_index cm0 _ d hf hw
      have hne : (at_cycle s m).ins_completed ≠ i := by
        intro hc
        apply hno m (by omega)
        refine ⟨hw, ?_⟩
        rw [hi.1, hc]
      omega
    · exact ih1

/-- The reference execution of the program of C15. -/
theorem sequential_store_load (v a : Int) (hv : -2147483648 ≤ v ∧ v < 2147483648)
    (ha : 0 ≤ a ∧ a < 4000) :
    (sequential_run (prog_store_load v a) arch_init).mem a = v
    ∧ (sequential_run (prog_store_load v a) arch_init).regs 3 = v := by
  have h1 : wrap32 v = v := wrap32_id v hv
  have h2 : wrap32 a = a := wrap32_id a (by omega)
  have h3 : wrap32 (a + 0) = a := by
    rw [Int.add_zero]
    exact h2
  simp [sequential_run, prog_store_load, sequential_step, sequential_value, ins, arch_init,
    store, is_arith, h1, h2]

/-- The program of C15 is made of `regular` instructions with distinct
destinations. -/
theorem prog_store_load_regular (v a : Int) :
    (∀ x ∈ prog_store_load v a, regular x)
    ∧ ((prog_store_load v a).map APEX_Instruction.rd).Nodup := by
  have r1 : reg_index 1 := by decide
  have r2 : reg_index 2 := by decide
  have r3 : reg_index 3 := by decide
  constructor
  · intro x hx
    have hx' : x = ins "MOVC" 1 0 0 0 v ∨ x = ins "MOVC" 2 0 0 0 a
        ∨ x = ins "STORE" 0 1 2 0 0 ∨ x = ins "LOAD" 3 2 0 0 0 := by
      simpa [prog_store_load] using hx
    rcases hx' with h | h | h | h <;> rw [h]
    · exact Or.inl ⟨rfl, r1⟩
    · exact Or.inl ⟨rfl, r2⟩
    · exact Or.inr (Or.inr (Or.inr (Or.inr (Or.inl ⟨rfl, rfl, r1, r2⟩))))
    · exact Or.inr (Or.inr (Or.inr (Or.inl ⟨rfl, r3, r2⟩)))
  · have h : (prog_store_load v a).map APEX_Instruction.rd = [1, 2, 0, 3] := rfl
    rw [h]
    decide

/-! ### C15: a store followed by a load of the same address -/

/-- C15: for every 32-bit value `v` and every address `a` with `0 ≤ a < 4000`, the
run of `MOVC R1,#v; MOVC R2,#a; STORE R1,R2,#0; LOAD R3,R2,#0` from the initial
state is left through the stop signal of `writeback`, in some iteration `T`, with
`data_memory[a] = v` and `regs[3] = v`; `writeback` processes the `LOAD` (pc 4012)
in an iteration `W` before `T`, and at the end of every iteration before `W`
`regs[3]` is still 0. -/
theorem C15_store_then_load_round_trip (v a flag : Int)
    (hv : -2147483648 ≤ v ∧ v < 2147483648) (ha : 0 ≤ a ∧ a < 4000) :
    ∃ T W : Nat, W < T
      ∧ (∀ j : Nat, j < T →
          (cycle (at_cycle (enter_run (APEX_cpu_init (load (prog_store_load v a) blank)
            (prog_store_load v a).length) flag) j)).2 = 0)
      ∧ (cycle (at_cycle (enter_run (APEX_cpu_init (load (prog_store_load v a) blank)
            (prog_store_load v a).length) flag) T)).2 ≠ 0
      ∧ (∀ N : Nat, T ≤ N →
          (APEX_cpu_run (APEX_cpu_init (load (prog_store_load v a) blank)
            (prog_store_load v a).length) N flag).data_memory a = v
          ∧ (APEX_cpu_run (APEX_cpu_init (load (prog_store_load v a) blank)
            (prog_store_load v a).length) N flag).regs 3 = v)
      ∧ writeback_processes (at_cycle (enter_run (APEX_cpu_init
            (load (prog_store_load v a) blank) (prog_store_load v a).length) flag) W)
      ∧ (at_cycle (enter_run (APEX_cpu_init (load (prog_store_load v a) blank)
            (prog_store_load v a).length) flag) W).stage_WB.pc = 4012
      ∧ (∀ k : Nat, k < W →
          (cycle (at_cycle (enter_run (APEX_cpu_init (load (prog_store_load v a) blank)
            (prog_store_load v a).length) flag) k)).1.regs 3 = 0) := by
  classical
  obtain ⟨hreg, hnd⟩ := prog_store_load_regular v a
  have hok := program_ok_load _ hreg hnd
  have hpl : ∀ i, plain (load (prog_store_load v a) blank i).opcode :=
    fun i => regular_plain _ (hok.reg i)
  obtain ⟨T, hno, hstop, hregs, hmem⟩ := flow_run (prog_store_load v a) flag hreg hnd
  obtain ⟨hm, hr⟩ := sequential_store_load v a hv ha
  have hrun := fun (N : Nat) (hN : T ≤ N) => run_exits_through_stop_signal
    (APEX_cpu_init (load (prog_store_load v a) blank) (prog_store_load v a).length) N T flag
    rfl hN hno hstop
  have hflow := flow_init (load (prog_store_load v a) blank) (prog_store_load v a).length
    flag hpl
  have hdata := flow_data_init (load (prog_store_load v a) blank)
    (prog_store_load v a).length flag
  generalize hs0 : enter_run (APEX_cpu_init (load (prog_store_load v a) blank)
    (prog_store_load v a).length) flag = s0 at *
  have hsize : s0.code_memory_size = 4 := by
    rw [← hs0]
    rfl
  have hic0 : s0.ins_completed ≤ 3 := by
    rw [← hs0]
    show (0 : Int) ≤ 3
    decide
  -- the iteration in which the LOAD is processed
  have hex : ∃ W : Nat, writeback_processes (at_cycle s0 W)
      ∧ (at_cycle s0 W).stage_WB.pc = 4000 + 4 * 3 := by
    by_contra hne
    have hcnt := flow_count_below _ s0 hflow 3 hic0 (T + 1)
      (fun j _ hp => hne ⟨j, hp⟩)
    obtain ⟨d, -, hf⟩ := flow_at_cycle _ s0 0 hflow T
    have hsc := flow_stop_count _ _ d hf hstop
    rw [at_cycle_size, hsize] at hsc
    have he : at_cycle s0 (T + 1) = loop_body (at_cycle s0 T) := rfl
    rw [he] at hcnt
    omega
  have hW := Nat.find_spec hex
  have hWT : Nat.find hex < T := by
    by_contra hge
    have hcnt := flow_count_below _ s0 hflow 3 hic0 (T + 1) (by
      intro j hj hp
      by_cases hjT : j = T
      · obtain ⟨d, -, hf⟩ := flow_at_cycle _ s0 0 hflow T
        have hr2 := hstop
        rw [cycle_result, writeback_result_plain _ hf.base.cWB.2.2] at hr2
        have hc : (at_cycle s0 T).stage_WB.pc ≥ 4000
            ∧ get_code_index (at_cycle s0 T).stage_WB.pc = (at_cycle s0 T).code_memory_size := by
          by_contra hn
          rw [if_neg hn] at hr2
          exact hr2 rfl
        rw [hjT] at hp
        rw [hp.2, get_code_index_pc, at_cycle_size, hsize] at hc
        omega
      · exact Nat.find_min hex (show j < Nat.find hex by omega) hp)
    obtain ⟨d, -, hf⟩ := flow_at_cycle _ s0 0 hflow T
    have hsc := flow_stop_count _ _ d hf hstop
    rw [at_cycle_size, hsize] at hsc
    have he : at_cycle s0 (T + 1) = loop_body (at_cycle s0 T) := rfl
    rw [he] at hcnt
    omega
  refine ⟨T, Nat.find hex, hWT, hno, hstop, ?_, hW.1, hW.2, ?_⟩
  · intro N hN
    rw [hrun N hN, hregs, hmem]
    exact ⟨hm, hr⟩
  · intro k hk
    have hcnt := flow_count_below _ s0 hflow 3 hic0 (k + 1) (by
      intro j hj hp
      exact Nat.find_min hex (show j < Nat.find hex by omega) hp)
    obtain ⟨d, hf, hd⟩ := flow_data_at_cycle _ hok s0 0 hflow hdata (k + 1)
    have he : at_cycle s0 (k + 1) = loop_body (at_cycle s0 k) := rfl
    rw [cycle_regs, ← he, hd.regs]
    have hc0 := hf.pos.cnt.1
    obtain ⟨c, hc⟩ : ∃ c : Nat, (at_cycle s0 (k + 1)).ins_completed = 0 + (c : Int) :=
      ⟨((at_cycle s0 (k + 1)).ins_completed).toNat, by omega⟩
    rw [hc, arch_at_regs_stable _ 3 (by decide) 0 (le_refl 0) c]
    · rfl
    · intro j hj0 hjc
      have hj3 : j = 0 ∨ j = 1 ∨ j = 2 := by omega
      rcases hj3 with h | h | h <;> rw [h]
      · have e : (load (prog_store_load v a) blank 0).rd = 1 := rfl
        rw [e]
        decide
      · have e : (load (prog_store_load v a) blank 1).rd = 2 := rfl
        rw [e]
        decide
      · have e : (load (prog_store_load v a) blank 2).rd = 0 := rfl
        rw [e]
        decide

/-- C15, witness: the value 7 stored at the address 3. -/
theorem C15_store_then_load_witness :
    ∃ T W : Nat, W < T
      ∧ (∀ j : Nat, j < T →
          (cycle (at_cycle (enter_run (APEX_cpu_init (load (prog_store_load 7 3) blank)
            (prog_store_load 7 3).length) 0) j)).2 = 0)
      ∧ (cycle (at_cycle (enter_run (APEX_cpu_init (load (prog_store_load 7 3) blank)
            (prog_store_load 7 3).length) 0) T)).2 ≠ 0
      ∧ (∀ N : Nat, T ≤ N →
          (APEX_cpu_run (APEX_cpu_init (load (prog_store_load 7 3) blank)
            (prog_store_load 7 3).length) N 0).data_memory 3 = 7
          ∧ (APEX_cpu_run (APEX_cpu_init (load (prog_store_load 7 3) blank)
            (prog_store_load 7 3).length) N 0).regs 3 = 7)
      ∧ writeback_processes (at_cycle (enter_run (APEX_cpu_init
            (load (prog_store_load 7 3) blank) (prog_store_load 7 3).length) 0) W)
      ∧ (at_cycle (enter_run (APEX_cpu_init (load (prog_store_load 7 3) blank)
            (prog_store_load 7 3).length) 0) W).stage_WB.pc = 4012
      ∧ (∀ k : Nat, k < W →
          (cycle (at_cycle (enter_run (APEX_cpu_init (load (prog_store_load 7 3) blank)
            (prog_store_load 7 3).length) 0) k)).1.regs 3 = 0) :=
  C15_store_then_load_round_trip 7 3 0 ⟨by decide, by decide⟩ ⟨by decide, by decide⟩

/-! ### C20: the pipeline and the execution one instruction at a time -/

/-- C20: for every program made only of `MOVC`, `ADD`, `SUB`, `MUL`, `ADDL`, `SUBL`,
`AND`, `OR` and `EX-OR` whose register indices lie in 1..15 and in which no register
is the destination of two instructions, the run from the initial state is left
through the stop signal of `writeback`, in some iteration `T`, and then
`regs[0..15]` is the register file obtained by executing the instructions one at
a time in program order, and `regs[CC]` the zero flag of the last `ADD`, `ADDL`,
`SUB`, `SUBL` or `MUL` result (0, the initial value, if there is none). -/
theorem C20_pipeline_agrees_with_sequential_execution (prog : List APEX_Instruction)
    (flag : Int) (hcl : ∀ x ∈ prog, register_only x)
    (hnd : (prog.map APEX_Instruction.rd).Nodup) :
    ∃ T : Nat,
      (∀ j : Nat, j < T →
        (cycle (at_cycle (enter_run (APEX_cpu_init (load prog blank) prog.length) flag) j)).2
          = 0)
      ∧ (cycle (at_cycle (enter_run (APEX_cpu_init (load prog blank) prog.length) flag) T)).2
          ≠ 0
      ∧ ∀ N : Nat, T ≤ N →
          (∀ r, 0 ≤ r → r ≤ 15 →
            (APEX_cpu_run (APEX_cpu_init (load prog blank) prog.length) N flag).regs r
              = (sequential_run prog arch_init).regs r)
          ∧ (APEX_cpu_run (APEX_cpu_init (load prog blank) prog.length) N flag).regs CC
              = sequential_flag prog arch_init 0 := by
  have hreg : ∀ x ∈ prog, regular x := by
    intro x hx
    rcases hcl x hx with h | h | h
    · exact Or.inl h
    · exact Or.inr (Or.inl h)
    · exact Or.inr (Or.inr (Or.inl h))
  obtain ⟨T, hno, hstop, hregs, -⟩ := flow_run prog flag hreg hnd
  refine ⟨T, hno, hstop, ?_⟩
  intro N hN
  rw [run_exits_through_stop_signal (APEX_cpu_init (load prog blank) prog.length) N T flag
    rfl hN hno hstop, hregs]
  refine ⟨fun r _ _ => rfl, ?_⟩
  rw [sequential_run_flag prog arch_init hreg]
  rfl

/-- C20, witness: the program `MOVC R1,#5; MOVC R2,#10; ADD R3,R1,R2`. -/
theorem C20_pipeline_agrees_witness :
    ∃ T : Nat,
      (∀ j : Nat, j < T →
        (cycle (at_cycle (enter_run (APEX_cpu_init (load prog_add blank) prog_add.length) 0)
          j)).2 = 0)
      ∧ (cycle (at_cycle (enter_run (APEX_cpu_init (load prog_add blank) prog_add.length) 0)
          T)).2 ≠ 0
      ∧ ∀ N : Nat, T ≤ N →
          (∀ r, 0 ≤ r → r ≤ 15 →
            (APEX_cpu_run (APEX_cpu_init (load prog_add blank) prog_add.length) N 0).regs r
              = (sequential_run prog_add arch_init).regs r)
          ∧ (APEX_cpu_run (APEX_cpu_init (load prog_add blank) prog_add.length) N 0).regs CC
              = sequential_flag prog_add arch_init 0 :=
  C20_pipeline_agrees_with_sequential_execution prog_add 0 (by decide) (by decide)

/-! ### Straight-line programs: the entry behind the last instruction -/

/-- A Decode latch with the empty opcode is handed to Execute1 at once. -/
theorem decode_hands_off_blank (s : APEX_CPU) (hpc : s.stage_DRF.pc ≥ 4000)
    (hb : s.stage_DRF.busy = 0) (hop : s.stage_DRF.opcode = "") : decode_hands_off s :=
  ⟨⟨hpc, hb⟩, ((decode_read_regular s
    { s.stage_DRF with stalled := 0, is_empty := 0 }).2.2 (Or.inr hop)).1⟩

/-- One iteration of a straight-line run keeps `drain_follows`. -/
theorem drain_follows_step (cm0 : Int → APEX_Instruction) (s : APEX_CPU) (d : Int)
    (h : flow cm0 s d) (hg : drain_follows s d) (hn : 1 ≤ s.code_memory_size)
    (hblank : (cm0 s.code_memory_size).opcode = "") :
    (decode_hands_off (before_decode s) → drain_follows (loop_body s) (d + 1))
    ∧ (¬ decode_hands_off (before_decode s) → drain_follows (loop_body s) d) := by
  obtain ⟨-, -, -, -, h1⟩ := flow_before cm0 s d h
  have hs := flow_step cm0 s d h
  have hst := flow_cycle_state cm0 s d h
  have hbase := decode_flow_base cm0 _ h1.base
  have hsz := loop_body_size s
  have hdn := h.pos.dnn
  have hdrf : (loop_body s).stage_DRF = (fetch (before_fetch s)).stage_DRF := by
    have h0 : (loop_body s).stage_DRF = (cycle s).1.stage_DRF := rfl
    rw [h0, hst]
  have hbehind : s.code_memory_size < d →
      marker (loop_body s) (s.code_memory_size - 1) ≤ marker (loop_body s) s.code_memory_size + 1 := by
    intro hlt
    have hb := hg.behind hlt
    have l1 := h.pos.live (s.code_memory_size - 1) (by omega) (by omega)
    have l2 := h.pos.live s.code_memory_size (by omega) hlt
    rw [hs.2.2 _ (by omega) (by omega), hs.2.2 _ (by omega) hlt]
    split_ifs <;> omega
  have hfree : d = s.code_memory_size → decode_hands_off (before_decode s) := by
    intro hd
    obtain ⟨g1, g2, -⟩ := hg.next hd
    apply decode_hands_off_blank
    · rw [before_decode_stage_DRF, g1]
      omega
    · exact h1.base.dbusy
    · rw [before_decode_stage_DRF]
      exact g2
  constructor
  · intro hy
    obtain ⟨hf', hmd, hpc⟩ := hs.1 hy
    constructor
    · intro hd
      rw [hsz] at hd
      obtain ⟨-, hf, -, -, -⟩ := decode_flow_pos_hand_off _ d h1.pos h1.front h1.hole hy
      have hD := decode_stage_DRF (before_decode s)
      have hfront : (before_fetch s).pc = 4000 + 4 * (d + 1)
          ∧ (before_fetch s).stage_F.stalled = 0 ∧ (before_fetch s).stage_DRF.stalled = 0 := by
        rcases hf with hf | ⟨-, hf2, -⟩
        · exact hf
        · have hf3 : (decode (before_decode s)).stage_DRF.pc = 4000 + 4 * (d + 1) := hf2
          rw [hD.1, hpc] at hf3
          omega
      have hh : fetch_hands_off (before_fetch s) := ⟨hbase.fbusy, hfront.2.1, hfront.2.2⟩
      obtain ⟨-, e2, -, -, e5, -⟩ := (fetch_effect (before_fetch s)).2.1 hh
      have hcode : ((before_fetch s).code_memory (d + 1)).opcode = (cm0 (d + 1)).opcode :=
        (hbase.code (d + 1)).1
      rw [hdrf, e2, e5, hfront.1, get_code_index_pc, hcode, hd, hblank]
      refine ⟨rfl, rfl, ?_⟩
      rw [← hd, show d + 1 - 1 = d by omega]
      exact hmd
    · intro hlt
      rw [hsz] at hlt ⊢
      by_cases hd : d = s.code_memory_size
      · obtain ⟨-, -, g3⟩ := hg.next hd
        have hm1 := hs.2.2 (d - 1) (by omega) (by omega)
        rw [g3, if_pos (by decide)] at hm1
        rw [← hd, hm1, hmd]
      · exact hbehind (by omega)
  · intro hn'
    constructor
    · intro hd
      rw [hsz] at hd
      exact absurd (hfree hd) hn'
    · intro hlt
      rw [hsz] at hlt ⊢
      exact hbehind hlt

/-- In a straight-line run of a non-empty program `drain_follows` holds at the
start of every iteration. -/
theorem drain_follows_at_cycle (cm0 : Int → APEX_Instruction) (s : APEX_CPU)
    (h : flow cm0 s 0) (hg : drain_follows s 0) (hn : 1 ≤ s.code_memory_size)
    (hblank : (cm0 s.code_memory_size).opcode = "") (k : Nat) :
    ∃ d, flow cm0 (at_cycle s k) d ∧ drain_follows (at_cycle s k) d := by
  induction k with
  | zero => exact ⟨0, h, hg⟩
  | succ m ih =>
    obtain ⟨d, hf, hd⟩ := ih
    have hsz := at_cycle_size s m
    have hs := flow_step cm0 _ d hf
    have hgs := drain_follows_step cm0 _ d hf hd (by rw [hsz]; exact hn)
      (by rw [hsz]; exact hblank)
    by_cases hy : decode_hands_off (before_decode (at_cycle s m))
    · exact ⟨d + 1, (hs.1 hy).1, hgs.1 hy⟩
    · exact ⟨d, hs.2.1 hy, hgs.2 hy⟩

/-- In a straight-line run of a non-empty program, an iteration that starts
with all instructions of the program finished in Writeback is one in which
`writeback` returns the stop signal, or a later one. -/
theorem flow_count_full (cm0 : Int → APEX_Instruction) (s : APEX_CPU) (d : Int)
    (h : flow cm0 s d) (hg : drain_follows s d) (hn : 1 ≤ s.code_memory_size)
    (hic : s.ins_completed = s.code_memory_size) : (cycle s).2 ≠ 0 := by
  have hcn := h.pos.cnt
  have hd : s.code_memory_size - 1 < d := by omega
  have h6 : marker s (s.code_memory_size - 1) = 6 :=
    (hcn.2.2 _ (by omega) hd).mpr (by omega)
  have hne : d ≠ s.code_memory_size := by
    intro hc
    obtain ⟨-, -, g3⟩ := hg.next hc
    rw [hc, h6] at g3
    exact absurd g3 (by decide)
  have hlt : s.code_memory_size < d := by omega
  have hb := hg.behind hlt
  have hl := h.pos.live _ (by omega) hlt
  have hn6 : marker s s.code_memory_size ≠ 6 := by
    intro hc
    have := (hcn.2.2 _ (by omega) hlt).mp hc
    omega
  have h5 : marker s s.code_memory_size = 5 := by omega
  have hwb := flow_writeback_processes cm0 s d _ h (by omega) hlt h5
  rw [cycle_result, writeback_result_plain _ h.base.cWB.2.2, if_pos]
  · decide
  · rw [hwb.2, get_code_index_pc]
    exact ⟨by omega, rfl⟩

/-! ### C18: a run cut short by the cycle bound -/

set_option maxRecDepth 100000 in
/-- C18: the unbounded run of `MOVC R1,#5; MOVC R2,#10; ADD R3,R1,R2` is left
through the stop signal at clock `T = 13`.  With the bound `N = 12` the run is
left through the loop condition, but in the state at the start of iteration 13,
after 13 iterations (clock 13), with `ins_completed = 3`, the number of
instructions of the program, not less; after 12 iterations `ins_completed` is
2. -/
theorem C18_count_reaches_program_length_before_drain :
    (∀ j : Nat, j < 13 →
        (cycle (at_cycle (enter_run (APEX_cpu_init (load prog_add blank) 3) 0) j)).2 = 0)
    ∧ (cycle (at_cycle (enter_run (APEX_cpu_init (load prog_add blank) 3) 0) 13)).2 = 1
    ∧ (APEX_cpu_run (APEX_cpu_init (load prog_add blank) 3) 12 0).clock = 13
    ∧ (APEX_cpu_run (APEX_cpu_init (load prog_add blank) 3) 12 0).ins_completed = 3
    ∧ prog_add.length = 3
    ∧ APEX_cpu_run (APEX_cpu_init (load prog_add blank) 3) 12 0
        = at_cycle (enter_run (APEX_cpu_init (load prog_add blank) 3) 0) 13
    ∧ (at_cycle (enter_run (APEX_cpu_init (load prog_add blank) 3) 0) 12).ins_completed = 2 := by
  refine ⟨by decide, by decide, by decide, by decide, by decide, ?_, by decide⟩
  exact run_exits_through_loop_condition (APEX_cpu_init (load prog_add blank) 3) 12 0 rfl
    (by decide)

/-! ### C21: the indices of the instruction store that the stages use -/

/-- The drain test of `writeback` succeeds only for a latch that addresses the
entry with index `code_memory_size`, the one right behind the store. -/
theorem writeback_stop_index (s : APEX_CPU) (hop : plain s.stage_WB.opcode)
    (h : (writeback s).2 ≠ 0) : latch_index s.stage_WB = some s.code_memory_size := by
  rw [writeback_result_plain s hop] at h
  have hc : s.stage_WB.pc ≥ 4000 ∧ get_code_index s.stage_WB.pc = s.code_memory_size := by
    by_contra hn
    rw [if_neg hn] at h
    exact h rfl
  unfold latch_index
  rw [if_pos hc.1, hc.2]

/-- Every run of a straight-line program of `regular` instructions with distinct
destinations reaches an iteration in which `writeback` addresses the entry right
behind the store. -/
theorem flow_run_leaves_the_store (prog : List APEX_Instruction) (flag : Int)
    (hreg : ∀ x ∈ prog, regular x) (hnd : (prog.map APEX_Instruction.rd).Nodup) :
    ∃ T : Nat,
      latch_index (at_cycle (enter_run (APEX_cpu_init (load prog blank) prog.length) flag)
        T).stage_WB = some (prog.length : Int) := by
  obtain ⟨T, -, hstop, -, -⟩ := flow_run prog flag hreg hnd
  have hok := program_ok_load prog hreg hnd
  have hpl : ∀ i, plain (load prog blank i).opcode := fun i => regular_plain _ (hok.reg i)
  have hflow := flow_init (load prog blank) prog.length flag hpl
  obtain ⟨d, -, hf⟩ := flow_at_cycle _ _ 0 hflow T
  rw [cycle_result] at hstop
  have h := writeback_stop_index _ hf.base.cWB.2.2 hstop
  rw [at_cycle_size] at h
  exact ⟨T, h⟩

set_option maxRecDepth 100000 in
/-- C21: in the run of the three-instruction program `MOVC R1,#5; MOVC R2,#10;
ADD R3,R1,R2` (no branch, no jump) the stages use indices outside `0 .. 2`.
`fetch` reads the entry with index 3 in iteration 3, reads it again and hands it
to Decode in iteration 7, and by iteration 12 reads the entry with index 8;
`decode` sets the marker of the entry with index 3 in iteration 8; `writeback`
processes the latch with index 3 in iteration 13 and sets its marker to `WB`.
All of this happens before the run stops: `writeback` returns 0 in the
iterations 0 to 12. -/
theorem C21_stages_use_indices_behind_the_store :
    (enter_run (APEX_cpu_init (load prog_add blank) 3) 0).code_memory_size = 3
    ∧ (∀ j : Nat, j < 13 →
        (cycle (at_cycle (enter_run (APEX_cpu_init (load prog_add blank) 3) 0) j)).2 = 0)
    ∧ fetch_index (before_fetch (at_cycle (enter_run (APEX_cpu_init (load prog_add blank) 3) 0)
        3)) = some 3
    ∧ fetch_hands_off (before_fetch (at_cycle (enter_run (APEX_cpu_init (load prog_add blank) 3)
        0) 7))
    ∧ fetch_index (before_fetch (at_cycle (enter_run (APEX_cpu_init (load prog_add blank) 3) 0)
        7)) = some 3
    ∧ decode_hands_off (before_decode (at_cycle (enter_run
        (APEX_cpu_init (load prog_add blank) 3) 0) 8))
    ∧ latch_index (before_decode (at_cycle (enter_run (APEX_cpu_init (load prog_add blank) 3) 0)
        8)).stage_DRF = some 3
    ∧ fetch_index (before_fetch (at_cycle (enter_run (APEX_cpu_init (load prog_add blank) 3) 0)
        12)) = some 8
    ∧ writeback_processes (at_cycle (enter_run (APEX_cpu_init (load prog_add blank) 3) 0) 13)
    ∧ latch_index (at_cycle (enter_run (APEX_cpu_init (load prog_add blank) 3) 0) 13).stage_WB
        = some 3
    ∧ marker (at_cycle (enter_run (APEX_cpu_init (load prog_add blank) 3) 0) 13) 3 = MEM2
    ∧ marker (cycle (at_cycle (enter_run (APEX_cpu_init (load prog_add blank) 3) 0) 13)).1 3
        = WB := by
  decide

/-! ### C22: the mode flag -/

/-- The opcode chain of `decode` does not read the mode flag. -/
theorem decode_read_flag (s : APEX_CPU) (e : Int) (l : CPU_Stage) :
    decode_read { s with ENABLE_DEBUG_MESSAGES := e } l = decode_read s l := rfl

/-- Except in `writeback`, the stage functions do not read the mode flag. -/
theorem stages_flag (s : APEX_CPU) (e : Int) :
    memory2 { s with ENABLE_DEBUG_MESSAGES := e } = { memory2 s with ENABLE_DEBUG_MESSAGES := e }
    ∧ memory1 { s with ENABLE_DEBUG_MESSAGES := e }
        = { memory1 s with ENABLE_DEBUG_MESSAGES := e }
    ∧ execute2 { s with ENABLE_DEBUG_MESSAGES := e }
        = { execute2 s with ENABLE_DEBUG_MESSAGES := e }
    ∧ execute1 { s with ENABLE_DEBUG_MESSAGES := e }
        = { execute1 s with ENABLE_DEBUG_MESSAGES := e }
    ∧ decode { s with ENABLE_DEBUG_MESSAGES := e } = { decode s with ENABLE_DEBUG_MESSAGES := e }
    ∧ fetch { s with ENABLE_DEBUG_MESSAGES := e } = { fetch s with ENABLE_DEBUG_MESSAGES := e }
    ∧ reconcile { s with ENABLE_DEBUG_MESSAGES := e }
        = { reconcile s with ENABLE_DEBUG_MESSAGES := e } := by
  refine ⟨?_, ?_, ?_, ?_, ?_, ?_, ?_⟩
  · unfold memory2
    simp only []
    split_ifs <;> rfl
  · unfold memory1
    simp only []
    split_ifs <;> rfl
  · unfold execute2
    simp only []
    split_ifs <;> rfl
  · unfold execute1
    simp only []
    split_ifs <;> rfl
  · unfold decode
    simp only [decode_read_flag]
    split_ifs <;> rfl
  · unfold fetch
    simp only []
    split_ifs <;> rfl
  · unfold reconcile
    simp only []
    split_ifs <;> rfl

/-- With no `HALT` in its latch, `writeback` does not read the mode flag. -/
theorem writeback_flag (s : APEX_CPU) (e : Int) (h : s.stage_WB.opcode ≠ "HALT") :
    writeback { s with ENABLE_DEBUG_MESSAGES := e }
      = ({ (writeback s).1 with ENABLE_DEBUG_MESSAGES := e }, (writeback s).2) := by
  unfold writeback writeback_exit
  simp only []
  split_ifs <;> first | rfl | (exfalso; simp_all)

/-- With no `HALT` in the Writeback latch, an iteration does not read the mode
flag. -/
theorem cycle_flag (s : APEX_CPU) (e : Int) (h : s.stage_WB.opcode ≠ "HALT") :
    cycle { s with ENABLE_DEBUG_MESSAGES := e }
      = ({ (cycle s).1 with ENABLE_DEBUG_MESSAGES := e }, (cycle s).2) := by
  unfold cycle
  simp only []
  rw [writeback_flag s e h]
  simp only []
  rw [(stages_flag _ e).1, (stages_flag _ e).2.1, (stages_flag _ e).2.2.1,
    (stages_flag _ e).2.2.2.1, (stages_flag _ e).2.2.2.2.1, (stages_flag _ e).2.2.2.2.2.1,
    (stages_flag _ e).2.2.2.2.2.2]

/-- With no `HALT` in the Writeback latch, a full iteration does not read the
mode flag. -/
theorem loop_body_flag (s : APEX_CPU) (e : Int) (h : s.stage_WB.opcode ≠ "HALT") :
    loop_body { s with ENABLE_DEBUG_MESSAGES := e }
      = { loop_body s with ENABLE_DEBUG_MESSAGES := e } := by
  unfold loop_body
  rw [cycle_flag s e h]

/-- One unrolling of the loop of `APEX_cpu_run`. -/
theorem run_loop_succ (m : Nat) (s : APEX_CPU) (n : Int) :
    run_loop (m + 1) s n =
      if s.clock ≤ n then
        if (cycle s).2 ≠ 0 then (cycle s).1 else run_loop m (loop_body s) n
      else s := rfl

/-- A run in which no `HALT` reaches the Writeback latch does not depend on the
mode flag, the flag itself apart. -/
theorem run_loop_flag (fuel : Nat) (n e : Int) :
    ∀ s : APEX_CPU, (∀ k : Nat, (at_cycle s k).stage_WB.opcode ≠ "HALT") →
      run_loop fuel { s with ENABLE_DEBUG_MESSAGES := e } n
        = { run_loop fuel s n with ENABLE_DEBUG_MESSAGES := e } := by
  induction fuel with
  | zero =>
    intro s _
    rfl
  | succ m ih =>
    intro s h
    have h0 : s.stage_WB.opcode ≠ "HALT" := h 0
    have hnext : ∀ k : Nat, (at_cycle (loop_body s) k).stage_WB.opcode ≠ "HALT" := by
      intro k
      rw [at_cycle_loop_body]
      exact h (k + 1)
    have hih := ih (loop_body s) hnext
    rw [run_loop_succ, run_loop_succ, loop_body_flag s e h0, cycle_flag s e h0]
    by_cases hc : s.clock ≤ n
    · have hc' : ({ s with ENABLE_DEBUG_MESSAGES := e } : APEX_CPU).clock ≤ n := hc
      rw [if_pos hc', if_pos hc]
      by_cases hr : (cycle s).2 ≠ 0
      · have hr' : (({ (cycle s).1 with ENABLE_DEBUG_MESSAGES := e }, (cycle s).2) :
            APEX_CPU × Int).2 ≠ 0 := hr
        rw [if_pos hr', if_pos hr]
      · have hr' : ¬ ((({ (cycle s).1 with ENABLE_DEBUG_MESSAGES := e }, (cycle s).2) :
            APEX_CPU × Int).2 ≠ 0) := hr
        rw [if_neg hr', if_neg hr]
        exact hih
    · have hc' : ¬ (({ s with ENABLE_DEBUG_MESSAGES := e } : APEX_CPU).clock ≤ n) := hc
      rw [if_neg hc', if_neg hc]

/-- A run from a state in which no `HALT` ever reaches the Writeback latch ends in
the same state for every value of the flag, the stored flag apart. -/
theorem run_flag (s : APEX_CPU) (n e : Int)
    (h : ∀ k : Nat, (at_cycle (enter_run s 0) k).stage_WB.opcode ≠ "HALT") :
    APEX_cpu_run s n e = { APEX_cpu_run s n 0 with ENABLE_DEBUG_MESSAGES := e } := by
  unfold APEX_cpu_run
  have he : enter_run s e = { enter_run s 0 with ENABLE_DEBUG_MESSAGES := e } := rfl
  rw [he]
  exact run_loop_flag _ n e (enter_run s 0) h

set_option maxRecDepth 100000 in
/-- C22: the runs of `MOVC R1,#5; HALT; MOVC R2,#7` with the cycle bound 10 and the
two values of the flag end differently: with flag 0 at clock 11 with
`ins_completed = 2`, with flag 1 at clock 7 with `ins_completed = 1`.  (Both end
with `regs[1] = 5`, `regs[2] = 0` and `pc = 4012`.) -/
theorem C22_flag_changes_clock_and_count :
    (APEX_cpu_run (APEX_cpu_init (load prog_halt_between blank) 3) 10 0).clock = 11
    ∧ (APEX_cpu_run (APEX_cpu_init (load prog_halt_between blank) 3) 10 1).clock = 7
    ∧ (APEX_cpu_run (APEX_cpu_init (load prog_halt_between blank) 3) 10 0).ins_completed = 2
    ∧ (APEX_cpu_run (APEX_cpu_init (load prog_halt_between blank) 3) 10 1).ins_completed = 1
    ∧ (APEX_cpu_run (APEX_cpu_init (load prog_halt_between blank) 3) 10 0).regs 1 = 5
    ∧ (APEX_cpu_run (APEX_cpu_init (load prog_halt_between blank) 3) 10 1).regs 1 = 5
    ∧ (APEX_cpu_run (APEX_cpu_init (load prog_halt_between blank) 3) 10 0).regs 2 = 0
    ∧ (APEX_cpu_run (APEX_cpu_init (load prog_halt_between blank) 3) 10 1).regs 2 = 0
    ∧ (APEX_cpu_run (APEX_cpu_init (load prog_halt_between blank) 3) 10 0).pc = 4012
    ∧ (APEX_cpu_run (APEX_cpu_init (load prog_halt_between blank) 3) 10 1).pc = 4012 := by
  decide

/-! ### C23: the Execute1 latch when `decode` scans for arithmetic instructions -/

/-- Whatever `execute1` does, it leaves its latch marked empty. -/
theorem execute1_stage_EX1_is_empty (s : APEX_CPU) : (execute1 s).stage_EX1.is_empty = 1 := by
  unfold execute1
  simp only []
  split_ifs <;> rfl

/-- The scan of the `BZ`/`BNZ` case of `decode` when the Execute1 latch is marked
empty. -/
theorem decode_read_branch_stall (s : APEX_CPU) (l : CPU_Stage)
    (he : s.stage_EX1.is_empty = 1) (hop : l.opcode = "BZ" ∨ l.opcode = "BNZ") :
    (decode_read s l).is_stage_stalled =
      branch_stall s.stage_EX2.is_empty s.stage_EX2.opcode s.stage_MEM1.is_empty
        s.stage_MEM1.opcode s.stage_MEM2.is_empty s.stage_MEM2.opcode s.stage_WB.is_empty
        s.stage_WB.opcode := by
  have h1 : ¬ (s.stage_EX1.is_empty = 0 ∧ is_arith s.stage_EX1.opcode = true) := by
    intro h
    rw [he] at h
    exact absurd h.1 (by decide)
  unfold branch_stall
  rcases hop with h | h <;> simp [decode_read, h, h1]

/-- The scan yields 0 or 1. -/
theorem branch_stall_values (a : Int) (p : String) (b : Int) (q : String) (c : Int)
    (r : String) (d : Int) (t : String) :
    branch_stall a p b q c r d t = 0 ∨ branch_stall a p b q c r d t = 1 := by
  unfold branch_stall
  split_ifs <;> simp

/-- C23: for every state `s`, after `execute1` the Execute1 latch has
`is_empty = 1`.  Hence, when `decode` runs right after `execute1`, the value of
`is_stage_stalled` it computes for a `BZ` or `BNZ` is `branch_stall` of the `is_empty`
flags and opcodes of the Execute2, Memory1, Memory2 and Writeback latches, it is
the same whatever opcode the Execute1 latch holds, and for an occupied Decode
latch that is not busy it is the stalled flag `decode` leaves in that latch. -/
theorem C23_branch_stall_ignores_execute1 (s : APEX_CPU) :
    (execute1 s).stage_EX1.is_empty = 1
    ∧ (∀ l : CPU_Stage, l.opcode = "BZ" ∨ l.opcode = "BNZ" →
        (decode_read (execute1 s) l).is_stage_stalled =
          branch_stall (execute1 s).stage_EX2.is_empty (execute1 s).stage_EX2.opcode
            (execute1 s).stage_MEM1.is_empty (execute1 s).stage_MEM1.opcode
            (execute1 s).stage_MEM2.is_empty (execute1 s).stage_MEM2.opcode
            (execute1 s).stage_WB.is_empty (execute1 s).stage_WB.opcode
        ∧ ∀ op : String,
            (decode_read
              { execute1 s with stage_EX1 := { (execute1 s).stage_EX1 with opcode := op } }
              l).is_stage_stalled = (decode_read (execute1 s) l).is_stage_stalled)
    ∧ ((execute1 s).stage_DRF.pc ≥ 4000 → (execute1 s).stage_DRF.busy = 0 →
        ((execute1 s).stage_DRF.opcode = "BZ" ∨ (execute1 s).stage_DRF.opcode = "BNZ") →
        (decode (execute1 s)).stage_DRF.stalled =
          branch_stall (execute1 s).stage_EX2.is_empty (execute1 s).stage_EX2.opcode
            (execute1 s).stage_MEM1.is_empty (execute1 s).stage_MEM1.opcode
            (execute1 s).stage_MEM2.is_empty (execute1 s).stage_MEM2.opcode
            (execute1 s).stage_WB.is_empty (execute1 s).stage_WB.opcode) := by
  have he := execute1_stage_EX1_is_empty s
  refine ⟨he, ?_, ?_⟩
  · intro l hop
    refine ⟨decode_read_branch_stall _ l he hop, ?_⟩
    intro op
    rw [decode_read_branch_stall _ l he hop]
    exact decode_read_branch_stall _ l he hop
  · intro hpc hb hop
    have hD := (decode_stage_DRF (execute1 s)).2.2.2
    have hr := decode_read_branch_stall (execute1 s)
      { (execute1 s).stage_DRF with stalled := 0, is_empty := 0 } he hop
    have hv := branch_stall_values (execute1 s).stage_EX2.is_empty (execute1 s).stage_EX2.opcode
      (execute1 s).stage_MEM1.is_empty (execute1 s).stage_MEM1.opcode
      (execute1 s).stage_MEM2.is_empty (execute1 s).stage_MEM2.opcode
      (execute1 s).stage_WB.is_empty (execute1 s).stage_WB.opcode
    have hp : decode_processes (execute1 s) := ⟨hpc, hb⟩
    rw [hD]
    rcases hv with h0 | h1
    · rw [h0]
      rw [h0] at hr
      rw [if_neg (fun h => h.2 ⟨hp, hr⟩)]
    · rw [h1]
      rw [h1] at hr
      rw [if_pos ⟨hp, fun h => by
        have h2 := h.2
        rw [hr] at h2
        exact absurd h2 (by decide)⟩]

set_option maxRecDepth 100000 in
/-- C23, witness: the state in which `execute1` runs in iteration 5 of the run of
`prog_branch_after_add`; afterwards the Decode latch holds the `BZ`, only the
Writeback latch is occupied by an arithmetic instruction, and `decode` stalls. -/
theorem C23_branch_stall_witness :
    (decode (execute1 (before_execute1
      (at_cycle (APEX_cpu_init (load prog_branch_after_add blank) 7) 5)))).stage_DRF.stalled =
      branch_stall
        (execute1 (before_execute1
          (at_cycle (APEX_cpu_init (load prog_branch_after_add blank) 7) 5))).stage_EX2.is_empty
        (execute1 (before_execute1
          (at_cycle (APEX_cpu_init (load prog_branch_after_add blank) 7) 5))).stage_EX2.opcode
        (execute1 (before_execute1
          (at_cycle (APEX_cpu_init (load prog_branch_after_add blank) 7) 5))).stage_MEM1.is_empty
        (execute1 (before_execute1
          (at_cycle (APEX_cpu_init (load prog_branch_after_add blank) 7) 5))).stage_MEM1.opcode
        (execute1 (before_execute1
          (at_cycle (APEX_cpu_init (load prog_branch_after_add blank) 7) 5))).stage_MEM2.is_empty
        (execute1 (before_execute1
          (at_cycle (APEX_cpu_init (load prog_branch_after_add blank) 7) 5))).stage_MEM2.opcode
        (execute1 (before_execute1
          (at_cycle (APEX_cpu_init (load prog_branch_after_add blank) 7) 5))).stage_WB.is_empty
        (execute1 (before_execute1
          (at_cycle (APEX_cpu_init (load prog_branch_after_add blank) 7) 5))).stage_WB.opcode
    ∧ (decode (execute1 (before_execute1
        (at_cycle (APEX_cpu_init (load prog_branch_after_add blank) 7) 5)))).stage_DRF.stalled
        = 1 :=
  ⟨(C23_branch_stall_ignores_execute1 (before_execute1
      (at_cycle (APEX_cpu_init (load prog_branch_after_add blank) 7) 5))).2.2
      (by decide) (by decide) (by decide), by decide⟩

/-! ### C2: validity words and instructions in flight -/

set_option maxRecDepth 100000 in
/-- What a flush does to a register claimed by a flushed instruction: in the run
of `BNZ #8; MOVC R1,#5; MOVC R2,#7` with a cycle bound of 20, the `MOVC R1` is
processed by `execute1` in iteration 3 and flushed by the taken branch when that
iteration is reconciled; the run finishes with `regs_valid[1] = 0` although none
of the seven latches holds an instruction with destination 1. -/
theorem flush_leaves_claimed_register_invalid :
    execute1_claims (at_cycle (APEX_cpu_init (load prog_branch_over blank) 3) 3) 1
    ∧ (APEX_cpu_run (APEX_cpu_init (load prog_branch_over blank) 3) 20 0).regs_valid 1 = 0
    ∧ ¬ ((APEX_cpu_run (APEX_cpu_init (load prog_branch_over blank) 3) 20 0).stage_F.pc ≥ 4000
        ∧ (APEX_cpu_run (APEX_cpu_init (load prog_branch_over blank) 3) 20 0).stage_F.rd = 1)
    ∧ ¬ ((APEX_cpu_run (APEX_cpu_init (load prog_branch_over blank) 3) 20 0).stage_DRF.pc ≥ 4000
        ∧ (APEX_cpu_run (APEX_cpu_init (load prog_branch_over blank) 3) 20 0).stage_DRF.rd = 1)
    ∧ ¬ ((APEX_cpu_run (APEX_cpu_init (load prog_branch_over blank) 3) 20 0).stage_EX1.pc ≥ 4000
        ∧ (APEX_cpu_run (APEX_cpu_init (load prog_branch_over blank) 3) 20 0).stage_EX1.rd = 1)
    ∧ ¬ ((APEX_cpu_run (APEX_cpu_init (load prog_branch_over blank) 3) 20 0).stage_EX2.pc ≥ 4000
        ∧ (APEX_cpu_run (APEX_cpu_init (load prog_branch_over blank) 3) 20 0).stage_EX2.rd = 1)
    ∧ ¬ ((APEX_cpu_run (APEX_cpu_init (load prog_branch_over blank) 3) 20 0).stage_MEM1.pc ≥ 4000
        ∧ (APEX_cpu_run (APEX_cpu_init (load prog_branch_over blank) 3) 20 0).stage_MEM1.rd = 1)
    ∧ ¬ ((APEX_cpu_run (APEX_cpu_init (load prog_branch_over blank) 3) 20 0).stage_MEM2.pc ≥ 4000
        ∧ (APEX_cpu_run (APEX_cpu_init (load prog_branch_over blank) 3) 20 0).stage_MEM2.rd = 1)
    ∧ ¬ ((APEX_cpu_run (APEX_cpu_init (load prog_branch_over blank) 3) 20 0).stage_WB.pc ≥ 4000
        ∧ (APEX_cpu_run (APEX_cpu_init (load prog_branch_over blank) 3) 20 0).stage_WB.rd = 1) := by
  decide

end APEX
